import Mathlib

/-!
# logency: a shallow embedding of the asynchronous logging core

The development follows the C++ sources under `include/logency`:

* `detail/thread/blocking_queue.hpp`, `detail/thread/blocking_pair_queue.hpp`
* `detail/thread/thread_pool.hpp`
* `sink.hpp`, `dispatcher.hpp`, `logger.hpp`, `manager.hpp`
* `detail/file/file_helper.hpp`, `sink_module/rotation_file_module.hpp`

Conventions of the embedding.

* A `std::vector` is a `List` of its elements; capacity is not part of the model, so
  `reserve` and `shrink_to_fit` leave the modelled value unchanged.
* An iterator into a vector is the index of the element it designates, an iterator range
  `[first, last)` handed to a callee is the list of elements between the two indices.
* A mutex-protected member function is one atomic state transformer.
* A thrown `std::exception` is a value of `exception`; a function that may throw returns the
  state it leaves behind together with `Option exception`. Every handler in the sources
  catches `const std::exception &`; objects of other types are never thrown in the model.
* `assert` is modelled with an explicit `NDEBUG` flag: a function containing assertions
  returns `none` when an assertion fails in a build without `NDEBUG` (the program aborts).
* `std::shared_ptr` / `std::weak_ptr` to the single thread pool and dispatcher of a manager are
  modelled by `Option`: `none` is an expired (or null) pointer.
* A shared pointer to a logger or a sink is an address; the object behind it is looked up in
  a map from addresses to objects. Destructors are `noexcept`: an exception that leaves one
  ends the program, and the function in which this happens returns `none`. The shared
  pointers callers hold are not part of the state: a member that destroys a shared pointer
  takes as an argument whether it is the last one to its object.
* A `std::filesystem::path` is the list of the characters of its pathname, in the POSIX
  format: the separator is `/` and there is no root name. Its members follow the
  decomposition the C++ standard gives for them.
* The file system is a map from pathnames to the contents of regular files. A size is a
  natural number of characters; sizes of files and strings stay far below the range of
  `std::uintmax_t`, so their sums are not reduced. Opening, writing and flushing a file
  do not fail.
-/

namespace logency

/-! ## Definitions -/

/-- A `std::exception` object, identified by the text `what()` returns. -/
structure exception where
  what : String
deriving DecidableEq, Repr

/-- Constructor of `logency::runtime_error` (core/exception.hpp). -/
def runtime_error (what : String) : exception := ⟨what⟩

/-- The `assert` of `<cassert>`: compiled out under `NDEBUG`, otherwise execution continues
only when the condition holds. The result says whether execution continues. -/
def assert (NDEBUG : Bool) (condition : Bool) : Bool := NDEBUG || condition

/-- Elements of the iterator range `[first, last)` of a container. -/
def range_of {α : Type} (container : List α) (first last : Nat) : List α :=
  (container.drop first).take (last - first)

/-- The call `container.erase(container.begin() + first, container.begin() + last)`. -/
def erase_range {α : Type} (container : List α) (first last : Nat) : List α :=
  container.take first ++ container.drop last

/-! ### detail/thread/blocking_queue.hpp -/

/-- Class `blocking_queue<T>`: the buffer guarded by `buffer_mutex_`. -/
structure blocking_queue (T : Type) where
  buffer_ : List T
deriving DecidableEq, Repr

namespace blocking_queue

variable {T : Type}

/-- Member `is_empty()`. -/
def is_empty (q : blocking_queue T) : Bool := q.buffer_.isEmpty

/-- Member `size()`. -/
def size (q : blocking_queue T) : Nat := q.buffer_.length

/-- Member `enqueue(value)`: returns `should_notify` and the queue after `push_back`. -/
def enqueue (q : blocking_queue T) (value : T) : Bool × blocking_queue T :=
  let should_notify := q.buffer_.isEmpty
  (should_notify, { buffer_ := q.buffer_ ++ [value] })

/-- Member `enqueue_bulk(begin, end)`; `range` lists the elements of `[begin, end)`. -/
def enqueue_bulk (q : blocking_queue T) (range : List T) : Bool × blocking_queue T :=
  let should_notify := q.buffer_.isEmpty
  (should_notify, { buffer_ := q.buffer_ ++ range })

/-- Member `reserve(size)`: only the capacity changes. -/
def reserve (q : blocking_queue T) (_size : Nat) : blocking_queue T := q

/-- Member `shrink_to_fit()`: only the capacity changes. -/
def shrink_to_fit (q : blocking_queue T) : blocking_queue T := q

/-- Member `try_swap_bulk(out)`: returns the flag, the queue and the container `out`
afterwards. -/
def try_swap_bulk (q : blocking_queue T) (out : List T) : Bool × blocking_queue T × List T :=
  if q.buffer_.isEmpty then
    (false, q, out)
  else
    (true, { buffer_ := out }, q.buffer_)

end blocking_queue

/-! ### detail/thread/blocking_pair_queue.hpp -/

/-- Class `blocking_pair_queue<T, U>`: the two buffers guarded by `buffer_mutex_`. -/
structure blocking_pair_queue (T U : Type) where
  first_buffer_ : List T
  second_buffer_ : List U
deriving DecidableEq, Repr

namespace blocking_pair_queue

variable {T U : Type}

/-- The condition of every `assert(first_buffer_.size() == second_buffer_.size())`. -/
def same_size (q : blocking_pair_queue T U) : Bool :=
  q.first_buffer_.length == q.second_buffer_.length

/-- Member `is_empty()`. -/
def is_empty (NDEBUG : Bool) (q : blocking_pair_queue T U) : Option Bool :=
  if assert NDEBUG q.same_size then some q.first_buffer_.isEmpty else none

/-- Member `size()`. -/
def size (NDEBUG : Bool) (q : blocking_pair_queue T U) : Option Nat :=
  if assert NDEBUG q.same_size then some q.first_buffer_.length else none

/-- Member `enqueue(first, second)`. -/
def enqueue (NDEBUG : Bool) (q : blocking_pair_queue T U) (first : T) (second : U) :
    Option (Bool × blocking_pair_queue T U) :=
  if assert NDEBUG q.same_size then
    let should_notify := q.first_buffer_.isEmpty
    let q1 : blocking_pair_queue T U :=
      { first_buffer_ := q.first_buffer_ ++ [first],
        second_buffer_ := q.second_buffer_ ++ [second] }
    if assert NDEBUG q1.same_size then some (should_notify, q1) else none
  else
    none

/-- Member `enqueue_bulk(first_begin, first_end, second_begin, second_end)`; the two lists
are the elements of the two input ranges. -/
def enqueue_bulk (NDEBUG : Bool) (q : blocking_pair_queue T U) (first : List T)
    (second : List U) : Option (Bool × blocking_pair_queue T U) :=
  if assert NDEBUG q.same_size then
    let should_notify := q.first_buffer_.isEmpty
    let q1 : blocking_pair_queue T U :=
      { first_buffer_ := q.first_buffer_ ++ first,
        second_buffer_ := q.second_buffer_ ++ second }
    if assert NDEBUG q1.same_size then some (should_notify, q1) else none
  else
    none

/-- Member `reserve(size)`: only the capacities change. -/
def reserve (NDEBUG : Bool) (q : blocking_pair_queue T U) (_size : Nat) :
    Option (blocking_pair_queue T U) :=
  if assert NDEBUG q.same_size then
    if assert NDEBUG q.same_size then some q else none
  else
    none

/-- Member `shrink_to_fit()`: only the capacities change. -/
def shrink_to_fit (NDEBUG : Bool) (q : blocking_pair_queue T U) :
    Option (blocking_pair_queue T U) :=
  if assert NDEBUG q.same_size then
    if assert NDEBUG q.same_size then some q else none
  else
    none

/-- Member `try_swap_bulk(first, second)`: returns the flag, the queue and the two
containers afterwards. The size test on the two containers precedes the lock and the
assertion. -/
def try_swap_bulk (NDEBUG : Bool) (q : blocking_pair_queue T U) (first : List T)
    (second : List U) : Option (Bool × blocking_pair_queue T U × List T × List U) :=
  if first.length != second.length then
    some (false, q, first, second)
  else if assert NDEBUG q.same_size then
    if q.first_buffer_.isEmpty then
      some (false, q, first, second)
    else
      let q1 : blocking_pair_queue T U := { first_buffer_ := first, second_buffer_ := second }
      if assert NDEBUG q1.same_size then
        some (true, q1, q.first_buffer_, q.second_buffer_)
      else
        none
  else
    none

end blocking_pair_queue

/-! ### detail/message_pack.hpp -/

/-- Struct `message_pack_base<MessageType>`: the name of the logger and the message. -/
structure message_pack_base (MessageType : Type) where
  logger_name : String
  message : MessageType
deriving DecidableEq, Repr

/-- Alias `message_pack<MessageType>`, a shared pointer to a `message_pack_base`; the packs
moved through the queues are never null. -/
abbrev message_pack (MessageType : Type) := message_pack_base MessageType

/-- Function `make_message_pack(logger, message)`. -/
def make_message_pack {MessageType : Type} (logger : String) (message : MessageType) :
    message_pack MessageType :=
  { logger_name := logger, message := message }

/-! ### detail/thread/thread_pool.hpp -/

/-- The two implementations of `thread_unit_interface`: the token of the dispatcher and the
token of a sink, which holds a shared pointer `myself_` to its sink. -/
inductive thread_unit (S : Type) where
  | dispatcher_token
  | sink_token (myself_ : S)
deriving DecidableEq, Repr

/-- An `error_handler_type`, `std::function<void(const std::exception &)>`: a handler is
identified by a number and every invocation is recorded with the exception it received. -/
abbrev error_handler_type := Nat

/-- Class `thread_pool`: the queue of tasks not yet taken by a worker and the handler. -/
structure thread_pool (S : Type) where
  task_queue_ : List (thread_unit S)
  error_handler_ : Option error_handler_type
deriving DecidableEq, Repr

/-- Member `thread_pool::enqueue(task)`. -/
def thread_pool.enqueue {S : Type} (pool : thread_pool S) (task : thread_unit S) :
    thread_pool S :=
  { pool with task_queue_ := pool.task_queue_ ++ [task] }

/-! ### sink_module/module_interface.hpp -/

/-- A call of one of the two virtual members of `module_interface`. -/
inductive module_call (MessageType : Type) where
  | log_message (logger : String) (message : MessageType)
  | flush
deriving DecidableEq, Repr

/-- A backend behind `module_interface`. Its behaviour, as far as a sink can observe it, is
whether a call throws given the calls made before; `calls` lists every call made so far, the
throwing ones included. -/
structure sink_module (MessageType : Type) where
  throws : List (module_call MessageType) → module_call MessageType → Option exception
  calls : List (module_call MessageType)

/-- One call into the module: the call is recorded, the result says whether it threw. -/
def sink_module.call {MessageType : Type} (m : sink_module MessageType)
    (c : module_call MessageType) : sink_module MessageType × Option exception :=
  ({ m with calls := m.calls ++ [c] }, m.throws m.calls c)

/-! ### sink.hpp -/

/-- The types `filter_type` and `flusher_type`,
`std::function<bool(string_view_type, const message_type &)>`: the callable may throw. -/
abbrev filter_type (MessageType : Type) := String → MessageType → Except exception Bool

/-- Class `sink<MessageType>`. `weak_this` is the pointer `shared_from_this()` returns; the
weak pointer `thread_pool_` is passed to the members that use it. -/
structure sink (S MessageType : Type) where
  weak_this : S
  queue_ : blocking_queue (message_pack MessageType)
  queue_output_tray_ : List (message_pack MessageType)
  name_ : String
  filter_ : Option (filter_type MessageType)
  flusher_ : Option (filter_type MessageType)
  sink_module_ : sink_module MessageType

namespace sink

variable {S MessageType : Type}

/-- Member `should_flush(pack)`. -/
def should_flush (s : sink S MessageType) (pack : message_pack MessageType) :
    Except exception Bool :=
  match s.flusher_ with
  | some flusher => flusher pack.logger_name pack.message
  | none => .ok false

/-- Member `should_log(pack)`. -/
def should_log (s : sink S MessageType) (pack : message_pack MessageType) :
    Except exception Bool :=
  match s.filter_ with
  | some filter => filter pack.logger_name pack.message
  | none => .ok true

/-- Member `notify_thread_pool()`: returns the pool afterwards and the exception thrown when
the weak pointer has expired. -/
def notify_thread_pool (s : sink S MessageType) (thread_pool_ : Option (thread_pool S)) :
    Option (thread_pool S) × Option exception :=
  match thread_pool_ with
  | none => (none, some (runtime_error "Thread pool does not exist any longer."))
  | some pool => (some (pool.enqueue (.sink_token s.weak_this)), none)

/-- Member `log_message(begin, end)`; `range` lists the elements of `[begin, end)`. -/
def log_message (s : sink S MessageType) (thread_pool_ : Option (thread_pool S))
    (range : List (message_pack MessageType)) :
    (sink S MessageType × Option (thread_pool S)) × Option exception :=
  if range.isEmpty then
    ((s, thread_pool_), none)
  else
    match s.queue_.enqueue_bulk range with
    | (true, queue) =>
      let s1 := { s with queue_ := queue }
      match s1.notify_thread_pool thread_pool_ with
      | (pool1, thrown) => ((s1, pool1), thrown)
    | (false, queue) => (({ s with queue_ := queue }, thread_pool_), none)

/-- The `while (tail != end)` loop of `log` and the call of `log_message` after it. `rest`
holds the elements from `tail` to `end`, `head` and `tail` are the two iterators. -/
def log_walk (container : List (message_pack MessageType)) :
    List (message_pack MessageType) → Nat → Nat → sink S MessageType →
    Option (thread_pool S) → (sink S MessageType × Option (thread_pool S)) × Option exception
  | [], head, tail, s, thread_pool_ =>
    s.log_message thread_pool_ (range_of container head tail)
  | pack :: rest, head, tail, s, thread_pool_ =>
    match s.should_log pack with
    | .error e => ((s, thread_pool_), some e)
    | .ok false =>
      match s.log_message thread_pool_ (range_of container head tail) with
      | (state, some e) => (state, some e)
      | ((s1, pool1), none) => log_walk container rest (tail + 1) (tail + 1) s1 pool1
    | .ok true => log_walk container rest head (tail + 1) s thread_pool_

/-- Member `log(begin, end)`; `range` lists the elements of `[begin, end)`. -/
def log (s : sink S MessageType) (thread_pool_ : Option (thread_pool S))
    (range : List (message_pack MessageType)) :
    (sink S MessageType × Option (thread_pool S)) × Option exception :=
  if range.isEmpty then
    ((s, thread_pool_), none)
  else
    log_walk range range 0 0 s thread_pool_

/-- The `for` loop inside the `try` block of `sink_message_from_tray`. `rest` holds the
elements from the iterator `pack` to the end of the tray; the result carries the value of
`pack` when the loop ends or throws. -/
def sink_message_from_tray_loop :
    List (message_pack MessageType) → Nat → sink S MessageType →
    sink S MessageType × Nat × Option exception
  | [], pack, s => (s, pack, none)
  | inst :: rest, pack, s =>
    match s.sink_module_.call (.log_message inst.logger_name inst.message) with
    | (module1, some e) => ({ s with sink_module_ := module1 }, pack, some e)
    | (module1, none) =>
      let s1 := { s with sink_module_ := module1 }
      match s1.should_flush inst with
      | .error e => (s1, pack, some e)
      | .ok false => sink_message_from_tray_loop rest (pack + 1) s1
      | .ok true =>
        match module1.call .flush with
        | (module2, some e) => ({ s1 with sink_module_ := module2 }, pack, some e)
        | (module2, none) =>
          sink_message_from_tray_loop rest (pack + 1) { s1 with sink_module_ := module2 }

/-- Member `sink_message_from_tray(tray)`; both call sites pass `queue_output_tray_`. An
exception thrown by `notify_thread_pool()` inside the handler replaces the caught one. -/
def sink_message_from_tray (s : sink S MessageType) (thread_pool_ : Option (thread_pool S)) :
    (sink S MessageType × Option (thread_pool S)) × Option exception :=
  match sink_message_from_tray_loop s.queue_output_tray_ 0 s with
  | (s1, pack, some e) =>
    let s2 := { s1 with
      queue_output_tray_ := erase_range s1.queue_output_tray_ 0 (pack + 1) }
    match s2.notify_thread_pool thread_pool_ with
    | (pool1, some e1) => ((s2, pool1), some e1)
    | (pool1, none) => ((s2, pool1), some e)
  | (s1, _, none) => (({ s1 with queue_output_tray_ := [] }, thread_pool_), none)

/-- Member `sink_message()`, the body of the task a sink puts on the thread pool. -/
def sink_message (s : sink S MessageType) (thread_pool_ : Option (thread_pool S)) :
    (sink S MessageType × Option (thread_pool S)) × Option exception :=
  match s.sink_message_from_tray thread_pool_ with
  | (state, some e) => (state, some e)
  | ((s1, pool1), none) =>
    match s1.queue_.try_swap_bulk s1.queue_output_tray_ with
    | (false, _, _) => ((s1, pool1), none)
    | (true, queue, tray) =>
      sink_message_from_tray { s1 with queue_ := queue, queue_output_tray_ := tray } pool1

end sink

/-! ### dispatcher.hpp -/

/-- Class `dispatcher<MessageType>`. An element of the logger tray is a shared pointer to a
logger (`L` is the type of these pointers, compared with `get()`); the pointers enqueued by
`logger::log_inner` come from `shared_from_this()` and are never null. -/
structure dispatcher (L MessageType : Type) where
  queue_ : blocking_pair_queue L (message_pack MessageType)
  logger_tray_ : List L
  message_tray_ : List (message_pack MessageType)
deriving DecidableEq, Repr

/-- What the `try` block of `dispatch_message_from_tray` leaves behind: the state, the
iterators `current_logger` and `message_tail`, and the exception when one was thrown. -/
structure dispatch_walk_result (σ : Type) where
  state : σ
  current_logger : Nat
  message_tail : Nat
  thrown : Option exception

namespace dispatcher

variable {L S MessageType σ : Type}

/-- Member `notify_thread_pool()`. -/
def notify_thread_pool (thread_pool_ : Option (thread_pool S)) :
    Option (thread_pool S) × Option exception :=
  match thread_pool_ with
  | some pool => (some (pool.enqueue .dispatcher_token), none)
  | none => (none, some (runtime_error "Thread pool does not exist any longer."))

/-- The `try` block of `dispatch_message_from_tray`: the `for` loop and the delivery after
it. `rest` holds the loggers from the iterator `current_logger` to the end of the tray,
`destination` is the pointer the iterator of that name designates. `deliver l range` stands
for `l->dispatch_message_to_sinks(begin, end)` and acts on the state `σ`. The assertion
`current_logger->get() != nullptr` of the loop body holds for every value of `L`. -/
def dispatch_walk [DecidableEq L]
    (deliver : L → List (message_pack MessageType) → σ → σ × Option exception)
    (messages : List (message_pack MessageType)) :
    List L → L → Nat → Nat → Nat → σ → dispatch_walk_result σ
  | [], destination, current_logger, message_head, message_tail, state =>
    match deliver destination (range_of messages message_head message_tail) state with
    | (state1, thrown) => ⟨state1, current_logger, message_tail, thrown⟩
  | logger :: rest, destination, current_logger, message_head, message_tail, state =>
    if destination ≠ logger then
      match deliver destination (range_of messages message_head message_tail) state with
      | (state1, some e) => ⟨state1, current_logger, message_tail, some e⟩
      | (state1, none) =>
        dispatch_walk deliver messages rest logger (current_logger + 1) message_tail
          (message_tail + 1) state1
    else
      dispatch_walk deliver messages rest destination (current_logger + 1) message_head
        (message_tail + 1) state

/-- Member `dispatch_message_from_tray(loggers, messages)`; both call sites pass
`logger_tray_` and `message_tray_`. The state is what the deliveries act on, paired with
the weak pointer to the thread pool. An exception thrown by `notify_thread_pool()` inside
the handler replaces the caught one. -/
def dispatch_message_from_tray [DecidableEq L] (NDEBUG : Bool)
    (deliver : L → List (message_pack MessageType) → σ × Option (thread_pool S) →
      (σ × Option (thread_pool S)) × Option exception)
    (d : dispatcher L MessageType) (state : σ × Option (thread_pool S)) :
    Option ((dispatcher L MessageType × σ × Option (thread_pool S)) × Option exception) :=
  if assert NDEBUG (d.logger_tray_.length == d.message_tray_.length) then
    match d.logger_tray_ with
    | [] => some ((d, state), none)
    | destination :: rest =>
      let r := dispatch_walk deliver d.message_tray_ rest destination 1 0 1 state
      match r.thrown with
      | some e =>
        let d1 := { d with
          logger_tray_ := erase_range d.logger_tray_ 0 r.current_logger,
          message_tray_ := erase_range d.message_tray_ 0 r.message_tail }
        match notify_thread_pool r.state.2 with
        | (pool1, some e1) => some ((d1, r.state.1, pool1), some e1)
        | (pool1, none) => some ((d1, r.state.1, pool1), some e)
      | none => some (({ d with logger_tray_ := [], message_tray_ := [] }, r.state), none)
  else
    none

/-- Member `dispatch()`, the body of the task the dispatcher puts on the thread pool. -/
def dispatch [DecidableEq L] (NDEBUG : Bool)
    (deliver : L → List (message_pack MessageType) → σ × Option (thread_pool S) →
      (σ × Option (thread_pool S)) × Option exception)
    (d : dispatcher L MessageType) (state : σ × Option (thread_pool S)) :
    Option ((dispatcher L MessageType × σ × Option (thread_pool S)) × Option exception) :=
  match dispatch_message_from_tray NDEBUG deliver d state with
  | none => none
  | some (after, some e) => some (after, some e)
  | some ((d1, state1), none) =>
    match d1.queue_.try_swap_bulk NDEBUG d1.logger_tray_ d1.message_tray_ with
    | none => none
    | some (false, queue, loggers, messages) =>
      some (({ queue_ := queue, logger_tray_ := loggers, message_tray_ := messages }, state1),
        none)
    | some (true, queue, loggers, messages) =>
      dispatch_message_from_tray NDEBUG deliver
        { queue_ := queue, logger_tray_ := loggers, message_tray_ := messages } state1

/-- Member `enqueue(logger, message)`. -/
def enqueue (NDEBUG : Bool) (d : dispatcher L MessageType)
    (thread_pool_ : Option (thread_pool S)) (logger : L)
    (message : message_pack MessageType) :
    Option ((dispatcher L MessageType × Option (thread_pool S)) × Option exception) :=
  match d.queue_.enqueue NDEBUG logger message with
  | none => none
  | some (false, queue) => some (({ d with queue_ := queue }, thread_pool_), none)
  | some (true, queue) =>
    match notify_thread_pool thread_pool_ with
    | (pool1, thrown) => some (({ d with queue_ := queue }, pool1), thrown)

end dispatcher

/-! ### logger.hpp -/

/-- Class `logger<MessageType>`. `weak_this` is the pointer `shared_from_this()` returns,
`sinks_` holds shared pointers to sinks (`S` is the type of these pointers); the weak
pointer `dispatcher_` is resolved in the surrounding `world`. -/
structure logger (L S MessageType : Type) where
  weak_this : L
  name_ : String
  sinks_ : List S
  filter_ : Option (filter_type MessageType)
  error_handler_ : Option error_handler_type
  mark_as_destroy_ : Bool

namespace logger

variable {L S MessageType : Type}

/-- Member `should_log(pack)`: the filter receives `name()` and the message. -/
def should_log (lg : logger L S MessageType) (pack : message_pack MessageType) :
    Except exception Bool :=
  match lg.filter_ with
  | some filter => filter lg.name_ pack.message
  | none => .ok true

/-- The range-based `for` loop of `dispatch_message_to_sinks`: `sinks` maps a sink pointer
to the object it designates. -/
def dispatch_message_to_sinks_loop [DecidableEq S] (range : List (message_pack MessageType)) :
    List S → (S → sink S MessageType) × Option (thread_pool S) →
    ((S → sink S MessageType) × Option (thread_pool S)) × Option exception
  | [], state => (state, none)
  | pointer :: rest, (sinks, thread_pool_) =>
    match (sinks pointer).log thread_pool_ range with
    | ((s1, pool1), some e) => ((Function.update sinks pointer s1, pool1), some e)
    | ((s1, pool1), none) =>
      dispatch_message_to_sinks_loop range rest (Function.update sinks pointer s1, pool1)

/-- Member `dispatch_message_to_sinks(begin, end)`. -/
def dispatch_message_to_sinks [DecidableEq S] (lg : logger L S MessageType)
    (range : List (message_pack MessageType))
    (state : (S → sink S MessageType) × Option (thread_pool S)) :
    ((S → sink S MessageType) × Option (thread_pool S)) × Option exception :=
  if range.isEmpty then
    (state, none)
  else
    dispatch_message_to_sinks_loop range lg.sinks_ state

/-- Constructor `logger(name, dispatcher)`: no sink, no filter, no error handler, not marked
as destroyed. `pointer` is the address of the new object. -/
def construct (pointer : L) (name : String) : logger L S MessageType :=
  { weak_this := pointer,
    name_ := name,
    sinks_ := [],
    filter_ := none,
    error_handler_ := none,
    mark_as_destroy_ := false }

/-- Member `find_sink_location(sink)`, `std::find` over the shared pointers. The iterator
it returns is a position in `sinks_`; `sinks_.end()` is `sinks_.length`. -/
def find_sink_location [DecidableEq S] (lg : logger L S MessageType) (sink : S) : Nat :=
  lg.sinks_.findIdx fun pointer => pointer == sink

/-- Member `find_sink_location(name)`, `std::find_if` with `sink->name() == name`; `sinks`
maps a sink pointer to the object it designates. -/
def find_sink_location_by_name (sinks : S → sink S MessageType)
    (lg : logger L S MessageType) (name : String) : Nat :=
  lg.sinks_.findIdx fun pointer => (sinks pointer).name_ == name

/-- Member `delete_sink_inner(where)`: `sinks_.erase(where)`. -/
def delete_sink_inner (lg : logger L S MessageType) (position : Nat) :
    logger L S MessageType :=
  { lg with sinks_ := lg.sinks_.eraseIdx position }

/-- Member `add_sink(sink)`. -/
def add_sink [DecidableEq S] (lg : logger L S MessageType) (sink : S) :
    logger L S MessageType × Option exception :=
  if lg.find_sink_location sink != lg.sinks_.length then
    (lg, some (runtime_error "This logger has connected to the sink already."))
  else
    ({ lg with sinks_ := lg.sinks_ ++ [sink] }, none)

/-- Member `delete_sink(name)`. -/
def delete_sink_by_name (sinks : S → sink S MessageType) (lg : logger L S MessageType)
    (name : String) : logger L S MessageType × Option exception :=
  let position := lg.find_sink_location_by_name sinks name
  if position == lg.sinks_.length then
    (lg, some (runtime_error "Cannot found the sink requested in the logger."))
  else
    (lg.delete_sink_inner position, none)

/-- Member `delete_sink(sink)`. -/
def delete_sink [DecidableEq S] (lg : logger L S MessageType) (sink : S) :
    logger L S MessageType × Option exception :=
  let position := lg.find_sink_location sink
  if position == lg.sinks_.length then
    (lg, some (runtime_error "Cannot found the sink requested in the logger."))
  else
    (lg.delete_sink_inner position, none)

/-- Member `find_sink(name)`: the pointer found, `none` for `nullptr`. -/
def find_sink (sinks : S → sink S MessageType) (lg : logger L S MessageType)
    (name : String) : Option S :=
  let position := lg.find_sink_location_by_name sinks name
  if position != lg.sinks_.length then lg.sinks_.get? position else none

/-- Member `mark_as_destroy()`. -/
def mark_as_destroy (lg : logger L S MessageType) : logger L S MessageType :=
  { lg with mark_as_destroy_ := true }

/-- Member `set_error_handler(handler)`; `none` is an empty `std::function`. -/
def set_error_handler (lg : logger L S MessageType) (handler : Option error_handler_type) :
    logger L S MessageType :=
  { lg with error_handler_ := handler }

end logger

/-! ### The objects of one manager -/

/-- The objects a manager owns and the pointers between them: the thread pool and the
dispatcher (`none` once the object is gone, so that a weak pointer to it has expired), the
loggers and the sinks behind their shared pointers, and the record of the invocations of
error handlers. -/
structure world (L S MessageType : Type) where
  thread_pool_ : Option (thread_pool S)
  dispatcher_ : Option (dispatcher L MessageType)
  loggers : L → logger L S MessageType
  sinks : S → sink S MessageType
  error_handler_calls : List (error_handler_type × exception)

namespace world

variable {L S MessageType : Type}

/-- Member `logger::log_inner(args...)` of the logger behind `pointer`. `args` is the result
of the construction `message_type{args...}`: the message, or the exception the constructor
throws. -/
def log_inner (NDEBUG : Bool) (w : world L S MessageType) (pointer : L)
    (args : Except exception MessageType) :
    Option (world L S MessageType × Option exception) :=
  let lg := w.loggers pointer
  if lg.mark_as_destroy_ then
    some (w, some (runtime_error
      "This logger is marked as destroyed. It is illegal to log this logger anymore."))
  else
    match w.dispatcher_ with
    | none => some (w, some (runtime_error "Dispatcher does not exist."))
    | some d =>
      match args with
      | .error e => some (w, some e)
      | .ok message =>
        let pack := make_message_pack lg.name_ message
        match lg.should_log pack with
        | .error e => some (w, some e)
        | .ok false => some (w, none)
        | .ok true =>
          match d.enqueue NDEBUG w.thread_pool_ lg.weak_this pack with
          | none => none
          | some ((d1, pool1), thrown) =>
            some ({ w with dispatcher_ := some d1, thread_pool_ := pool1 }, thrown)

/-- Member `logger::log(args...)` of the logger behind `pointer`: an exception of
`log_inner` goes to the error handler when one is installed and to the caller otherwise. -/
def log (NDEBUG : Bool) (w : world L S MessageType) (pointer : L)
    (args : Except exception MessageType) :
    Option (world L S MessageType × Option exception) :=
  match w.log_inner NDEBUG pointer args with
  | none => none
  | some (w1, none) => some (w1, none)
  | some (w1, some e) =>
    match (w.loggers pointer).error_handler_ with
    | some handler =>
      some ({ w1 with error_handler_calls := w1.error_handler_calls ++ [(handler, e)] }, none)
    | none => some (w1, some e)

/-- Member `operate_by_thread()` of a task. The token of the dispatcher runs
`dispatcher::dispatch()`, where a delivery to a logger is its `dispatch_message_to_sinks`;
the token of a sink runs `sink::sink_message()`. A token keeps its object alive, so the
dispatcher of a queued token exists. -/
def operate_by_thread [DecidableEq L] [DecidableEq S] (NDEBUG : Bool)
    (w : world L S MessageType) :
    thread_unit S → Option (world L S MessageType × Option exception)
  | .dispatcher_token =>
    match w.dispatcher_ with
    | none => some (w, none)
    | some d =>
      match d.dispatch NDEBUG (fun pointer range state =>
          (w.loggers pointer).dispatch_message_to_sinks range state)
          (w.sinks, w.thread_pool_) with
      | none => none
      | some ((d1, sinks1, pool1), thrown) =>
        some ({ w with dispatcher_ := some d1, sinks := sinks1, thread_pool_ := pool1 },
          thrown)
  | .sink_token myself_ =>
    match (w.sinks myself_).sink_message w.thread_pool_ with
    | ((s1, pool1), thrown) =>
      some ({ w with sinks := Function.update w.sinks myself_ s1, thread_pool_ := pool1 },
        thrown)

/-- The `catch` block of `thread_pool::thread_loop()`: an exception thrown by a task is
passed to the error handler when one is installed and dropped otherwise. The result is the
record of handler invocations. -/
def handle_thrown (handler : Option error_handler_type) (thrown : Option exception)
    (calls : List (error_handler_type × exception)) : List (error_handler_type × exception) :=
  match thrown, handler with
  | some e, some h => calls ++ [(h, e)]
  | _, _ => calls

/-- One iteration of `thread_pool::thread_loop()` by a worker that takes the task at
position `i` of the task queue (position 0 for a pool with a single worker): the task is
removed from the queue and executed, and an exception it throws is passed to the error
handler of the pool when one is installed. Nothing happens when there is no such task. -/
def run_task [DecidableEq L] [DecidableEq S] (NDEBUG : Bool) (w : world L S MessageType)
    (i : Nat) : Option (world L S MessageType) :=
  match w.thread_pool_ with
  | none => some w
  | some pool =>
    match pool.task_queue_.get? i with
    | none => some w
    | some task =>
      let w1 := { w with
        thread_pool_ := some { pool with task_queue_ := pool.task_queue_.eraseIdx i } }
      match w1.operate_by_thread NDEBUG task with
      | none => none
      | some (w2, thrown) =>
        some { w2 with
          error_handler_calls := handle_thrown pool.error_handler_ thrown w2.error_handler_calls }

/-- Whether the task queue of the pool is empty (also when there is no pool). -/
def is_task_queue_empty (w : world L S MessageType) : Bool :=
  match w.thread_pool_ with
  | none => true
  | some pool => pool.task_queue_.isEmpty

/-- The work done during `thread_pool::wait_until_queue_empty()` with one worker: the task
at the front of the queue is executed until the queue is empty. `fuel` bounds the number of
tasks executed. -/
def wait_until_queue_empty [DecidableEq L] [DecidableEq S] (NDEBUG : Bool) :
    Nat → world L S MessageType → Option (world L S MessageType)
  | 0, w => some w
  | fuel + 1, w =>
    if w.is_task_queue_empty then
      some w
    else
      match w.run_task NDEBUG 0 with
      | none => none
      | some w1 => wait_until_queue_empty NDEBUG fuel w1

end world

/-! ### std::unordered_map -/

/-- A `std::unordered_map<string_type, V>`: its elements in the order an iteration visits
them; the keys are unique. -/
structure unordered_map (V : Type) where
  entries : List (String × V)
  unique : (entries.map Prod.fst).Nodup

namespace unordered_map

variable {V : Type}

/-- The search behind `find(key)`, from the element at `position` on. -/
def find_from (key : String) : List (String × V) → Nat → Option (Nat × V)
  | [], _ => none
  | entry :: rest, position =>
    if entry.1 == key then some (position, entry.2) else find_from key rest (position + 1)

/-- Member `find(key)`. The iterator it returns is the position of the element together
with its mapped value (`where->second`); `none` is `end()`. -/
def find (map : unordered_map V) (key : String) : Option (Nat × V) :=
  find_from key map.entries 0

/-- Member `erase(where)` for a dereferenceable iterator. -/
def erase (map : unordered_map V) (position : Nat × V) : unordered_map V :=
  { entries := map.entries.eraseIdx position.1,
    unique := map.unique.sublist ((List.eraseIdx_sublist _ _).map _) }

/-- Member `try_emplace(key, value)`: the iterator to the element with the key and whether
the insertion took place; nothing is inserted when the key is present. -/
def try_emplace (map : unordered_map V) (key : String) (value : V) :
    ((Nat × V) × Bool) × unordered_map V :=
  match h : map.find key with
  | some position => ((position, false), map)
  | none =>
    (((map.entries.length, value), true),
      { entries := map.entries ++ [(key, value)],
        unique := by
          have absent : ∀ (l : List (String × V)) (n : Nat),
              find_from key l n = none → key ∉ l.map Prod.fst := by
            intro l
            induction l with
            | nil => intro _ _; simp
            | cons entry rest ih =>
              intro n hn
              simp only [find_from] at hn
              by_cases hk : (entry.1 == key) = true
              · simp [hk] at hn
              · simp only [hk, Bool.false_eq_true, if_false] at hn
                simp only [List.map_cons, List.mem_cons, not_or]
                exact ⟨fun heq => hk (by simp [heq]), ih _ hn⟩
          have hkey := absent map.entries 0 h
          rw [List.map_append, List.nodup_append]
          refine ⟨map.unique, by simp, ?_⟩
          intro a ha hb
          simp only [List.map_cons, List.map_nil, List.mem_singleton] at hb
          exact hkey (hb ▸ ha) })

end unordered_map

/-! ### manager.hpp -/

/-- Member `thread_pool::set_error_handler(handler)`; `none` is an empty `std::function`. -/
def thread_pool.set_error_handler {S : Type} (pool : thread_pool S)
    (handler : Option error_handler_type) : thread_pool S :=
  { pool with error_handler_ := handler }

/-- Constructor `sink(name, sink_module, thread_pool)`; `pointer` is the address of the new
object and `none` a null `sink_module`. -/
def sink.construct {S MessageType : Type} (pointer : S) (name : String)
    (sink_module : Option (sink_module MessageType)) : Except exception (sink S MessageType) :=
  match sink_module with
  | none => .error (runtime_error "No sink_module assigned.")
  | some module =>
    .ok { weak_this := pointer,
          queue_ := ⟨[]⟩,
          queue_output_tray_ := [],
          name_ := name,
          filter_ := none,
          flusher_ := none,
          sink_module_ := module }

/-- Destructor `~sink()`: one call of `flush()` on the module. The result is the module as
the call leaves it. The destructor is `noexcept`, so an exception thrown by `flush()` ends
the program with `std::terminate`: the result is `none`. -/
def sink.destruct {S MessageType : Type} (s : sink S MessageType) :
    Option (sink_module MessageType) :=
  match s.sink_module_.call .flush with
  | (module, none) => some module
  | (_, some _) => none

/-- The destruction of the elements of `sinks_`, shared pointers to sinks, in the destructor
of a logger. `last_owner pointer` tells whether the element is the last shared pointer to
the sink behind `pointer`; such a sink is destroyed with the element and stays in `sinks`
with its module as `~sink()` left it. The result is `none` when the program is terminated in
the destructor of a sink; the order in which the elements are destroyed does not change
the result, since the modules of different sinks are different objects. -/
def logger.destruct_loop {S MessageType : Type} [DecidableEq S] (last_owner : S → Bool) :
    List S → (S → sink S MessageType) → Option (S → sink S MessageType)
  | [], sinks => some sinks
  | pointer :: rest, sinks =>
    if last_owner pointer then
      match (sinks pointer).destruct with
      | none => none
      | some module =>
        logger.destruct_loop last_owner rest
          (Function.update sinks pointer { sinks pointer with sink_module_ := module })
    else
      logger.destruct_loop last_owner rest sinks

/-- Destructor `~logger()`, which is defaulted: the members are destroyed, of which the
vector `sinks_` holds shared pointers to sinks. -/
def logger.destruct {L S MessageType : Type} [DecidableEq S] (lg : logger L S MessageType)
    (last_owner : S → Bool) (sinks : S → sink S MessageType) :
    Option (S → sink S MessageType) :=
  logger.destruct_loop last_owner lg.sinks_ sinks

/-- Class `manager<MessageType>`. The members `thread_pool_` and `dispatcher_` are shared
pointers that are never null, so the two objects stand here themselves. The mapped values of
the two registries are shared pointers; `loggers` and `sinks` give the objects behind them.
An address is a number, `std::make_unique` hands out `allocated_loggers` (`allocated_sinks`)
next, and an address not handed out yet holds no object of the program. The shared pointers
held outside of these objects, by the callers of `new_logger`, `new_sink`, `find_logger` and
`find_sink`, are not part of the state: a member whose `erase` destroys a shared pointer
takes as an argument whether that pointer is the last one to its object, which is then
destroyed. A destroyed object stays at its address as its destructor left it.
`error_handler_calls` records the invocations of error handlers. -/
structure manager (MessageType : Type) where
  thread_pool_ : thread_pool Nat
  dispatcher_ : dispatcher Nat MessageType
  logger_map_ : unordered_map Nat
  sink_map_ : unordered_map Nat
  error_handler_ : Option error_handler_type
  loggers : Nat → logger Nat Nat MessageType
  sinks : Nat → sink Nat MessageType
  allocated_loggers : Nat
  allocated_sinks : Nat
  error_handler_calls : List (error_handler_type × exception)

/-- What `new_sink` leaves behind: the manager, the pointer returned or the exception
thrown, and the module of the temporary sink destroyed during the call, if there was one,
as the destructor left it. -/
structure new_sink_result (MessageType : Type) where
  state : manager MessageType
  returned : Except exception Nat
  destroyed : Option (sink_module MessageType)

namespace manager

variable {MessageType : Type}

/-- The objects of the manager as the loggers, the sinks and the workers see them. -/
def objects (m : manager MessageType) : world Nat Nat MessageType :=
  { thread_pool_ := some m.thread_pool_,
    dispatcher_ := some m.dispatcher_,
    loggers := m.loggers,
    sinks := m.sinks,
    error_handler_calls := m.error_handler_calls }

/-- Member `delete_logger(name)`. `logger_map_.erase(where)` destroys the shared pointer of
the registry. `last_owner` tells whether it is the last shared pointer to the logger (no
caller and no entry of the dispatcher holds another); the logger is then destroyed, and
`last_owner_of_sink` tells for which sinks the pointer in its `sinks_` is the last one. The
result is `none` when the program is terminated in the destructor of a sink. -/
def delete_logger (m : manager MessageType) (name : String) (last_owner : Bool)
    (last_owner_of_sink : Nat → Bool) : Option (manager MessageType × Option exception) :=
  match m.logger_map_.find name with
  | none => some (m, some (runtime_error "No such name in the manager."))
  | some position =>
    let marked := (m.loggers position.2).mark_as_destroy
    if last_owner then
      match marked.destruct last_owner_of_sink m.sinks with
      | none => none
      | some sinks =>
        some ({ m with
            loggers := Function.update m.loggers position.2 marked,
            logger_map_ := m.logger_map_.erase position,
            sinks := sinks }, none)
    else
      some ({ m with
          loggers := Function.update m.loggers position.2 marked,
          logger_map_ := m.logger_map_.erase position }, none)

/-- Member `delete_sink(name)`. `sink_map_.erase(where)` destroys the shared pointer of the
registry. `last_owner` tells whether it is the last shared pointer to the sink (no caller,
no logger and no queued task holds another); the sink is then destroyed: `~sink()` calls
`flush()` on its module. The result is `none` when the program is terminated in that
destructor. -/
def delete_sink (m : manager MessageType) (name : String) (last_owner : Bool) :
    Option (manager MessageType × Option exception) :=
  match m.sink_map_.find name with
  | none => some (m, some (runtime_error "No such name in the manager."))
  | some position =>
    if last_owner then
      match (m.sinks position.2).destruct with
      | none => none
      | some module =>
        some ({ m with
            sink_map_ := m.sink_map_.erase position,
            sinks := Function.update m.sinks position.2
              { m.sinks position.2 with sink_module_ := module } }, none)
    else
      some ({ m with sink_map_ := m.sink_map_.erase position }, none)

/-- Member `find_logger(name)`: the pointer registered, `none` for `nullptr`. -/
def find_logger (m : manager MessageType) (name : String) : Option Nat :=
  match m.logger_map_.find name with
  | some position => some position.2
  | none => none

/-- Member `find_sink(name)`: the pointer registered, `none` for `nullptr`. -/
def find_sink (m : manager MessageType) (name : String) : Option Nat :=
  match m.sink_map_.find name with
  | some position => some position.2
  | none => none

/-- Member `new_logger(name)`. The logger is constructed before `try_emplace` looks for the
name; when the name is taken the temporary logger is destroyed and nothing else happens. -/
def new_logger (m : manager MessageType) (name : String) :
    manager MessageType × Except exception Nat :=
  let pointer := m.allocated_loggers
  let object : logger Nat Nat MessageType := logger.construct pointer name
  match m.logger_map_.try_emplace name pointer with
  | ((_, false), _) =>
    (m, .error (runtime_error "Already assigned a logger with the same name."))
  | ((position, true), map) =>
    let object1 :=
      match m.error_handler_ with
      | some handler => object.set_error_handler (some handler)
      | none => object
    ({ m with
        logger_map_ := map,
        loggers := Function.update m.loggers pointer object1,
        allocated_loggers := pointer + 1 }, .ok position.2)

/-- Member `new_sink(name, module)`. The sink is constructed before `try_emplace` looks for
the name, and the constructor throws for a null module. When the name is taken,
`try_emplace` leaves the `std::unique_ptr` to the new sink alone, and the sink is destroyed
at the end of the expression, before the exception is thrown. The result is `none` when the
program is terminated in that destructor. -/
def new_sink (m : manager MessageType) (name : String)
    (module : Option (sink_module MessageType)) : Option (new_sink_result MessageType) :=
  let pointer := m.allocated_sinks
  match sink.construct pointer name module with
  | .error e => some { state := m, returned := .error e, destroyed := none }
  | .ok object =>
    match m.sink_map_.try_emplace name pointer with
    | ((_, false), _) =>
      match object.destruct with
      | none => none
      | some module1 =>
        some { state := m,
               returned := .error (runtime_error "Already assigned a sink with the same name."),
               destroyed := some module1 }
    | ((position, true), map) =>
      some { state := { m with
                        sink_map_ := map,
                        sinks := Function.update m.sinks pointer object,
                        allocated_sinks := pointer + 1 },
             returned := .ok position.2,
             destroyed := none }

/-- The loop `for (auto &logger : logger_map_) logger.second->set_error_handler(...)`. -/
def set_error_handler_loop (handler : Option error_handler_type) :
    List (String × Nat) → (Nat → logger Nat Nat MessageType) → Nat → logger Nat Nat MessageType
  | [], loggers => loggers
  | entry :: rest, loggers =>
    set_error_handler_loop handler rest
      (Function.update loggers entry.2 ((loggers entry.2).set_error_handler handler))

/-- Member `set_error_handler(handler)`. -/
def set_error_handler (m : manager MessageType) (handler : Option error_handler_type) :
    manager MessageType :=
  { m with
    error_handler_ := handler,
    thread_pool_ := m.thread_pool_.set_error_handler handler,
    loggers := set_error_handler_loop handler m.logger_map_.entries m.loggers }

end manager

/-! ### std::filesystem::path and detail/file/file_helper.hpp -/

/-- A `std::filesystem::path`: its pathname, a list of characters. The format is the POSIX
one: the directory separator is `/` and there is no root name. -/
abbrev path := List Char

namespace path

/-- Member `filename()`: the last element of the path, that is the characters behind the
last directory separator; it is empty when the pathname ends in a separator. -/
def filename (p : path) : path :=
  (p.reverse.takeWhile fun c => c != '/').reverse

/-- Member `stem()`: with `f` the filename, `f` itself when `f` contains no period other
than a leading one or consists solely of one or two periods, otherwise the part of `f` in
front of its last period. -/
def stem (p : path) : path :=
  let f := filename p
  if f = ['.'] ∨ f = ['.', '.'] ∨ '.' ∉ f.tail then
    f
  else
    ((f.reverse.dropWhile fun c => c != '.').drop 1).reverse

/-- Member `extension()`: the part of `filename()` that is not in `stem()`. -/
def extension (p : path) : path :=
  (filename p).drop (stem p).length

/-- Member `has_extension()`. -/
def has_extension (p : path) : Bool :=
  !(extension p).isEmpty

/-- Member `replace_extension(replacement)`: the extension is removed from the pathname, a
period is appended when the replacement is not empty and does not begin with one, then the
replacement is appended. -/
def replace_extension (p : path) (replacement : path) : path :=
  p.take (p.length - (extension p).length) ++
    (if replacement ≠ [] ∧ replacement.head? ≠ some '.' then ['.'] else []) ++ replacement

/-- Member `concat(x)`, `operator+=`: the pathname followed by `x`. -/
def concat (p : path) (x : List Char) : path := p ++ x

end path

/-- Function `extract_file_extension(filename)` of detail/file/file_helper.hpp. -/
def extract_file_extension (filename : path) : path × path :=
  let front := path.replace_extension filename []
  let extension := if path.has_extension filename then path.extension filename else []
  (front, extension)

/-! ### std::filesystem and detail/file/basic_file.hpp -/

/-- The regular files of a file system: the content of the file a pathname designates, or
`none` when there is no such file. Different pathnames designate different files;
directories, links and permissions are not part of the model, and no operation fails for a
reason outside of it: a stream opens, writes and flushes without error. -/
abbrev file_system := path → Option (List Char)

namespace file_system

/-- Function `std::filesystem::exists(p)`. -/
def exists_ (fs : file_system) (p : path) : Bool := (fs p).isSome

/-- Function `std::filesystem::file_size(p, code)`: `none` when the error code is set. -/
def file_size (fs : file_system) (p : path) : Option Nat := (fs p).map List.length

/-- Function `std::filesystem::rename(source, target, code)`: the file system afterwards and
whether the error code is set. A file at `target` is replaced; there is nothing to rename
when `source` does not exist. -/
def rename (fs : file_system) (source target : path) : file_system × Bool :=
  match fs source with
  | none => (fs, true)
  | some content =>
    (fun p => if p = target then some content else if p = source then none else fs p, false)

/-- Constructor `basic_file(filename, file_open_mode::append)`: the file is created, empty,
when it does not exist, and opened at its end. -/
def open_append (fs : file_system) (filename : path) : file_system :=
  match fs filename with
  | some _ => fs
  | none => Function.update fs filename (some [])

/-- Member `basic_file::write(buffer)` of the file opened as `filename`: the buffer goes to
the end of the file. The content of a file is what has been written to it, flushed or
not. A file that has lost its name is out of sight. -/
def write (fs : file_system) (filename : path) (buffer : List Char) : file_system :=
  match fs filename with
  | some content => Function.update fs filename (some (content ++ buffer))
  | none => fs

end file_system

/-! ### sink_module/rotation_file_module.hpp -/

/-- Constructor of `logency::system_error` (core/exception.hpp) with an error code and a
text; of `what()`, the text followed by the message of the error code, the model keeps the
text. -/
def system_error (what : String) : exception := ⟨what⟩

/-- Function `std::to_string(int)` for a value that is not negative. -/
def to_string (value : Nat) : List Char := Nat.toDigits 10 value

/-- Type `rotation_file::construct_mode`. -/
inductive construct_mode where
  | append_previous
  | create_new_file
deriving DecidableEq, Repr

/-- Type `rotation_file::rotate_info`; a size is a number of characters, `file_size_type` is
`std::uintmax_t`. Neither a file nor a string in memory is as large as `std::uintmax_t`
allows, so the sum of a file size and a string size does not wrap. -/
structure rotate_info where
  file_size : Nat
  file_count : Int
deriving DecidableEq, Repr

/-- Type `rotation_file_module::file_info`. -/
structure file_info where
  name : path
  parent : path
  front : path
  extension : path
deriving DecidableEq, Repr

/-- Class `rotation_file_module<MessageType, Formatter>`. `file_` is the pathname the open
`basic_file` was opened with, `none` for a null pointer; the file system is passed to the
members that use it. -/
structure rotation_file_module (MessageType : Type) where
  file_ : Option path
  file_info_ : file_info
  rotate_info_ : rotate_info
  current_size_ : Nat
  formatter_ : String → MessageType → List Char

namespace rotation_file_module

variable {MessageType : Type}

/-- Member `parse_filename(file, index)`; every caller passes an index that is not
negative. -/
def parse_filename (file : file_info) (index : Nat) : path :=
  if index > 0 then
    path.concat (path.concat file.front (to_string index)) file.extension
  else
    file.name

/-- Member `get_file_info(name, info)`. -/
def get_file_info (name : path) (info : file_info) : file_info :=
  let extracted := extract_file_extension name
  { info with
    name := name,
    front := path.concat extracted.1 ['-'],
    extension := extracted.2 }

/-- Member `get_file_size(name)`. -/
def get_file_size (fs : file_system) (name : path) : Option Nat :=
  fs.file_size name

/-- Member `close_file()`. -/
def close_file (m : rotation_file_module MessageType) : rotation_file_module MessageType :=
  { m with file_ := none }

/-- Member `open_file()`. -/
def open_file (fs : file_system) (m : rotation_file_module MessageType) :
    file_system × rotation_file_module MessageType :=
  let fs1 := fs.open_append m.file_info_.name
  (fs1, { m with
    file_ := some m.file_info_.name,
    current_size_ := (get_file_size fs1 m.file_info_.name).getD 0 })

/-- The `for` loop of `rotate_file`, entered with the loop variable `i` equal to the second
argument. -/
def rotate_file_loop (file : file_info) : Nat → file_system → file_system × Option exception
  | 0, fs => (fs, none)
  | i + 1, fs =>
    let source := parse_filename file i
    if !fs.exists_ source then
      rotate_file_loop file i fs
    else
      let target := parse_filename file (i + 1)
      match fs.rename source target with
      | (fs1, true) => (fs1, some (system_error "Failed to rotate file"))
      | (fs1, false) => rotate_file_loop file i fs1

/-- Member `rotate_file()`. -/
def rotate_file (NDEBUG : Bool) (fs : file_system) (m : rotation_file_module MessageType) :
    Option (file_system × Option exception) :=
  if assert NDEBUG (fs.exists_ m.file_info_.name) then
    some (rotate_file_loop m.file_info_ (m.rotate_info_.file_count - 1).toNat fs)
  else
    none

/-- Member `rotate()`. -/
def rotate (NDEBUG : Bool) (fs : file_system) (m : rotation_file_module MessageType) :
    Option ((file_system × rotation_file_module MessageType) × Option exception) :=
  let m1 := m.close_file
  if assert NDEBUG (fs.exists_ m1.file_info_.name) then
    match m1.rotate_file NDEBUG fs with
    | none => none
    | some (fs1, some e) => some ((fs1, m1), some e)
    | some (fs1, none) => some (open_file fs1 m1, none)
  else
    none

/-- Member `should_rotate(offset)`. -/
def should_rotate (m : rotation_file_module MessageType) (offset : Nat) : Bool :=
  decide (m.current_size_ + offset ≥ m.rotate_info_.file_size)

/-- Member `log_message(logger, message)`. The result is `none` when an assertion fails or
when `file_` is null at `file_->write`. -/
def log_message (NDEBUG : Bool) (fs : file_system) (m : rotation_file_module MessageType)
    (logger : String) (message : MessageType) :
    Option ((file_system × rotation_file_module MessageType) × Option exception) :=
  let formatted_message := m.formatter_ logger message
  let size := formatted_message.length
  match (if m.should_rotate size then m.rotate NDEBUG fs else some ((fs, m), none)) with
  | none => none
  | some (state, some e) => some (state, some e)
  | some ((fs1, m1), none) =>
    match m1.file_ with
    | none => none
    | some filename =>
      some ((fs1.write filename formatted_message,
        { m1 with current_size_ := m1.current_size_ + size }), none)

/-- Constructor `rotation_file_module(name, rotate_info, mode, formatter)`. -/
def construct (NDEBUG : Bool) (fs : file_system) (name : path) (info : rotate_info)
    (mode : construct_mode) (formatter : String → MessageType → List Char) :
    Option (file_system × Except exception (rotation_file_module MessageType)) :=
  if info.file_size ≤ 0 then
    some (fs, .error (runtime_error "file size should be smaller than zero."))
  else if info.file_count ≤ 0 then
    some (fs, .error (runtime_error "file count should be positive integer."))
  else
    let m0 : rotation_file_module MessageType :=
      { file_ := none,
        file_info_ := get_file_info name ⟨[], [], [], []⟩,
        rotate_info_ := info,
        current_size_ := 0,
        formatter_ := formatter }
    if !fs.exists_ m0.file_info_.name then
      match open_file fs m0 with
      | (fs1, m1) => some (fs1, .ok m1)
    else
      match open_file fs m0 with
      | (fs1, m1) =>
        if mode = .create_new_file || m1.should_rotate 0 then
          match m1.rotate NDEBUG fs1 with
          | none => none
          | some ((fs2, _), some e) => some (fs2, .error e)
          | some ((fs2, m2), none) => some (fs2, .ok m2)
        else
          some (fs1, .ok m1)

end rotation_file_module

/-! ### Vocabulary of the statements -/

/-- A callable that never throws and computes the predicate `p`. -/
def predicate {MessageType : Type} (p : String → MessageType → Bool) :
    filter_type MessageType :=
  fun name message => .ok (p name message)

/-- Whether an optional predicate, installed as filter of a sink, accepts a pack: an absent
filter accepts everything. -/
def accepted_by {MessageType : Type} (filter : Option (String → MessageType → Bool))
    (pack : message_pack MessageType) : Bool :=
  match filter with
  | some p => p pack.logger_name pack.message
  | none => true

/-- The sink and the pool after the elements `accepted` have been appended to the queue of
the sink by one or more `enqueue_bulk` calls: one task is scheduled when the queue was empty
and something was appended. -/
def sink.enqueued {S MessageType : Type} (s : sink S MessageType) (pool : thread_pool S)
    (accepted : List (message_pack MessageType)) :
    (sink S MessageType × Option (thread_pool S)) × Option exception :=
  (({ s with queue_ := { buffer_ := s.queue_.buffer_ ++ accepted } },
    some (if s.queue_.buffer_.isEmpty && !accepted.isEmpty then
      pool.enqueue (.sink_token s.weak_this) else pool)), none)

/-- Whether the flusher demands a flush after a pack: a flusher is installed and returns true
for the pack (`should_flush` without its exceptional outcome). -/
def flush_demanded {MessageType : Type} (flusher : Option (filter_type MessageType))
    (pack : message_pack MessageType) : Bool :=
  match flusher with
  | some f =>
    match f pack.logger_name pack.message with
    | .ok b => b
    | .error _ => false
  | none => false

/-- The module calls of an undisturbed drain of a tray: for each pack in tray order one
write of the pack, followed by one flush when the flusher demands it. -/
def drain_calls {MessageType : Type} (flusher : Option (filter_type MessageType)) :
    List (message_pack MessageType) → List (module_call MessageType)
  | [] => []
  | pack :: rest =>
    (.log_message pack.logger_name pack.message ::
      (if flush_demanded flusher pack then [.flush] else [])) ++ drain_calls flusher rest

/-- The sink after its module has received the calls `made` without any other change. -/
def sink.after_calls {S MessageType : Type} (s : sink S MessageType)
    (made : List (module_call MessageType)) : sink S MessageType :=
  { s with sink_module_ := { s.sink_module_ with calls := s.sink_module_.calls ++ made } }

/-- Whether a drain of `tray` by a module with behaviour `throws` and call history `calls`
runs undisturbed: no write and no flush throws, and the flusher does not throw. -/
def quiet_tray {MessageType : Type}
    (throws : List (module_call MessageType) → module_call MessageType → Option exception)
    (flusher : Option (filter_type MessageType)) :
    List (module_call MessageType) → List (message_pack MessageType) → Bool
  | _, [] => true
  | calls, pack :: rest =>
    (throws calls (.log_message pack.logger_name pack.message)).isNone &&
    (match flusher with
      | none => quiet_tray throws flusher
          (calls ++ [.log_message pack.logger_name pack.message]) rest
      | some f =>
        match f pack.logger_name pack.message with
        | .error _ => false
        | .ok false => quiet_tray throws flusher
            (calls ++ [.log_message pack.logger_name pack.message]) rest
        | .ok true =>
          (throws (calls ++ [.log_message pack.logger_name pack.message]) .flush).isNone &&
          quiet_tray throws flusher
            (calls ++ [.log_message pack.logger_name pack.message, .flush]) rest)

/-- The number of writes (`log_message` calls) in a call history. -/
def count_writes {MessageType : Type} : List (module_call MessageType) → Nat
  | [] => 0
  | .log_message _ _ :: rest => count_writes rest + 1
  | .flush :: rest => count_writes rest

/-- The behaviour of a backend that throws `e` on exactly its `k`-th write (counted from 1)
and on no other call. -/
def throws_on_write {MessageType : Type} (k : Nat) (e : exception) :
    List (module_call MessageType) → module_call MessageType → Option exception
  | history, .log_message _ _ => if count_writes history + 1 = k then some e else none
  | _, .flush => none

/-- The behaviour of a backend that never throws. -/
def never_throws {MessageType : Type} :
    List (module_call MessageType) → module_call MessageType → Option exception :=
  fun _ _ => none

/-- Whether a module call is a write (`log_message`). -/
def module_call.is_write {MessageType : Type} : module_call MessageType → Bool
  | .log_message _ _ => true
  | .flush => false

/-- The write of a pack: the call `log_message(*pack->logger_name, pack->message)`. -/
def write_of {MessageType : Type} (pack : message_pack MessageType) :
    module_call MessageType :=
  .log_message pack.logger_name pack.message

/-- The maximal runs of a tray from a run in progress: `destination` is the logger of the
run, `run` its messages so far, the two lists are the entries of the trays not yet seen. -/
def runs_from {L MessageType : Type} [DecidableEq L] :
    L → List (message_pack MessageType) → List L → List (message_pack MessageType) →
    List (L × List (message_pack MessageType))
  | destination, run, logger :: loggers, message :: messages =>
    if destination = logger then
      runs_from destination (run ++ [message]) loggers messages
    else
      (destination, run) :: runs_from logger [message] loggers messages
  | destination, run, _, _ => [(destination, run)]

/-- The maximal runs of consecutive entries with the same logger pointer in a pair of trays,
in tray order: each run is the logger and the messages at the positions of the run. -/
def runs {L MessageType : Type} [DecidableEq L] :
    List L → List (message_pack MessageType) → List (L × List (message_pack MessageType))
  | logger :: loggers, message :: messages => runs_from logger [message] loggers messages
  | _, _ => []

/-- The number of tray entries a list of runs covers. -/
def runs_size {L MessageType : Type} (groups : List (L × List (message_pack MessageType))) :
    Nat :=
  (groups.map fun g => g.2.length).sum

/-- The messages of a list of runs, in order. -/
def runs_messages {L MessageType : Type}
    (groups : List (L × List (message_pack MessageType))) : List (message_pack MessageType) :=
  (groups.map fun g => g.2).flatten

/-- The logger pointers of a list of runs, one per message, in order. -/
def runs_loggers {L MessageType : Type}
    (groups : List (L × List (message_pack MessageType))) : List L :=
  (groups.map fun g => List.replicate g.2.length g.1).flatten

/-- Delivery of a list of runs in order, one `deliver` call per run, up to the first call
that throws. `position` is the tray position of the first run; the result carries the tray
position just after the last run whose delivery was called. -/
def deliver_runs {L MessageType σ : Type}
    (deliver : L → List (message_pack MessageType) → σ → σ × Option exception) :
    List (L × List (message_pack MessageType)) → Nat → σ → σ × Nat × Option exception
  | [], position, state => (state, position, none)
  | (logger, messages) :: rest, position, state =>
    match deliver logger messages state with
    | (state1, some e) => (state1, position + messages.length, some e)
    | (state1, none) => deliver_runs deliver rest (position + messages.length) state1

/-- The sink after `accepted` has been appended to its queue. -/
def sink.queued {S MessageType : Type} (s : sink S MessageType)
    (accepted : List (message_pack MessageType)) : sink S MessageType :=
  { s with queue_ := { buffer_ := s.queue_.buffer_ ++ accepted } }

/-- The pool after `accepted` has been appended to the queue of the sink: a drain task is
added when the queue was empty and `accepted` is not. -/
def sink.notified {S MessageType : Type} (s : sink S MessageType) (pool : thread_pool S)
    (accepted : List (message_pack MessageType)) : thread_pool S :=
  if s.queue_.buffer_.isEmpty && !accepted.isEmpty then
    pool.enqueue (.sink_token s.weak_this)
  else
    pool

/-- A module whose `flush()` throws and whose `log_message` returns. -/
def throws_on_flush {MessageType : Type} (e : exception) :
    List (module_call MessageType) → module_call MessageType → Option exception :=
  fun _ c =>
    match c with
    | .flush => some e
    | .log_message _ _ => none

/-- The first element of `container` for which `p` holds is `found`, with `before` in front
of it and `after` behind it. -/
def first_match {α : Type} (p : α → Bool) (container before : List α) (found : α)
    (after : List α) : Prop :=
  container = before ++ found :: after ∧ p found = true ∧ ∀ x ∈ before, p x = false

/-- A call of a member of the manager that changes a registry. -/
inductive manager_call (MessageType : Type) where
  | new_logger (name : String)
  | new_sink (name : String) (module : Option (sink_module MessageType))
  | delete_logger (name : String) (last_owner : Bool) (last_owner_of_sink : Nat → Bool)
  | delete_sink (name : String) (last_owner : Bool)

/-- The manager after one call, whether the call returned or threw; `none` when the program
was terminated. -/
def manager.call {MessageType : Type} (m : manager MessageType) :
    manager_call MessageType → Option (manager MessageType)
  | .new_logger name => some (m.new_logger name).1
  | .new_sink name module => (m.new_sink name module).map new_sink_result.state
  | .delete_logger name last_owner last_owner_of_sink =>
    (m.delete_logger name last_owner last_owner_of_sink).map Prod.fst
  | .delete_sink name last_owner => (m.delete_sink name last_owner).map Prod.fst

/-- The manager after a sequence of calls. -/
def manager.run_calls {MessageType : Type} :
    List (manager_call MessageType) → manager MessageType → Option (manager MessageType)
  | [], m => some m
  | c :: rest, m =>
    match m.call c with
    | none => none
    | some m1 => manager.run_calls rest m1

/-- A delivery that also keeps a record of the calls made: each call appends the logger and
the range it received. -/
def recorded {L S MessageType σ : Type}
    (deliver : L → List (message_pack MessageType) → σ × Option (thread_pool S) →
      (σ × Option (thread_pool S)) × Option exception) :
    L → List (message_pack MessageType) →
    (σ × List (L × List (message_pack MessageType))) × Option (thread_pool S) →
    ((σ × List (L × List (message_pack MessageType))) × Option (thread_pool S)) ×
      Option exception :=
  fun logger range state =>
    match deliver logger range (state.1.1, state.2) with
    | ((state1, pool1), thrown) =>
      (((state1, state.1.2 ++ [(logger, range)]), pool1), thrown)

/-- The drain of one pack that fails in the write or in the flush: the module calls made and
the exception thrown, for a module with behaviour `throws` and call history `calls`. The
result is `none` when neither call throws. -/
def failed_attempt {MessageType : Type}
    (throws : List (module_call MessageType) → module_call MessageType → Option exception)
    (flusher : Option (filter_type MessageType)) (calls : List (module_call MessageType))
    (pack : message_pack MessageType) :
    Option (List (module_call MessageType) × exception) :=
  match throws calls (.log_message pack.logger_name pack.message) with
  | some e => some ([.log_message pack.logger_name pack.message], e)
  | none =>
    if flush_demanded flusher pack then
      match throws (calls ++ [.log_message pack.logger_name pack.message]) .flush with
      | some e => some ([.log_message pack.logger_name pack.message, .flush], e)
      | none => none
    else
      none

/-! ### One logger attached to one sink -/

/-- The atomic steps of the model of one logger: a `log` call of the logger with a message,
and the execution of the task at position `i` of the task queue of the pool by a worker. -/
inductive action (MessageType : Type) where
  | log (message : MessageType)
  | run (i : Nat)

/-- One atomic step: `logger::log` on the logger behind `pointer` (an exception of the call
goes to the caller), or one iteration of a worker. -/
def world.step {L S MessageType : Type} [DecidableEq L] [DecidableEq S] (NDEBUG : Bool)
    (pointer : L) (w : world L S MessageType) :
    action MessageType → Option (world L S MessageType)
  | .log message =>
    match w.log NDEBUG pointer (.ok message) with
    | none => none
    | some (w1, _) => some w1
  | .run i => w.run_task NDEBUG i

/-- A sequence of atomic steps. -/
def world.run_actions {L S MessageType : Type} [DecidableEq L] [DecidableEq S]
    (NDEBUG : Bool) (pointer : L) :
    List (action MessageType) → world L S MessageType → Option (world L S MessageType)
  | [], w => some w
  | a :: rest, w =>
    match w.step NDEBUG pointer a with
    | none => none
    | some w1 => world.run_actions NDEBUG pointer rest w1

/-- The messages logged by a sequence of steps, in order. -/
def logged {MessageType : Type} : List (action MessageType) → List MessageType
  | [] => []
  | .log message :: rest => message :: logged rest
  | .run _ :: rest => logged rest

/-- The packs a module has received through `log_message`, in order. -/
def received {MessageType : Type} : List (module_call MessageType) →
    List (message_pack MessageType)
  | [] => []
  | .log_message logger message :: rest => ⟨logger, message⟩ :: received rest
  | .flush :: rest => received rest

/-- The packs of the messages of `history`, logged by the logger `name`, that the filter of
the logger and the filter of the sink both accept (an absent filter accepts everything). -/
def accepted_records {MessageType : Type} (name : String)
    (logger_filter sink_filter : Option (String → MessageType → Bool))
    (history : List MessageType) : List (message_pack MessageType) :=
  ((history.map (make_message_pack name)).filter (accepted_by logger_filter)).filter
    (accepted_by sink_filter)

/-- A freshly set up manager with one logger attached to one sink: a live pool without
tasks, a dispatcher with empty queue and trays, the logger `name` with an optional filter
predicate, and the sink `sink_name` with optional filter and flusher predicates, empty queue
and tray, and a module that never throws. -/
def world.single {MessageType : Type} (name sink_name : String)
    (logger_filter sink_filter flusher : Option (String → MessageType → Bool)) :
    world Unit Unit MessageType :=
  { thread_pool_ := some ⟨[], none⟩,
    dispatcher_ := some ⟨⟨[], []⟩, [], []⟩,
    loggers := fun _ =>
      { weak_this := (),
        name_ := name,
        sinks_ := [()],
        filter_ := logger_filter.map predicate,
        error_handler_ := none,
        mark_as_destroy_ := false },
    sinks := fun _ =>
      { weak_this := (),
        queue_ := ⟨[]⟩,
        queue_output_tray_ := [],
        name_ := sink_name,
        filter_ := sink_filter.map predicate,
        flusher_ := flusher.map predicate,
        sink_module_ := ⟨never_throws, []⟩ },
    error_handler_calls := [] }

/-- Whether the queue and the trays of the dispatcher and the queue and the tray of the sink
behind `pointer` are all empty. -/
def world.is_drained {L S MessageType : Type} (w : world L S MessageType) (pointer : S) :
    Bool :=
  (match w.dispatcher_ with
    | some d =>
      d.queue_.first_buffer_.isEmpty && d.queue_.second_buffer_.isEmpty &&
        d.logger_tray_.isEmpty && d.message_tray_.isEmpty
    | none => true) &&
  (w.sinks pointer).queue_.buffer_.isEmpty && (w.sinks pointer).queue_output_tray_.isEmpty

/-- The work a task stands for: a dispatch task can schedule one drain task. -/
def task_weight {S : Type} : thread_unit S → Nat
  | .dispatcher_token => 2
  | .sink_token _ => 1

/-- A bound on the number of tasks the pool executes until its queue is empty, when no task
fails. -/
def pending_work {S : Type} (tasks : List (thread_unit S)) : Nat :=
  (tasks.map task_weight).sum

/-- The invariant of the worlds reached from `world.single`: pool and dispatcher exist, the
trays are empty and the dispatcher queue is balanced, logger and sink are as set up except
for the queue of the sink and the calls its module received; the packs received, followed by
the queue of the sink and the accepted part of the dispatcher queue, are the accepted
records; a non-empty queue has a task pending. -/
def world.single_invariant {MessageType : Type} (init : world Unit Unit MessageType)
    (sink_filter : Option (String → MessageType → Bool))
    (accepted : List (message_pack MessageType)) (w : world Unit Unit MessageType) : Prop :=
  ∃ (pool : thread_pool Unit) (first : List Unit) (second queue : List (message_pack MessageType))
      (calls : List (module_call MessageType)),
    w.thread_pool_ = some pool ∧
    w.dispatcher_ = some ⟨⟨first, second⟩, [], []⟩ ∧
    first.length = second.length ∧
    w.loggers () = init.loggers () ∧
    w.sinks () = { init.sinks () with
      queue_ := ⟨queue⟩, sink_module_ := ⟨never_throws, calls⟩ } ∧
    received calls ++ queue ++ second.filter (accepted_by sink_filter) = accepted ∧
    (first ≠ [] → thread_unit.dispatcher_token ∈ pool.task_queue_) ∧
    (queue ≠ [] → thread_unit.sink_token () ∈ pool.task_queue_)

/-! ### One sink and its drain tasks -/

/-- The atomic steps of the model of one sink: a `log` call of the sink with a range, and
the execution by a worker of the task at position `i` of the task queue of the pool when
that task is a drain task of the sink. -/
inductive sink_action (MessageType : Type) where
  | log (range : List (message_pack MessageType))
  | drain (i : Nat)

/-- One atomic step of a sink and the thread pool behind its weak pointer. An exception of
`log` goes to its caller; a worker removes the task from the queue before it executes it,
and an exception of the task goes to the `catch` block of the worker. -/
def sink.step {S MessageType : Type} [DecidableEq S]
    (state : sink S MessageType × Option (thread_pool S)) :
    sink_action MessageType → sink S MessageType × Option (thread_pool S)
  | .log range => (state.1.log state.2 range).1
  | .drain i =>
    match state.2 with
    | none => state
    | some pool =>
      if pool.task_queue_.get? i = some (.sink_token state.1.weak_this) then
        (state.1.sink_message
          (some { pool with task_queue_ := pool.task_queue_.eraseIdx i })).1
      else
        state

/-- A sequence of atomic steps of a sink. -/
def sink.run_steps {S MessageType : Type} [DecidableEq S] :
    List (sink_action MessageType) → sink S MessageType × Option (thread_pool S) →
    sink S MessageType × Option (thread_pool S)
  | [], state => state
  | a :: rest, state => sink.run_steps rest (sink.step state a)

/-- No lost wake-up, for a sink and the pool behind its weak pointer: the pool exists, and
a drain task of the sink is pending whenever the queue or the tray of the sink holds a
pack. -/
def sink.awake {S MessageType : Type} (state : sink S MessageType × Option (thread_pool S)) :
    Prop :=
  ∃ pool, state.2 = some pool ∧
    ((state.1.queue_.buffer_ ≠ [] ∨ state.1.queue_output_tray_ ≠ []) →
      thread_unit.sink_token state.1.weak_this ∈ pool.task_queue_)

/-! ### A rotation file module between calls -/

/-- The state the members of a constructed module keep between calls: the active file is
open, it exists with `current_size_` characters, and the parts of `file_info_` are those
`get_file_info` computes from the name. -/
def rotation_file_module.attached {MessageType : Type} (fs : file_system)
    (m : rotation_file_module MessageType) : Prop :=
  m.file_ = some m.file_info_.name ∧
  fs.file_size m.file_info_.name = some m.current_size_ ∧
  m.file_info_ = rotation_file_module.get_file_info m.file_info_.name m.file_info_

/-- A sequence of calls of `log_message`, one for each message, by a caller that stops at the
first exception. -/
def rotation_file_module.log_messages {MessageType : Type} (NDEBUG : Bool) (logger : String) :
    List MessageType → file_system × rotation_file_module MessageType →
      Option ((file_system × rotation_file_module MessageType) × Option exception)
  | [], state => some (state, none)
  | message :: rest, state =>
    match state.2.log_message NDEBUG state.1 logger message with
    | none => none
    | some (state1, some e) => some (state1, some e)
    | some (state1, none) => rotation_file_module.log_messages NDEBUG logger rest state1

/-- A number of calls of `rotate`, one after the other, by a caller that stops at the first
exception. -/
def rotation_file_module.rotations {MessageType : Type} (NDEBUG : Bool) :
    Nat → file_system × rotation_file_module MessageType →
      Option ((file_system × rotation_file_module MessageType) × Option exception)
  | 0, state => some (state, none)
  | n + 1, state =>
    match rotation_file_module.rotations NDEBUG n state with
    | none => none
    | some (state1, some e) => some (state1, some e)
    | some (state1, none) => state1.2.rotate NDEBUG state1.1

/-! ### Concrete instances -/

/-- The pack of the logger named "logger" with the message `n`. -/
def sample_pack (n : Nat) : message_pack Nat := make_message_pack "logger" n

/-- A delivery that always throws and changes nothing. -/
def sample_failing_delivery : Nat → List (message_pack Nat) →
    Unit × Option (thread_pool Unit) → (Unit × Option (thread_pool Unit)) × Option exception :=
  fun _ _ state => (state, some (runtime_error "delivery failed"))

/-- A dispatcher whose trays hold a run of two entries of logger 0 followed by a run of one
entry of logger 1. -/
def sample_dispatcher : dispatcher Nat Nat :=
  { queue_ := ⟨[], []⟩,
    logger_tray_ := [0, 0, 1],
    message_tray_ := [sample_pack 10, sample_pack 11, sample_pack 12] }

/-- A sink whose tray holds three packs, with a flusher that holds for message 11 and a
module that never throws. -/
def sample_sink : sink Unit Nat :=
  { weak_this := (),
    queue_ := ⟨[]⟩,
    queue_output_tray_ := [sample_pack 10, sample_pack 11, sample_pack 12],
    name_ := "sink",
    filter_ := none,
    flusher_ := some (predicate fun _ message => message == 11),
    sink_module_ := ⟨never_throws, []⟩ }

/-- A world with one sink whose queue holds three records, whose flusher holds for message
12 and whose module throws on the second write; one drain task is pending. -/
def sample_recovery_world : world Unit Unit Nat :=
  { thread_pool_ := some ⟨[.sink_token ()], none⟩,
    dispatcher_ := none,
    loggers := fun _ => ⟨(), "logger", [()], none, none, false⟩,
    sinks := fun _ =>
      { weak_this := (),
        queue_ := ⟨[sample_pack 10, sample_pack 11, sample_pack 12]⟩,
        queue_output_tray_ := [],
        name_ := "sink",
        filter_ := none,
        flusher_ := Option.map predicate (some fun _ message => message == 12),
        sink_module_ := ⟨throws_on_write 2 (runtime_error "write failed"), []⟩ },
    error_handler_calls := [] }

/-- A manager as its constructor leaves it: one thread pool without tasks, a dispatcher with
empty queue and trays, empty registries and no error handler. -/
def sample_manager : manager Nat :=
  { thread_pool_ := ⟨[], none⟩,
    dispatcher_ := ⟨⟨[], []⟩, [], []⟩,
    logger_map_ := ⟨[], List.nodup_nil⟩,
    sink_map_ := ⟨[], List.nodup_nil⟩,
    error_handler_ := none,
    loggers := fun pointer => logger.construct pointer "",
    sinks := fun pointer =>
      { weak_this := pointer,
        queue_ := ⟨[]⟩,
        queue_output_tray_ := [],
        name_ := "",
        filter_ := none,
        flusher_ := none,
        sink_module_ := ⟨never_throws, []⟩ },
    allocated_loggers := 0,
    allocated_sinks := 0,
    error_handler_calls := [] }

/-- The manager of the test suite: the logger "exist logger" is registered. -/
def sample_manager_with_logger : manager Nat :=
  (sample_manager.new_logger "exist logger").1

/-- The manager of the test suite: the sink "exist sink" is registered, with a module that
never throws. -/
def sample_manager_with_sink : manager Nat :=
  { sample_manager with
    sink_map_ := ⟨[("exist sink", 0)], List.nodup_singleton _⟩,
    sinks := Function.update sample_manager.sinks 0
      { weak_this := 0,
        queue_ := ⟨[]⟩,
        queue_output_tray_ := [],
        name_ := "exist sink",
        filter_ := none,
        flusher_ := none,
        sink_module_ := ⟨never_throws, []⟩ },
    allocated_sinks := 1 }

/-- A manager whose logger "exist logger" holds the last pointer to a sink whose module
throws on `flush()`: the sink was created as "exist sink", added to the logger and deleted
from the registry, and no caller has kept a pointer to it. -/
def sample_manager_with_orphan : manager Nat :=
  { sample_manager_with_logger with
    loggers := Function.update sample_manager_with_logger.loggers 0
      { sample_manager_with_logger.loggers 0 with sinks_ := [0] },
    sinks := Function.update sample_manager.sinks 0
      { weak_this := 0,
        queue_ := ⟨[]⟩,
        queue_output_tray_ := [],
        name_ := "exist sink",
        filter_ := none,
        flusher_ := none,
        sink_module_ := ⟨throws_on_flush (runtime_error "flush failed"), []⟩ },
    allocated_sinks := 1 }

/-- The delivery of the dispatcher to loggers that are each attached to the one sink of the
state: the call `dispatch_message_to_sinks` of the logger behind the pointer. -/
def sample_delivery : Nat → List (message_pack Nat) →
    (Unit → sink Unit Nat) × Option (thread_pool Unit) →
    ((Unit → sink Unit Nat) × Option (thread_pool Unit)) × Option exception :=
  fun pointer range state =>
    logger.dispatch_message_to_sinks
      ({ weak_this := pointer,
         name_ := "logger",
         sinks_ := [()],
         filter_ := none,
         error_handler_ := none,
         mark_as_destroy_ := false } : logger Nat Unit Nat) range state

/-- A file system whose only file is `X.ext`, with the given content. -/
def sample_rotation_files (content : List Char) : file_system :=
  Function.update (fun _ => none) "X.ext".toList (some content)

/-- The module for `X.ext` with a limit of 16 characters and the given `file_count`; the
formatter writes the message as it is. -/
def sample_rotation_module (file_count : Int) (current_size : Nat) :
    rotation_file_module (List Char) :=
  { file_ := some "X.ext".toList,
    file_info_ := rotation_file_module.get_file_info "X.ext".toList ⟨[], [], [], []⟩,
    rotate_info_ := ⟨16, file_count⟩,
    current_size_ := current_size,
    formatter_ := fun _ message => message }

/-- A file system with the active file `X.ext` and the archives `X-1.ext` and `X-2.ext`. -/
def sample_full_archive_files : file_system :=
  fun p =>
    if p = "X.ext".toList then some "active".toList
    else if p = "X-1.ext".toList then some "first".toList
    else if p = "X-2.ext".toList then some "second".toList
    else none

/-! ## Theorems -/

/-- C5. `blocking_queue::try_swap_bulk(out)`: on an empty queue the call returns false and
leaves queue and `out` unchanged; on a non-empty queue it returns true, `out` becomes the old
buffer and the buffer becomes the old `out`. -/
theorem blocking_queue_try_swap_bulk_spec {T : Type} (q : blocking_queue T) (out : List T) :
    (q.buffer_ = [] → q.try_swap_bulk out = (false, q, out)) ∧
    (q.buffer_ ≠ [] → q.try_swap_bulk out = (true, { buffer_ := out }, q.buffer_)) := by
  constructor
  · intro h
    simp [blocking_queue.try_swap_bulk, h]
  · intro h
    simp [blocking_queue.try_swap_bulk, h]

/-- C6. Empty-transition signal: `enqueue(x)` returns true iff the buffer was empty and
leaves the buffer followed by `x`; `enqueue_bulk(xs)` returns true iff the buffer was empty
and leaves the buffer followed by `xs` in the same order. -/
theorem blocking_queue_enqueue_signal {T : Type} (q : blocking_queue T) (x : T)
    (xs : List T) :
    ((q.enqueue x).1 = true ↔ q.buffer_ = []) ∧
    (q.enqueue x).2.buffer_ = q.buffer_ ++ [x] ∧
    ((q.enqueue_bulk xs).1 = true ↔ q.buffer_ = []) ∧
    (q.enqueue_bulk xs).2.buffer_ = q.buffer_ ++ xs := by
  simp [blocking_queue.enqueue, blocking_queue.enqueue_bulk]

/-- C7 (failing input). `blocking_pair_queue::enqueue_bulk` on the empty queue with a first
range of one element and an empty second range: with `NDEBUG` the call returns and leaves
buffers of lengths 1 and 0, without `NDEBUG` the closing assertion aborts the program. -/
theorem blocking_pair_queue_enqueue_bulk_unbalanced :
    blocking_pair_queue.same_size (⟨[], []⟩ : blocking_pair_queue Nat Nat) = true ∧
    blocking_pair_queue.enqueue_bulk true (⟨[], []⟩ : blocking_pair_queue Nat Nat) [7] [] =
      some (true, ⟨[7], []⟩) ∧
    blocking_pair_queue.enqueue_bulk false (⟨[], []⟩ : blocking_pair_queue Nat Nat) [7] [] =
      none := by
  decide

/-- The part of the balance invariant of `blocking_pair_queue` that holds: started with
buffers of equal length, `enqueue`, `enqueue_bulk` with two ranges of equal length,
`try_swap_bulk` with any two containers, `reserve` and `shrink_to_fit` return (no assertion
fails) and leave buffers of equal length. -/
theorem blocking_pair_queue_balance_kept {T U : Type} (NDEBUG : Bool)
    (q : blocking_pair_queue T U) (h : q.first_buffer_.length = q.second_buffer_.length)
    (x : T) (y : U) (xs out_t : List T) (ys out_u : List U) (n : Nat)
    (hxs : xs.length = ys.length) :
    (∃ r, q.enqueue NDEBUG x y = some r ∧
      r.2.first_buffer_.length = r.2.second_buffer_.length) ∧
    (∃ r, q.enqueue_bulk NDEBUG xs ys = some r ∧
      r.2.first_buffer_.length = r.2.second_buffer_.length) ∧
    (∃ r, q.try_swap_bulk NDEBUG out_t out_u = some r ∧
      r.2.1.first_buffer_.length = r.2.1.second_buffer_.length) ∧
    (∃ r, q.reserve NDEBUG n = some r ∧ r.first_buffer_.length = r.second_buffer_.length) ∧
    (∃ r, q.shrink_to_fit NDEBUG = some r ∧
      r.first_buffer_.length = r.second_buffer_.length) := by
  have ha : assert NDEBUG q.same_size = true := by
    simp [assert, blocking_pair_queue.same_size, h]
  refine ⟨?_, ?_, ?_, ?_, ?_⟩
  · simp [blocking_pair_queue.enqueue, ha, assert, blocking_pair_queue.same_size, h]
  · simp [blocking_pair_queue.enqueue_bulk, ha, assert, blocking_pair_queue.same_size, h, hxs]
  · by_cases hl : out_t.length = out_u.length
    · have hb : assert NDEBUG
          (blocking_pair_queue.same_size (⟨out_t, out_u⟩ : blocking_pair_queue T U)) = true := by
        simp [assert, blocking_pair_queue.same_size, hl]
      by_cases he : q.first_buffer_ = []
      · exact ⟨(false, q, out_t, out_u),
          by simp [blocking_pair_queue.try_swap_bulk, hl, ha, he], h⟩
      · exact ⟨(true, ⟨out_t, out_u⟩, q.first_buffer_, q.second_buffer_),
          by simp [blocking_pair_queue.try_swap_bulk, hl, ha, hb, he], hl⟩
    · exact ⟨(false, q, out_t, out_u), by simp [blocking_pair_queue.try_swap_bulk, hl], h⟩
  · simp [blocking_pair_queue.reserve, ha, h]
  · simp [blocking_pair_queue.shrink_to_fit, ha, h]

/-- C8. `blocking_pair_queue::try_swap_bulk(out_t, out_u)` on a queue in a valid state (equal
buffer lengths, or assertions compiled out) returns true iff the two containers have equal
length and the queue is non-empty; when it returns false the queue and both containers are
unchanged, when it returns true each buffer has been exchanged with its container. -/
theorem blocking_pair_queue_try_swap_bulk_spec {T U : Type} (NDEBUG : Bool)
    (q : blocking_pair_queue T U) (out_t : List T) (out_u : List U)
    (h : NDEBUG = true ∨ q.first_buffer_.length = q.second_buffer_.length) :
    ∃ r, q.try_swap_bulk NDEBUG out_t out_u = some r ∧
      (r.1 = true ↔ out_t.length = out_u.length ∧ q.first_buffer_ ≠ []) ∧
      (r.1 = false → r.2 = (q, out_t, out_u)) ∧
      (r.1 = true →
        r.2 = ({ first_buffer_ := out_t, second_buffer_ := out_u }, q.first_buffer_,
          q.second_buffer_)) := by
  have ha : assert NDEBUG q.same_size = true := by
    rcases h with h | h
    · simp [assert, h]
    · simp [assert, blocking_pair_queue.same_size, h]
  by_cases hl : out_t.length = out_u.length
  · by_cases he : q.first_buffer_ = []
    · exact ⟨(false, q, out_t, out_u), by
        simp [blocking_pair_queue.try_swap_bulk, hl, ha, he]⟩
    · refine ⟨(true, ⟨out_t, out_u⟩, q.first_buffer_, q.second_buffer_), ?_, ?_⟩
      · have hb : assert NDEBUG
            (blocking_pair_queue.same_size (⟨out_t, out_u⟩ : blocking_pair_queue T U)) = true := by
          simp [assert, blocking_pair_queue.same_size, hl]
        simp [blocking_pair_queue.try_swap_bulk, hl, ha, he, hb]
      · simp [hl, he]
  · exact ⟨(false, q, out_t, out_u), by
      simp [blocking_pair_queue.try_swap_bulk, hl]⟩

/-- Witness for C8: a balanced queue holding one pair, swapped with two empty containers in a
build with assertions. -/
theorem blocking_pair_queue_try_swap_bulk_spec_witness :
    ∃ r, (⟨[1], [2]⟩ : blocking_pair_queue Nat Nat).try_swap_bulk false [] [] = some r ∧
      (r.1 = true ↔ ([] : List Nat).length = ([] : List Nat).length ∧ [1] ≠ []) ∧
      (r.1 = false → r.2 = (⟨[1], [2]⟩, [], [])) ∧
      (r.1 = true → r.2 = (⟨[], []⟩, [1], [2])) :=
  blocking_pair_queue_try_swap_bulk_spec false ⟨[1], [2]⟩ [] [] (Or.inr rfl)

/-! ### Iterator ranges -/

theorem range_of_self {α : Type} (container : List α) (n : Nat) :
    range_of container n n = [] := by
  simp [range_of]

theorem range_of_succ {α : Type} {container rest : List α} {x : α} {head tail : Nat}
    (h : container.drop tail = x :: rest) (hle : head ≤ tail) :
    range_of container head (tail + 1) = range_of container head tail ++ [x] := by
  have hx : (container.drop head)[tail - head]? = some x := by
    rw [List.getElem?_drop, Nat.add_sub_cancel' hle, ← List.head?_drop, h]
    rfl
  unfold range_of
  rw [show tail + 1 - head = (tail - head) + 1 by omega, List.take_succ, hx]
  rfl

theorem drop_succ_of_drop {α : Type} {container rest : List α} {x : α} {n : Nat}
    (h : container.drop n = x :: rest) : container.drop (n + 1) = rest := by
  rw [← List.drop_drop 1 n container, h]
  rfl

/-! ### sink::log -/

theorem sink.should_log_predicate {S MessageType : Type} (s : sink S MessageType)
    (filter : Option (String → MessageType → Bool))
    (hf : s.filter_ = filter.map predicate) (pack : message_pack MessageType) :
    s.should_log pack = .ok (accepted_by filter pack) := by
  cases filter <;> simp [sink.should_log, hf, accepted_by, predicate]

theorem sink.log_message_eq {S MessageType : Type} (s : sink S MessageType)
    (pool : thread_pool S) (range : List (message_pack MessageType)) :
    s.log_message (some pool) range = s.enqueued pool range := by
  cases range with
  | nil => simp [sink.log_message, sink.enqueued]
  | cons x xs =>
    rcases hq : s.queue_.buffer_ with _ | ⟨y, ys⟩
    · simp [sink.log_message, sink.enqueued, blocking_queue.enqueue_bulk, hq,
        sink.notify_thread_pool]
    · simp [sink.log_message, sink.enqueued, blocking_queue.enqueue_bulk, hq]

theorem sink.enqueued_enqueued {S MessageType : Type} (s : sink S MessageType)
    (pool : thread_pool S) (xs ys : List (message_pack MessageType)) :
    sink.enqueued { s with queue_ := { buffer_ := s.queue_.buffer_ ++ xs } }
        (if s.queue_.buffer_.isEmpty && !xs.isEmpty then
          pool.enqueue (.sink_token s.weak_this) else pool) ys =
      s.enqueued pool (xs ++ ys) := by
  rcases hq : s.queue_.buffer_ with _ | ⟨y, l⟩ <;> cases xs <;> cases ys <;>
    simp [sink.enqueued, hq, thread_pool.enqueue]

theorem sink.log_walk_eq {S MessageType : Type}
    (filter : Option (String → MessageType → Bool))
    (container : List (message_pack MessageType)) :
    ∀ (rest : List (message_pack MessageType)) (head tail : Nat) (s : sink S MessageType)
      (pool : thread_pool S),
      s.filter_ = filter.map predicate → container.drop tail = rest → head ≤ tail →
      sink.log_walk container rest head tail s (some pool) =
        s.enqueued pool (range_of container head tail ++ rest.filter (accepted_by filter)) := by
  intro rest
  induction rest with
  | nil =>
    intro head tail s pool _ _ _
    simp [sink.log_walk, sink.log_message_eq]
  | cons pack rest ih =>
    intro head tail s pool hf hd hle
    have hd1 := drop_succ_of_drop hd
    rw [sink.log_walk, sink.should_log_predicate s filter hf]
    cases hacc : accepted_by filter pack with
    | true =>
      simp only []
      rw [ih head (tail + 1) s pool hf hd1 (by omega), range_of_succ hd hle]
      simp [List.filter_cons, hacc]
    | false =>
      simp only [sink.log_message_eq]
      rw [show s.enqueued pool (range_of container head tail) =
        (({ s with queue_ := { buffer_ := s.queue_.buffer_ ++ range_of container head tail } },
          some (if s.queue_.buffer_.isEmpty && !(range_of container head tail).isEmpty then
            pool.enqueue (.sink_token s.weak_this) else pool)), none) from rfl]
      simp only []
      refine (ih (tail + 1) (tail + 1) _ _ ?_ hd1 (le_refl _)).trans ?_
      · exact hf
      · rw [range_of_self, List.nil_append, sink.enqueued_enqueued]
        simp [List.filter_cons, hacc]

theorem sink.log_eq {S MessageType : Type} (s : sink S MessageType) (pool : thread_pool S)
    (filter : Option (String → MessageType → Bool))
    (range : List (message_pack MessageType)) (hf : s.filter_ = filter.map predicate) :
    s.log (some pool) range = s.enqueued pool (range.filter (accepted_by filter)) := by
  unfold sink.log
  cases range with
  | nil => simp [sink.enqueued]
  | cons x xs =>
    simp only [List.isEmpty_cons, Bool.false_eq_true, if_false]
    rw [sink.log_walk_eq filter (x :: xs) (x :: xs) 0 0 _ pool hf rfl (le_refl _),
      range_of_self]
    simp

/-- C9. `sink::log(range)` with a live worker pool and a filter predicate (or no filter):
the call returns without exception, the queue afterwards is the queue before followed by
exactly the elements of the range the filter accepts, in their order, nothing else of the
sink changes, and a drain task is scheduled when the queue was empty and an element was
accepted. -/
theorem sink_log_enqueues_accepted {S MessageType : Type} (s : sink S MessageType)
    (pool : thread_pool S) (filter : Option (String → MessageType → Bool))
    (range : List (message_pack MessageType)) :
    ({ s with filter_ := filter.map predicate }).log (some pool) range =
      (({ s with
          filter_ := filter.map predicate,
          queue_ := { buffer_ := s.queue_.buffer_ ++ range.filter (accepted_by filter) } },
        some (if s.queue_.buffer_.isEmpty && !(range.filter (accepted_by filter)).isEmpty then
          pool.enqueue (.sink_token s.weak_this) else pool)), none) := by
  rw [sink.log_eq _ pool filter range rfl]
  rfl

/-! ### sink::sink_message_from_tray -/

theorem sink.after_calls_nil {S MessageType : Type} (s : sink S MessageType) :
    s.after_calls [] = s := by
  simp [sink.after_calls]

theorem sink.after_calls_after_calls {S MessageType : Type} (s : sink S MessageType)
    (a b : List (module_call MessageType)) :
    (s.after_calls a).after_calls b = s.after_calls (a ++ b) := by
  simp [sink.after_calls]

theorem sink.loop_returned {S MessageType : Type} :
    ∀ (rest : List (message_pack MessageType)) (pack : Nat) (s s1 : sink S MessageType)
      (pack1 : Nat),
      sink.sink_message_from_tray_loop rest pack s = (s1, pack1, none) →
      s1 = s.after_calls (drain_calls s.flusher_ rest) := by
  intro rest
  induction rest with
  | nil =>
    intro pack s s1 pack1 h
    simp only [sink.sink_message_from_tray_loop, Prod.mk.injEq] at h
    simp [drain_calls, sink.after_calls_nil, h.1]
  | cons inst rest ih =>
    intro pack s s1 pack1 h
    rw [sink.sink_message_from_tray_loop] at h
    simp only [sink_module.call] at h
    cases hw : s.sink_module_.throws s.sink_module_.calls
        (.log_message inst.logger_name inst.message) with
    | some e => simp [hw] at h
    | none =>
      simp only [hw] at h
      cases hfl : s.flusher_ with
      | none =>
        simp only [sink.should_flush, hfl] at h
        have := ih _ _ _ _ h
        rw [this]
        simp [sink.after_calls, drain_calls, flush_demanded, hfl]
      | some f =>
        simp only [sink.should_flush, hfl] at h
        cases hf : f inst.logger_name inst.message with
        | error e => simp [hf] at h
        | ok b =>
          cases b with
          | false =>
            simp only [hf] at h
            have := ih _ _ _ _ h
            rw [this]
            simp [sink.after_calls, drain_calls, flush_demanded, hfl, hf]
          | true =>
            simp only [hf] at h
            cases hfw : s.sink_module_.throws
                (s.sink_module_.calls ++ [.log_message inst.logger_name inst.message])
                .flush with
            | some e => simp [hfw] at h
            | none =>
              simp only [hfw] at h
              have := ih _ _ _ _ h
              rw [this]
              simp [sink.after_calls, drain_calls, flush_demanded, hfl, hf]

/-- C10. Write then flush: when `sink_message_from_tray` drains the tray without an
exception, the module has received, for each pack in tray order, one write of that pack
followed by one flush iff a flusher is installed and returns true for it (so no flush
precedes the write of its pack), the tray is empty afterwards, and nothing else of the sink
and nothing of the pool has changed. -/
theorem sink_drain_write_then_flush {S MessageType : Type} (s s1 : sink S MessageType)
    (thread_pool_ pool1 : Option (thread_pool S))
    (h : s.sink_message_from_tray thread_pool_ = ((s1, pool1), none)) :
    s1.sink_module_.calls =
      s.sink_module_.calls ++ drain_calls s.flusher_ s.queue_output_tray_ ∧
    s1.queue_output_tray_ = [] ∧
    s1 = { s with
      queue_output_tray_ := [],
      sink_module_ := { s.sink_module_ with calls := s1.sink_module_.calls } } ∧
    pool1 = thread_pool_ := by
  unfold sink.sink_message_from_tray at h
  rcases hl : sink.sink_message_from_tray_loop s.queue_output_tray_ 0 s with ⟨s2, pack, thrown⟩
  rw [hl] at h
  cases thrown with
  | some e =>
    simp only [sink.notify_thread_pool] at h
    cases thread_pool_ <;> simp at h
  | none =>
    simp only [Prod.mk.injEq, and_true] at h
    have h2 := sink.loop_returned _ _ _ _ _ hl
    obtain ⟨h1, hp⟩ := h
    subst h1 hp h2
    simp [sink.after_calls]

theorem sink.loop_cons_plain {S MessageType : Type} (s : sink S MessageType)
    (inst : message_pack MessageType) (rest : List (message_pack MessageType)) (pack : Nat)
    (hw : s.sink_module_.throws s.sink_module_.calls
      (.log_message inst.logger_name inst.message) = none)
    (hf : s.should_flush inst = .ok false) :
    sink.sink_message_from_tray_loop (inst :: rest) pack s =
      sink.sink_message_from_tray_loop rest (pack + 1)
        (s.after_calls [.log_message inst.logger_name inst.message]) := by
  have hf1 : sink.should_flush { s with sink_module_ :=
      { s.sink_module_ with calls := s.sink_module_.calls ++
        [.log_message inst.logger_name inst.message] } } inst = .ok false := hf
  rw [sink.sink_message_from_tray_loop]
  simp only [sink_module.call, hw, hf1]
  rfl

theorem sink.loop_cons_flush {S MessageType : Type} (s : sink S MessageType)
    (inst : message_pack MessageType) (rest : List (message_pack MessageType)) (pack : Nat)
    (hw : s.sink_module_.throws s.sink_module_.calls
      (.log_message inst.logger_name inst.message) = none)
    (hf : s.should_flush inst = .ok true)
    (hfw : s.sink_module_.throws
      (s.sink_module_.calls ++ [.log_message inst.logger_name inst.message]) .flush = none) :
    sink.sink_message_from_tray_loop (inst :: rest) pack s =
      sink.sink_message_from_tray_loop rest (pack + 1)
        (s.after_calls [.log_message inst.logger_name inst.message, .flush]) := by
  have hf1 : sink.should_flush { s with sink_module_ :=
      { s.sink_module_ with calls := s.sink_module_.calls ++
        [.log_message inst.logger_name inst.message] } } inst = .ok true := hf
  rw [sink.sink_message_from_tray_loop]
  simp only [sink_module.call, hw, hf1, hfw]
  simp [sink.after_calls]

theorem sink.loop_cons_write_throws {S MessageType : Type} (s : sink S MessageType)
    (inst : message_pack MessageType) (rest : List (message_pack MessageType)) (pack : Nat)
    (e : exception)
    (hw : s.sink_module_.throws s.sink_module_.calls
      (.log_message inst.logger_name inst.message) = some e) :
    sink.sink_message_from_tray_loop (inst :: rest) pack s =
      (s.after_calls [.log_message inst.logger_name inst.message], pack, some e) := by
  rw [sink.sink_message_from_tray_loop]
  simp only [sink_module.call, hw]
  rfl

theorem sink.loop_append {S MessageType : Type} :
    ∀ (before after : List (message_pack MessageType)) (pack : Nat) (s : sink S MessageType),
      quiet_tray s.sink_module_.throws s.flusher_ s.sink_module_.calls before = true →
      sink.sink_message_from_tray_loop (before ++ after) pack s =
        sink.sink_message_from_tray_loop after (pack + before.length)
          (s.after_calls (drain_calls s.flusher_ before)) := by
  intro before
  induction before with
  | nil =>
    intro after pack s _
    simp [drain_calls, sink.after_calls_nil]
  | cons inst before ih =>
    intro after pack s hq
    simp only [quiet_tray, Bool.and_eq_true, Option.isNone_iff_eq_none] at hq
    obtain ⟨hw, hq⟩ := hq
    cases hfl : s.flusher_ with
    | none =>
      simp only [hfl] at hq
      have hf : s.should_flush inst = .ok false := by simp [sink.should_flush, hfl]
      rw [List.cons_append, sink.loop_cons_plain s inst _ pack hw hf,
        ih after (pack + 1) _ (by simpa [sink.after_calls, hfl] using hq),
        sink.after_calls_after_calls]
      simp [drain_calls, flush_demanded, hfl, sink.after_calls, Nat.add_assoc, Nat.add_comm]
    | some f =>
      simp only [hfl] at hq
      cases hfv : f inst.logger_name inst.message with
      | error e => simp [hfv] at hq
      | ok b =>
        cases b with
        | false =>
          simp only [hfv] at hq
          have hf : s.should_flush inst = .ok false := by simp [sink.should_flush, hfl, hfv]
          rw [List.cons_append, sink.loop_cons_plain s inst _ pack hw hf,
            ih after (pack + 1) _ (by simpa [sink.after_calls, hfl] using hq),
            sink.after_calls_after_calls]
          simp [drain_calls, flush_demanded, hfl, hfv, sink.after_calls, Nat.add_assoc,
            Nat.add_comm]
        | true =>
          simp only [hfv, Bool.and_eq_true, Option.isNone_iff_eq_none] at hq
          obtain ⟨hfw, hq⟩ := hq
          have hf : s.should_flush inst = .ok true := by simp [sink.should_flush, hfl, hfv]
          rw [List.cons_append, sink.loop_cons_flush s inst _ pack hw hf hfw,
            ih after (pack + 1) _ (by simpa [sink.after_calls, hfl] using hq),
            sink.after_calls_after_calls]
          simp [drain_calls, flush_demanded, hfl, hfv, sink.after_calls, Nat.add_assoc,
            Nat.add_comm]

theorem sink.loop_quiet {S MessageType : Type} (tray : List (message_pack MessageType))
    (pack : Nat) (s : sink S MessageType)
    (hq : quiet_tray s.sink_module_.throws s.flusher_ s.sink_module_.calls tray = true) :
    sink.sink_message_from_tray_loop tray pack s =
      (s.after_calls (drain_calls s.flusher_ tray), pack + tray.length, none) := by
  have := sink.loop_append tray [] pack s hq
  simpa [sink.sink_message_from_tray_loop] using this

/-! ### Recovery after a failing write -/

theorem count_writes_append {MessageType : Type} (a b : List (module_call MessageType)) :
    count_writes (a ++ b) = count_writes a + count_writes b := by
  induction a with
  | nil => simp [count_writes]
  | cons c a ih =>
    cases c
    · rw [List.cons_append]
      simp only [count_writes, ih]
      omega
    · rw [List.cons_append]
      simp only [count_writes, ih]

theorem count_writes_drain_calls {MessageType : Type}
    (flusher : Option (filter_type MessageType)) (tray : List (message_pack MessageType)) :
    count_writes (drain_calls flusher tray) = tray.length := by
  induction tray with
  | nil => simp [drain_calls, count_writes]
  | cons x tray ih =>
    simp only [drain_calls, List.cons_append, count_writes, count_writes_append,
      List.length_cons]
    split <;> simp [count_writes, ih]

theorem quiet_throws_on_write {MessageType : Type} (k : Nat) (e : exception)
    (flusher : Option (String → MessageType → Bool)) :
    ∀ (tray : List (message_pack MessageType)) (calls : List (module_call MessageType)),
      count_writes calls + tray.length < k ∨ k ≤ count_writes calls →
      quiet_tray (throws_on_write k e) (flusher.map predicate) calls tray = true := by
  intro tray
  induction tray with
  | nil => intro calls _; simp [quiet_tray]
  | cons x tray ih =>
    intro calls h
    have hne : count_writes calls + 1 ≠ k := by
      simp only [List.length_cons] at h
      omega
    have hnext : ∀ extra : List (module_call MessageType), count_writes extra = 1 →
        (count_writes (calls ++ extra) + tray.length < k ∨
          k ≤ count_writes (calls ++ extra)) := by
      intro extra hx
      simp only [List.length_cons] at h
      rw [count_writes_append, hx]
      omega
    cases flusher with
    | none =>
      simp only [quiet_tray, Option.map_none', throws_on_write, hne, if_false,
        Option.isNone_none, Bool.true_and]
      exact ih _ (hnext _ (by simp [count_writes]))
    | some p =>
      simp only [quiet_tray, Option.map_some', throws_on_write, hne, if_false,
        Option.isNone_none, Bool.true_and, predicate]
      cases p x.logger_name x.message with
      | false => exact ih _ (hnext _ (by simp [count_writes]))
      | true => exact ih _ (hnext _ (by simp [count_writes]))

theorem sink.first_drain_throws {S MessageType : Type} (s : sink S MessageType)
    (pool : thread_pool S) (before after : List (message_pack MessageType))
    (r : message_pack MessageType) (e : exception)
    (flusher : Option (String → MessageType → Bool))
    (hqueue : s.queue_.buffer_ = before ++ r :: after)
    (htray : s.queue_output_tray_ = [])
    (hflusher : s.flusher_ = flusher.map predicate)
    (hmodule : s.sink_module_ = ⟨throws_on_write (before.length + 1) e, []⟩) :
    s.sink_message (some pool) =
      (({ s with
          queue_ := { buffer_ := [] },
          queue_output_tray_ := after,
          sink_module_ := ⟨throws_on_write (before.length + 1) e,
            drain_calls (flusher.map predicate) before ++
              [.log_message r.logger_name r.message]⟩ },
        some (pool.enqueue (.sink_token s.weak_this))), some e) := by
  have h1 : s.sink_message_from_tray (some pool) = ((s, some pool), none) := by
    unfold sink.sink_message_from_tray
    rw [htray, sink.sink_message_from_tray_loop]
    simp only []
    rw [← htray]
  unfold sink.sink_message
  rw [h1]
  simp only [blocking_queue.try_swap_bulk, hqueue, htray]
  have hne : (before ++ r :: after).isEmpty = false := by cases before <;> rfl
  simp only [hne, Bool.false_eq_true, if_false]
  unfold sink.sink_message_from_tray
  simp only []
  rw [sink.loop_append before (r :: after) 0 _ (by
      simp only [hmodule, hflusher]
      exact quiet_throws_on_write _ e flusher before [] (by simp [count_writes])),
    sink.loop_cons_write_throws _ r after _ e (by
      simp [sink.after_calls, hmodule, throws_on_write, count_writes_drain_calls])]
  simp only [sink.notify_thread_pool, sink.after_calls, hmodule, hflusher, erase_range,
    List.take_zero, List.nil_append, List.append_assoc, List.singleton_append]
  have hdrop : List.drop (0 + before.length + 1) (before ++ r :: after) = after := by
    rw [Nat.zero_add, ← List.drop_drop 1 before.length, List.drop_left]
    rfl
  rw [hdrop]

theorem sink.second_drain_returns {S MessageType : Type} (s : sink S MessageType)
    (pool : thread_pool S) (k : Nat) (e : exception)
    (flusher : Option (String → MessageType → Bool))
    (hqueue : s.queue_.buffer_ = [])
    (hflusher : s.flusher_ = flusher.map predicate)
    (hthrows : s.sink_module_.throws = throws_on_write k e)
    (hk : k ≤ count_writes s.sink_module_.calls) :
    s.sink_message (some pool) =
      (({ s with
          queue_output_tray_ := [],
          sink_module_ := { s.sink_module_ with
            calls := s.sink_module_.calls ++
              drain_calls (flusher.map predicate) s.queue_output_tray_ } },
        some pool), none) := by
  unfold sink.sink_message sink.sink_message_from_tray
  rw [sink.loop_quiet s.queue_output_tray_ 0 s (by
    rw [hthrows, hflusher]
    exact quiet_throws_on_write k e flusher _ _ (Or.inr hk))]
  simp [blocking_queue.try_swap_bulk, sink.after_calls, hqueue, hflusher]

theorem drain_calls_writes {MessageType : Type} (flusher : Option (filter_type MessageType))
    (tray : List (message_pack MessageType)) :
    (drain_calls flusher tray).filter module_call.is_write = tray.map write_of := by
  induction tray with
  | nil => simp [drain_calls]
  | cons x tray ih =>
    simp only [drain_calls, List.cons_append, List.map_cons]
    rw [List.filter_cons, List.filter_append, ih]
    simp only [module_call.is_write, if_true]
    split <;> simp [module_call.is_write, write_of]

theorem world.run_task_sink_token {L S MessageType : Type} [DecidableEq L] [DecidableEq S]
    (NDEBUG : Bool) (w : world L S MessageType) (pointer : S)
    (tasks : List (thread_unit S)) (handler : Option error_handler_type)
    (s1 : sink S MessageType) (pool1 : Option (thread_pool S)) (thrown : Option exception)
    (hpool : w.thread_pool_ = some ⟨.sink_token pointer :: tasks, handler⟩)
    (hrun : (w.sinks pointer).sink_message (some ⟨tasks, handler⟩) = ((s1, pool1), thrown)) :
    w.run_task NDEBUG 0 =
      some { w with
        sinks := Function.update w.sinks pointer s1,
        thread_pool_ := pool1,
        error_handler_calls := world.handle_thrown handler thrown w.error_handler_calls } := by
  unfold world.run_task
  simp only [hpool, List.get?_cons_zero, List.eraseIdx_cons_zero, world.operate_by_thread,
    hrun]

/-- C3. Recovery: `records` are queued to a sink whose module throws on exactly the `k`-th
write (`1 ≤ k ≤ N`), the tray is empty and one drain task is pending. Executing the tasks of
the pool until its queue is empty (two tasks suffice) leaves queue and tray of the sink empty;
the module has then been asked to write every record exactly once and in the original order,
and a flush follows each successfully written record for which the flusher holds: records
`1..k-1` and `k+1..N` are written and flushed as in an undisturbed drain, record `k` is
attempted once. -/
theorem sink_recovery {L S MessageType : Type} [DecidableEq L] [DecidableEq S]
    (NDEBUG : Bool) (w : world L S MessageType) (pointer : S)
    (records : List (message_pack MessageType)) (k : Nat) (e : exception)
    (flusher : Option (String → MessageType → Bool)) (handler : Option error_handler_type)
    (fuel : Nat) (hk1 : 1 ≤ k) (hk2 : k ≤ records.length) (hfuel : 2 ≤ fuel)
    (hpool : w.thread_pool_ = some ⟨[.sink_token pointer], handler⟩)
    (hthis : (w.sinks pointer).weak_this = pointer)
    (hqueue : (w.sinks pointer).queue_.buffer_ = records)
    (htray : (w.sinks pointer).queue_output_tray_ = [])
    (hflusher : (w.sinks pointer).flusher_ = flusher.map predicate)
    (hmodule : (w.sinks pointer).sink_module_ = ⟨throws_on_write k e, []⟩) :
    ∃ w1, w.wait_until_queue_empty NDEBUG fuel = some w1 ∧
      w1.is_task_queue_empty = true ∧
      (w1.sinks pointer).queue_.buffer_ = [] ∧
      (w1.sinks pointer).queue_output_tray_ = [] ∧
      (w1.sinks pointer).sink_module_.calls =
        drain_calls (flusher.map predicate) (records.take (k - 1)) ++
          ((records.drop (k - 1)).take 1).map write_of ++
          drain_calls (flusher.map predicate) (records.drop k) ∧
      (w1.sinks pointer).sink_module_.calls.filter module_call.is_write =
        records.map write_of := by
  obtain ⟨before, r, after, hrec, hlen⟩ :
      ∃ before r after, records = before ++ r :: after ∧ before.length + 1 = k := by
    have hlt : k - 1 < records.length := by omega
    refine ⟨records.take (k - 1), records[k - 1], records.drop k, ?_, ?_⟩
    · have := List.take_append_drop (k - 1) records
      rw [List.drop_eq_getElem_cons hlt] at this
      rw [show k - 1 + 1 = k by omega] at this
      exact this.symm
    · rw [List.length_take]
      omega
  subst hlen
  have htake : List.take (before.length + 1 - 1) records = before := by
    simp [hrec]
  have hdrop1 : List.drop (before.length + 1 - 1) records = r :: after := by
    simp [hrec]
  have hdrop : List.drop (before.length + 1) records = after := by
    rw [hrec, ← List.drop_drop 1 before.length, List.drop_left]
    rfl
  obtain ⟨f, rfl⟩ : ∃ f, fuel = f + 2 := ⟨fuel - 2, by omega⟩
  have hstep1 := world.run_task_sink_token NDEBUG w pointer [] handler _ _ _ hpool
    (sink.first_drain_throws (w.sinks pointer) ⟨[], handler⟩ before after r e flusher
      (by rw [hqueue, hrec]) htray hflusher hmodule)
  simp only [thread_pool.enqueue, List.nil_append, hthis] at hstep1
  obtain ⟨w2, h2run, h2pool, h2sink⟩ : ∃ w2, w.run_task NDEBUG 0 = some w2 ∧
      w2.thread_pool_ = some ⟨[.sink_token pointer], handler⟩ ∧
      w2.sinks pointer = { w.sinks pointer with
        weak_this := pointer,
        queue_ := { buffer_ := [] },
        queue_output_tray_ := after,
        sink_module_ := ⟨throws_on_write (before.length + 1) e,
          drain_calls (flusher.map predicate) before ++
            [.log_message r.logger_name r.message]⟩ } :=
    ⟨_, hstep1, rfl, Function.update_same _ _ _⟩
  have hsecond := sink.second_drain_returns (w2.sinks pointer) ⟨[], handler⟩
    (before.length + 1) e flusher (by rw [h2sink]) (by rw [h2sink]; exact hflusher)
    (by rw [h2sink])
    (by rw [h2sink]; simp [count_writes_append, count_writes_drain_calls, count_writes])
  obtain ⟨w3, h3run, h3pool, h3sink⟩ : ∃ w3, w2.run_task NDEBUG 0 = some w3 ∧
      w3.thread_pool_ = some ⟨[], handler⟩ ∧
      w3.sinks pointer = { w2.sinks pointer with
        queue_output_tray_ := [],
        sink_module_ := { (w2.sinks pointer).sink_module_ with
          calls := (w2.sinks pointer).sink_module_.calls ++
            drain_calls (flusher.map predicate) (w2.sinks pointer).queue_output_tray_ } } :=
    ⟨_, world.run_task_sink_token NDEBUG w2 pointer [] handler _ _ _ h2pool hsecond, rfl,
      Function.update_same _ _ _⟩
  refine ⟨w3, ?_, ?_, ?_, ?_, ?_, ?_⟩
  · rw [world.wait_until_queue_empty]
    simp only [world.is_task_queue_empty, hpool, List.isEmpty_cons, Bool.false_eq_true,
      if_false, h2run]
    rw [world.wait_until_queue_empty]
    simp only [world.is_task_queue_empty, h2pool, List.isEmpty_cons, Bool.false_eq_true,
      if_false, h3run]
    cases f <;> simp [world.wait_until_queue_empty, world.is_task_queue_empty, h3pool]
  · simp [world.is_task_queue_empty, h3pool]
  · rw [h3sink, h2sink]
  · rw [h3sink]
  · rw [h3sink, h2sink, htake, hdrop1, hdrop]
    simp [write_of]
  · rw [h3sink, h2sink, hrec]
    simp [List.filter_append, drain_calls_writes, module_call.is_write, write_of]

/-! ### dispatcher::dispatch_message_from_tray -/

theorem range_of_length {α : Type} (container : List α) (head tail : Nat)
    (h : tail ≤ container.length) : (range_of container head tail).length = tail - head := by
  simp only [range_of, List.length_take, List.length_drop]
  omega

theorem dispatcher.dispatch_walk_eq {L MessageType σ : Type} [DecidableEq L]
    (deliver : L → List (message_pack MessageType) → σ → σ × Option exception)
    (messages : List (message_pack MessageType)) :
    ∀ (rest : List L) (later : List (message_pack MessageType)) (destination : L)
      (head tail : Nat) (state : σ),
      messages.drop tail = later → rest.length = later.length → head ≤ tail →
      tail ≤ messages.length →
      dispatcher.dispatch_walk deliver messages rest destination tail head tail state =
        ⟨(deliver_runs deliver
            (runs_from destination (range_of messages head tail) rest later) head state).1,
          (deliver_runs deliver
            (runs_from destination (range_of messages head tail) rest later) head state).2.1,
          (deliver_runs deliver
            (runs_from destination (range_of messages head tail) rest later) head state).2.1,
          (deliver_runs deliver
            (runs_from destination (range_of messages head tail) rest later) head state).2.2⟩ := by
  intro rest
  induction rest with
  | nil =>
    intro later destination head tail state _ hlen hle hbound
    have hpos : head + (range_of messages head tail).length = tail := by
      rw [range_of_length _ _ _ hbound]
      omega
    cases later with
    | cons _ _ => simp at hlen
    | nil =>
      simp only [dispatcher.dispatch_walk, runs_from, deliver_runs, hpos]
      rcases deliver destination (range_of messages head tail) state with ⟨state1, thrown⟩
      cases thrown <;> rfl
  | cons logger rest ih =>
    intro later destination head tail state hdrop hlen hle hbound
    have hpos : head + (range_of messages head tail).length = tail := by
      rw [range_of_length _ _ _ hbound]
      omega
    cases later with
    | nil => simp at hlen
    | cons message later =>
      have hdrop1 := drop_succ_of_drop hdrop
      have hlen1 : rest.length = later.length := by simpa using hlen
      have hbound1 : tail + 1 ≤ messages.length := by
        by_contra hc
        rw [List.drop_eq_nil_of_le (by omega)] at hdrop
        cases hdrop
      rw [dispatcher.dispatch_walk, runs_from]
      by_cases hsame : destination = logger
      · simp only [hsame, ne_eq, not_true_eq_false, if_false, if_true]
        rw [ih later logger head (tail + 1) state hdrop1 hlen1 (by omega) hbound1,
          range_of_succ hdrop hle]
      · simp only [hsame, ne_eq, not_false_eq_true, if_true, if_false, deliver_runs, hpos]
        rcases deliver destination (range_of messages head tail) state with ⟨state1, thrown⟩
        cases thrown with
        | some e => rfl
        | none =>
          simp only []
          rw [ih later logger tail (tail + 1) state1 hdrop1 hlen1 (by omega) hbound1,
            range_of_succ hdrop (le_refl _), range_of_self, List.nil_append]

theorem runs_from_messages {L MessageType : Type} [DecidableEq L] :
    ∀ (loggers : List L) (messages run : List (message_pack MessageType)) (destination : L),
      loggers.length = messages.length →
      runs_messages (runs_from destination run loggers messages) = run ++ messages := by
  intro loggers
  induction loggers with
  | nil =>
    intro messages run destination h
    cases messages with
    | nil => simp [runs_from, runs_messages]
    | cons _ _ => simp at h
  | cons logger loggers ih =>
    intro messages run destination h
    cases messages with
    | nil => simp at h
    | cons message messages =>
      have h1 : loggers.length = messages.length := by simpa using h
      rw [runs_from]
      split
      · rw [ih messages _ _ h1]
        simp
      · have := ih messages [message] logger h1
        simp only [runs_messages, List.map_cons, List.flatten_cons] at this ⊢
        rw [this]
        simp

theorem runs_from_loggers {L MessageType : Type} [DecidableEq L] :
    ∀ (loggers : List L) (messages run : List (message_pack MessageType)) (destination : L),
      loggers.length = messages.length →
      runs_loggers (runs_from destination run loggers messages) =
        List.replicate run.length destination ++ loggers := by
  intro loggers
  induction loggers with
  | nil =>
    intro messages run destination h
    cases messages with
    | nil => simp [runs_from, runs_loggers]
    | cons _ _ => simp at h
  | cons logger loggers ih =>
    intro messages run destination h
    cases messages with
    | nil => simp at h
    | cons message messages =>
      have h1 : loggers.length = messages.length := by simpa using h
      rw [runs_from]
      split
      · rename_i hsame
        rw [ih messages _ _ h1, ← hsame]
        simp [List.replicate_succ', List.append_assoc]
      · have := ih messages [message] logger h1
        simp only [runs_loggers, List.map_cons, List.flatten_cons] at this ⊢
        rw [this]
        simp

theorem runs_messages_eq {L MessageType : Type} [DecidableEq L] (loggers : List L)
    (messages : List (message_pack MessageType)) (h : loggers.length = messages.length) :
    runs_messages (runs loggers messages) = messages := by
  cases loggers with
  | nil =>
    cases messages with
    | nil => simp [runs, runs_messages]
    | cons _ _ => simp at h
  | cons logger loggers =>
    cases messages with
    | nil => simp at h
    | cons message messages =>
      rw [runs, runs_from_messages _ _ _ _ (by simpa using h)]
      rfl

theorem runs_loggers_eq {L MessageType : Type} [DecidableEq L] (loggers : List L)
    (messages : List (message_pack MessageType)) (h : loggers.length = messages.length) :
    runs_loggers (runs loggers messages) = loggers := by
  cases loggers with
  | nil =>
    cases messages with
    | nil => simp [runs, runs_loggers]
    | cons _ _ => simp at h
  | cons logger loggers =>
    cases messages with
    | nil => simp at h
    | cons message messages =>
      rw [runs, runs_from_loggers _ _ _ _ (by simpa using h)]
      rfl

theorem dispatcher.walk_from_tray {L MessageType σ : Type} [DecidableEq L]
    (deliver : L → List (message_pack MessageType) → σ → σ × Option exception)
    (destination : L) (rest : List L) (message : message_pack MessageType)
    (later : List (message_pack MessageType)) (state : σ)
    (hsize : rest.length = later.length) :
    dispatcher.dispatch_walk deliver (message :: later) rest destination 1 0 1 state =
      ⟨(deliver_runs deliver (runs (destination :: rest) (message :: later)) 0 state).1,
        (deliver_runs deliver (runs (destination :: rest) (message :: later)) 0 state).2.1,
        (deliver_runs deliver (runs (destination :: rest) (message :: later)) 0 state).2.1,
        (deliver_runs deliver (runs (destination :: rest) (message :: later)) 0 state).2.2⟩ := by
  have h := dispatcher.dispatch_walk_eq deliver (message :: later) rest later destination 0 1
    state rfl hsize (by omega) (by simp)
  have hr : range_of (message :: later) 0 1 = [message] := by simp [range_of]
  rw [hr] at h
  exact h

theorem dispatcher.from_tray_returns {L S MessageType σ : Type} [DecidableEq L]
    (NDEBUG : Bool)
    (deliver : L → List (message_pack MessageType) → σ × Option (thread_pool S) →
      (σ × Option (thread_pool S)) × Option exception)
    (d : dispatcher L MessageType) (state state1 : σ × Option (thread_pool S))
    (position : Nat) (hsize : d.logger_tray_.length = d.message_tray_.length)
    (hruns : deliver_runs deliver (runs d.logger_tray_ d.message_tray_) 0 state =
      (state1, position, none)) :
    dispatcher.dispatch_message_from_tray NDEBUG deliver d state =
      some (({ d with logger_tray_ := [], message_tray_ := [] }, state1), none) := by
  obtain ⟨queue, loggers, messages⟩ := d
  simp only at hsize hruns
  unfold dispatcher.dispatch_message_from_tray
  simp only [assert, hsize, beq_self_eq_true, Bool.or_true, if_true]
  cases loggers with
  | nil =>
    cases messages with
    | cons _ _ => simp at hsize
    | nil =>
      simp only [runs, deliver_runs, Prod.mk.injEq, and_true] at hruns
      rw [hruns.1]
  | cons destination rest =>
    cases messages with
    | nil => simp at hsize
    | cons message later =>
      simp only [dispatcher.walk_from_tray deliver destination rest message later
        state (by simpa using hsize), hruns]

/-- Witness for C10: the sample tray is drained without exception. -/
theorem sink_drain_write_then_flush_witness :
    (sample_sink.sink_message_from_tray (some ⟨[], none⟩)).1.1.sink_module_.calls =
      [.log_message "logger" 10, .log_message "logger" 11, .flush,
        .log_message "logger" 12] ∧
    (sample_sink.sink_message_from_tray (some ⟨[], none⟩)).1.1.queue_output_tray_ = [] :=
  have h := sink_drain_write_then_flush sample_sink
    (sample_sink.sink_message_from_tray (some ⟨[], none⟩)).1.1 (some ⟨[], none⟩)
    (some ⟨[], none⟩) rfl
  ⟨h.1.trans rfl, h.2.1⟩

/-- Witness for C3: three records, the second write throws, flush demanded after the third. -/
theorem sink_recovery_witness :
    ∃ w1, sample_recovery_world.wait_until_queue_empty false 2 = some w1 ∧
      w1.is_task_queue_empty = true ∧
      (w1.sinks ()).queue_.buffer_ = [] ∧
      (w1.sinks ()).queue_output_tray_ = [] ∧
      (w1.sinks ()).sink_module_.calls =
        [.log_message "logger" 10, .log_message "logger" 11, .log_message "logger" 12,
          .flush] := by
  obtain ⟨w1, h1, h2, h3, h4, h5, _⟩ := sink_recovery false sample_recovery_world ()
    [sample_pack 10, sample_pack 11, sample_pack 12] 2 (runtime_error "write failed")
    (some fun _ message => message == 12) none 2 (by decide) (by decide) (by decide)
    rfl rfl rfl rfl rfl rfl
  exact ⟨w1, h1, h2, h3, h4, h5.trans rfl⟩

/-! ### One logger attached to one sink -/

theorem received_append {MessageType : Type} (a b : List (module_call MessageType)) :
    received (a ++ b) = received a ++ received b := by
  induction a with
  | nil => rfl
  | cons c a ih =>
    cases c
    · rw [List.cons_append]
      simp only [received, ih, List.cons_append]
    · rw [List.cons_append]
      simp only [received, ih]

theorem received_drain_calls {MessageType : Type}
    (flusher : Option (filter_type MessageType)) (tray : List (message_pack MessageType)) :
    received (drain_calls flusher tray) = tray := by
  induction tray with
  | nil => rfl
  | cons x tray ih =>
    simp only [drain_calls, List.cons_append, received, received_append]
    split <;> simp [received, ih]

theorem quiet_never_throws {MessageType : Type}
    (flusher : Option (String → MessageType → Bool)) :
    ∀ (tray : List (message_pack MessageType)) (calls : List (module_call MessageType)),
      quiet_tray never_throws (flusher.map predicate) calls tray = true := by
  intro tray
  induction tray with
  | nil => intro calls; simp [quiet_tray]
  | cons x tray ih =>
    intro calls
    cases flusher with
    | none =>
      simp only [quiet_tray, Option.map_none', never_throws, Option.isNone_none,
        Bool.true_and]
      exact ih _
    | some p =>
      simp only [quiet_tray, Option.map_some', never_throws, Option.isNone_none,
        Bool.true_and, predicate]
      cases p x.logger_name x.message with
      | false => exact ih _
      | true => exact ih _

theorem sink.drain_returns {S MessageType : Type} (s : sink S MessageType)
    (pool : thread_pool S) (flusher : Option (String → MessageType → Bool))
    (htray : s.queue_output_tray_ = [])
    (hflusher : s.flusher_ = flusher.map predicate)
    (hthrows : s.sink_module_.throws = never_throws) :
    s.sink_message (some pool) =
      (({ s with
          queue_ := { buffer_ := [] },
          queue_output_tray_ := [],
          sink_module_ := { s.sink_module_ with
            calls := s.sink_module_.calls ++
              drain_calls (flusher.map predicate) s.queue_.buffer_ } },
        some pool), none) := by
  obtain ⟨this, ⟨queue⟩, tray, name, filter, flusher_, ⟨throws, calls⟩⟩ := s
  simp only at htray hflusher hthrows
  subst htray hflusher hthrows
  have h1 : ∀ (q : List (message_pack MessageType)) (t : List (message_pack MessageType))
      (c : List (module_call MessageType)),
      sink.sink_message_from_tray
        (⟨this, ⟨q⟩, t, name, filter, flusher.map predicate, ⟨never_throws, c⟩⟩ :
          sink S MessageType) (some pool) =
      ((⟨this, ⟨q⟩, [], name, filter, flusher.map predicate,
        ⟨never_throws, c ++ drain_calls (flusher.map predicate) t⟩⟩, some pool), none) := by
    intro q t c
    unfold sink.sink_message_from_tray
    rw [sink.loop_quiet t 0 _ (quiet_never_throws flusher t c)]
    rfl
  unfold sink.sink_message
  rw [h1]
  simp only [drain_calls, List.append_nil, blocking_queue.try_swap_bulk]
  cases queue with
  | nil => simp [drain_calls]
  | cons x queue =>
    simp only [List.isEmpty_cons, Bool.false_eq_true, if_false]
    rw [h1]

theorem sink.enqueued_eq {S MessageType : Type} (s : sink S MessageType)
    (pool : thread_pool S) (xs : List (message_pack MessageType)) :
    s.enqueued pool xs = ((s.queued xs, some (s.notified pool xs)), none) := rfl

theorem sink.queued_nil {S MessageType : Type} (s : sink S MessageType) :
    s.queued [] = s := by
  simp [sink.queued]

theorem sink.notified_nil {S MessageType : Type} (s : sink S MessageType)
    (pool : thread_pool S) : s.notified pool [] = pool := by
  simp [sink.notified]

theorem sink.queued_queued {S MessageType : Type} (s : sink S MessageType)
    (xs ys : List (message_pack MessageType)) :
    (s.queued xs).queued ys = s.queued (xs ++ ys) := by
  simp [sink.queued]

theorem sink.notified_notified {S MessageType : Type} (s : sink S MessageType)
    (pool : thread_pool S) (xs ys : List (message_pack MessageType)) :
    (s.queued xs).notified (s.notified pool xs) ys = s.notified pool (xs ++ ys) := by
  have h := sink.enqueued_enqueued s pool xs ys
  simp only [sink.enqueued, Prod.mk.injEq, Option.some.injEq, and_true] at h
  exact h.2

theorem unit_update {α : Type} (f : Unit → α) (v : α) :
    Function.update f () v = fun _ => v := by
  funext x
  cases x
  simp

theorem logger.dispatch_to_single_sink {L MessageType : Type} (lg : logger L Unit MessageType)
    (sinks : Unit → sink Unit MessageType) (pool : thread_pool Unit)
    (filter : Option (String → MessageType → Bool))
    (range : List (message_pack MessageType))
    (hsinks : lg.sinks_ = [()]) (hfilter : (sinks ()).filter_ = filter.map predicate) :
    lg.dispatch_message_to_sinks range (sinks, some pool) =
      ((fun _ => (sinks ()).queued (range.filter (accepted_by filter)),
        some ((sinks ()).notified pool (range.filter (accepted_by filter)))), none) := by
  unfold logger.dispatch_message_to_sinks
  cases range with
  | nil =>
    simp only [List.isEmpty_nil, if_true, List.filter_nil, sink.queued_nil, sink.notified_nil]
  | cons x xs =>
    simp only [List.isEmpty_cons, Bool.false_eq_true, if_false, hsinks,
      logger.dispatch_message_to_sinks_loop, sink.log_eq _ pool filter _ hfilter,
      sink.enqueued_eq, unit_update]

theorem world.deliver_runs_single {MessageType : Type}
    (loggers : Unit → logger Unit Unit MessageType)
    (filter : Option (String → MessageType → Bool))
    (hsinks : (loggers ()).sinks_ = [()]) :
    ∀ (groups : List (Unit × List (message_pack MessageType))) (position : Nat)
      (sinks : Unit → sink Unit MessageType) (pool : thread_pool Unit),
      (sinks ()).filter_ = filter.map predicate →
      deliver_runs (fun pointer range state =>
          (loggers pointer).dispatch_message_to_sinks range state)
        groups position (sinks, some pool) =
        ((fun _ => (sinks ()).queued ((runs_messages groups).filter (accepted_by filter)),
          some ((sinks ()).notified pool
            ((runs_messages groups).filter (accepted_by filter)))),
          position + runs_size groups, none) := by
  intro groups
  induction groups with
  | nil =>
    intro position sinks pool _
    simp [deliver_runs, runs_messages, runs_size, sink.queued_nil, sink.notified_nil]
  | cons g groups ih =>
    intro position sinks pool hfilter
    obtain ⟨pointer, messages⟩ := g
    cases pointer
    simp only [deliver_runs]
    rw [logger.dispatch_to_single_sink (loggers ()) sinks pool filter messages hsinks hfilter]
    simp only []
    rw [ih _ _ _ (by simpa [sink.queued] using hfilter)]
    simp only [sink.queued_queued, sink.notified_notified]
    simp [runs_messages, runs_size, Nat.add_assoc]

theorem assert_same_size {T U : Type} (NDEBUG : Bool) (a : List T) (b : List U)
    (h : a.length = b.length) :
    assert NDEBUG (blocking_pair_queue.same_size (⟨a, b⟩ : blocking_pair_queue T U)) = true := by
  simp [assert, blocking_pair_queue.same_size, h]

theorem unit_fun_eta {α : Type} (f : Unit → α) : (fun _ => f ()) = f := by
  funext x
  cases x
  rfl

theorem world.dispatch_single {MessageType : Type} (NDEBUG : Bool)
    (loggers : Unit → logger Unit Unit MessageType)
    (filter : Option (String → MessageType → Bool))
    (first : List Unit) (second : List (message_pack MessageType))
    (sinks : Unit → sink Unit MessageType) (pool : thread_pool Unit)
    (hsinks : (loggers ()).sinks_ = [()])
    (hfilter : (sinks ()).filter_ = filter.map predicate)
    (hsize : first.length = second.length) :
    dispatcher.dispatch NDEBUG (fun pointer range state =>
        (loggers pointer).dispatch_message_to_sinks range state)
      (⟨⟨first, second⟩, [], []⟩ : dispatcher Unit MessageType) (sinks, some pool) =
      some ((⟨⟨[], []⟩, [], []⟩,
        fun _ => (sinks ()).queued (second.filter (accepted_by filter)),
        some ((sinks ()).notified pool (second.filter (accepted_by filter)))), none) := by
  unfold dispatcher.dispatch
  rw [dispatcher.from_tray_returns NDEBUG _ ⟨⟨first, second⟩, [], []⟩ (sinks, some pool)
    (sinks, some pool) 0 rfl rfl]
  simp only [blocking_pair_queue.try_swap_bulk, List.length_nil, bne_self_eq_false,
    Bool.false_eq_true, if_false, assert, blocking_pair_queue.same_size, hsize,
    beq_self_eq_true, Bool.or_true, if_true]
  cases first with
  | nil =>
    cases second with
    | cons _ _ => simp at hsize
    | nil =>
      simp only [List.isEmpty_nil, if_true, List.filter_nil, sink.queued_nil,
        sink.notified_nil, unit_fun_eta]
  | cons x first =>
    simp only [List.isEmpty_cons, Bool.false_eq_true, if_false]
    have hruns := world.deliver_runs_single loggers filter hsinks
      (runs (x :: first) second) 0 sinks pool hfilter
    rw [runs_messages_eq _ _ hsize] at hruns
    rw [dispatcher.from_tray_returns NDEBUG _ ⟨⟨[], []⟩, x :: first, second⟩
      (sinks, some pool) _ _ hsize hruns]

theorem accepted_records_append {MessageType : Type} (name : String)
    (f g : Option (String → MessageType → Bool)) (history : List MessageType)
    (m : MessageType) :
    accepted_records name f g (history ++ [m]) =
      accepted_records name f g history ++
        ([make_message_pack name m].filter (accepted_by f)).filter (accepted_by g) := by
  simp [accepted_records, List.filter_append]

theorem world.single_log {MessageType : Type} (NDEBUG : Bool) (name sink_name : String)
    (f g flusher : Option (String → MessageType → Bool)) (history : List MessageType)
    (m : MessageType) (w : world Unit Unit MessageType)
    (hinv : world.single_invariant (world.single name sink_name f g flusher) g
      (accepted_records name f g history) w) :
    ∃ w1 thrown, w.log NDEBUG () (.ok m) = some (w1, thrown) ∧
      world.single_invariant (world.single name sink_name f g flusher) g
        (accepted_records name f g (history ++ [m])) w1 := by
  obtain ⟨pool, first, second, queue, calls, hpool, hdisp, hsize, hlogger, hsink, hacc, hj1,
    hj2⟩ := hinv
  have hname : (w.loggers ()).name_ = name := by rw [hlogger]; rfl
  have hshould : (w.loggers ()).should_log (make_message_pack name m) =
      .ok (accepted_by f (make_message_pack name m)) := by
    rw [hlogger]
    cases f <;> simp [world.single, logger.should_log, accepted_by, predicate,
      make_message_pack]
  have hmark : (w.loggers ()).mark_as_destroy_ = false := by rw [hlogger]; rfl
  have hthis : (w.loggers ()).weak_this = () := rfl
  rw [accepted_records_append]
  cases hf : accepted_by f (make_message_pack name m) with
  | false =>
    refine ⟨w, none, ?_, ?_⟩
    · simp [world.log, world.log_inner, hmark, hdisp, hname, hshould, hf]
    · refine ⟨pool, first, second, queue, calls, hpool, hdisp, hsize, hlogger, hsink, ?_, hj1,
        hj2⟩
      simp [hf, hacc]
  | true =>
    have hq1 := assert_same_size NDEBUG first second hsize
    have hq2 := assert_same_size NDEBUG (first ++ [()]) (second ++ [make_message_pack name m])
      (by simp [hsize])
    cases first with
    | nil =>
      simp only [List.nil_append] at hq2
      refine ⟨{ w with
        dispatcher_ := some ⟨⟨[()], second ++ [make_message_pack name m]⟩, [], []⟩,
        thread_pool_ := some (pool.enqueue .dispatcher_token) }, none, ?_, ?_⟩
      · simp only [world.log, world.log_inner, hmark, hdisp, hname, hshould, hf, hthis,
          dispatcher.enqueue, blocking_pair_queue.enqueue, hq1, hq2, hpool,
          dispatcher.notify_thread_pool, Bool.false_eq_true, if_false, if_true,
          List.isEmpty_nil, List.nil_append]
      · refine ⟨pool.enqueue .dispatcher_token, [()], second ++ [make_message_pack name m],
          queue, calls, rfl, rfl, by simp [← hsize], hlogger, hsink, ?_, ?_, ?_⟩
        · simp [hf, ← hacc, List.filter_append]
        · intro _
          simp [thread_pool.enqueue]
        · intro hq
          simp [thread_pool.enqueue, hj2 hq]
    | cons x first =>
      simp only [List.cons_append] at hq2
      refine ⟨{ w with
        dispatcher_ := some ⟨⟨x :: (first ++ [()]), second ++ [make_message_pack name m]⟩,
          [], []⟩,
        thread_pool_ := some pool }, none, ?_, ?_⟩
      · simp only [world.log, world.log_inner, hmark, hdisp, hname, hshould, hf, hthis,
          dispatcher.enqueue, blocking_pair_queue.enqueue, hq1, hq2, hpool,
          Bool.false_eq_true, if_false, if_true, List.isEmpty_cons, List.cons_append]
      · refine ⟨pool, x :: (first ++ [()]), second ++ [make_message_pack name m],
          queue, calls, rfl, rfl, by simp [← hsize], hlogger, hsink, ?_, ?_, hj2⟩
        · simp [hf, ← hacc, List.filter_append]
        · intro _
          exact hj1 (by simp)

theorem pending_work_eraseIdx {S : Type} :
    ∀ (tasks : List (thread_unit S)) (i : Nat) (task : thread_unit S),
      tasks.get? i = some task →
      pending_work (tasks.eraseIdx i) + task_weight task = pending_work tasks := by
  intro tasks
  induction tasks with
  | nil => intro i task h; simp at h
  | cons t tasks ih =>
    intro i task h
    cases i with
    | zero =>
      simp only [List.get?_cons_zero, Option.some.injEq] at h
      subst h
      simp [pending_work, Nat.add_comm]
    | succ i =>
      simp only [List.get?_cons_succ] at h
      have := ih i task h
      simp only [pending_work, List.eraseIdx_cons_succ, List.map_cons, List.sum_cons] at this ⊢
      omega

theorem mem_eraseIdx_of_ne {α : Type} (l : List α) (i : Nat) (x t : α) (hx : x ∈ l)
    (hget : l.get? i = some t) (hne : t ≠ x) : x ∈ l.eraseIdx i := by
  rw [List.mem_eraseIdx_iff_getElem?]
  obtain ⟨j, hj⟩ := List.mem_iff_getElem?.mp hx
  refine ⟨j, ?_, hj⟩
  intro hji
  subst hji
  rw [List.get?_eq_getElem?] at hget
  rw [hget] at hj
  exact hne (Option.some.inj hj)

theorem world.single_run_task {MessageType : Type} (NDEBUG : Bool)
    (name sink_name : String) (f g flusher : Option (String → MessageType → Bool))
    (accepted : List (message_pack MessageType)) (w : world Unit Unit MessageType) (i : Nat)
    (hinv : world.single_invariant (world.single name sink_name f g flusher) g accepted w) :
    ∃ w1, w.run_task NDEBUG i = some w1 ∧
      world.single_invariant (world.single name sink_name f g flusher) g accepted w1 ∧
      ∀ pool pool1, w.thread_pool_ = some pool → w1.thread_pool_ = some pool1 →
        i < pool.task_queue_.length →
        pending_work pool1.task_queue_ < pending_work pool.task_queue_ := by
  obtain ⟨pool, first, second, queue, calls, hpool, hdisp, hsize, hlogger, hsink, hacc, hj1,
    hj2⟩ := hinv
  obtain ⟨tasks, handler⟩ := pool
  simp only at hj1 hj2
  cases hget : tasks.get? i with
  | none =>
    refine ⟨w, ?_, ⟨_, first, second, queue, calls, hpool, hdisp, hsize, hlogger, hsink, hacc,
      hj1, hj2⟩, ?_⟩
    · simp only [world.run_task, hpool, hget]
    · intro pool pool1 h1 _ hlt
      rw [hpool] at h1
      cases h1
      have hle := List.get?_eq_none.mp hget
      simp only at hlt
      omega
  | some task =>
    have hweight := pending_work_eraseIdx tasks i task hget
    cases task with
    | dispatcher_token =>
      have hsinks : (w.loggers ()).sinks_ = [()] := by rw [hlogger]; rfl
      have hfilter : (w.sinks ()).filter_ = g.map predicate := by rw [hsink]; rfl
      have hd := world.dispatch_single NDEBUG w.loggers g first second w.sinks
        ⟨tasks.eraseIdx i, handler⟩ hsinks hfilter hsize
      refine ⟨{ w with
          dispatcher_ := some ⟨⟨[], []⟩, [], []⟩,
          sinks := fun _ => (w.sinks ()).queued (second.filter (accepted_by g)),
          thread_pool_ := some ((w.sinks ()).notified ⟨tasks.eraseIdx i, handler⟩
            (second.filter (accepted_by g))) }, ?_, ?_, ?_⟩
      · simp only [world.run_task, hpool, hget, world.operate_by_thread, hdisp, hd,
          world.handle_thrown]
      · refine ⟨_, [], [], queue ++ second.filter (accepted_by g), calls, rfl, rfl, rfl,
          hlogger, ?_, ?_, ?_, ?_⟩
        · simp only [sink.queued, hsink]
        · simp [← hacc, List.append_assoc]
        · intro h
          exact absurd rfl h
        · intro hq
          simp only [sink.notified, hsink]
          cases queue with
          | nil =>
            have : second.filter (accepted_by g) ≠ [] := by simpa using hq
            cases hsf : second.filter (accepted_by g) with
            | nil => exact absurd hsf this
            | cons y ys => simp [thread_pool.enqueue, world.single]
          | cons y ys =>
            simp only [List.isEmpty_cons, Bool.false_and, Bool.false_eq_true, if_false]
            exact mem_eraseIdx_of_ne tasks i _ _ (hj2 (by simp)) hget (by simp)
      · intro pool pool1 h1 h2 _
        rw [hpool] at h1
        cases h1
        simp only [Option.some.injEq] at h2
        subst h2
        simp only [sink.notified, task_weight] at hweight ⊢
        split
        · simp only [thread_pool.enqueue, pending_work, List.map_append, List.sum_append,
            List.map_cons, List.map_nil, List.sum_cons, List.sum_nil, task_weight] at hweight ⊢
          omega
        · simp only []
          omega
    | sink_token myself =>
      cases myself
      have hd := sink.drain_returns (w.sinks ()) ⟨tasks.eraseIdx i, handler⟩ flusher
        (by rw [hsink]; rfl) (by rw [hsink]; rfl) (by rw [hsink])
      refine ⟨{ w with
          sinks := Function.update w.sinks ()
            { w.sinks () with
              queue_ := { buffer_ := [] },
              queue_output_tray_ := [],
              sink_module_ := { (w.sinks ()).sink_module_ with
                calls := (w.sinks ()).sink_module_.calls ++
                  drain_calls (flusher.map predicate) (w.sinks ()).queue_.buffer_ } },
          thread_pool_ := some ⟨tasks.eraseIdx i, handler⟩ }, ?_, ?_, ?_⟩
      · simp only [world.run_task, hpool, hget, world.operate_by_thread, hd,
          world.handle_thrown]
      · refine ⟨_, first, second, [],
          calls ++ drain_calls (flusher.map predicate) queue, rfl, hdisp, hsize,
          hlogger, ?_, ?_, ?_, ?_⟩
        · simp only [Function.update_same, hsink]
          rfl
        · simp [← hacc, received_append, received_drain_calls]
        · intro h
          exact mem_eraseIdx_of_ne tasks i _ _ (hj1 h) hget (by simp)
        · intro h
          exact absurd rfl h
      · intro pool pool1 h1 h2 _
        rw [hpool] at h1
        cases h1
        simp only [Option.some.injEq] at h2
        subst h2
        simp only [task_weight] at hweight ⊢
        omega

theorem world.single_invariant_init {MessageType : Type} (name sink_name : String)
    (f g flusher : Option (String → MessageType → Bool)) :
    world.single_invariant (world.single name sink_name f g flusher) g
      (accepted_records name f g []) (world.single name sink_name f g flusher) :=
  ⟨⟨[], none⟩, [], [], [], [], rfl, rfl, rfl, rfl, rfl, rfl, fun h => absurd rfl h,
    fun h => absurd rfl h⟩

theorem world.single_run_actions {MessageType : Type} (NDEBUG : Bool)
    (name sink_name : String) (f g flusher : Option (String → MessageType → Bool)) :
    ∀ (actions : List (action MessageType)) (history : List MessageType)
      (w : world Unit Unit MessageType),
      world.single_invariant (world.single name sink_name f g flusher) g
        (accepted_records name f g history) w →
      ∃ w1, world.run_actions NDEBUG () actions w = some w1 ∧
        world.single_invariant (world.single name sink_name f g flusher) g
          (accepted_records name f g (history ++ logged actions)) w1 := by
  intro actions
  induction actions with
  | nil =>
    intro history w hinv
    exact ⟨w, rfl, by simpa [logged] using hinv⟩
  | cons a actions ih =>
    intro history w hinv
    cases a with
    | log m =>
      obtain ⟨w1, thrown, hlog, hinv1⟩ :=
        world.single_log NDEBUG name sink_name f g flusher history m w hinv
      obtain ⟨w2, hrun, hinv2⟩ := ih (history ++ [m]) w1 hinv1
      refine ⟨w2, ?_, ?_⟩
      · simp only [world.run_actions, world.step, hlog, hrun]
      · simpa [logged, List.append_assoc] using hinv2
    | run i =>
      obtain ⟨w1, hstep, hinv1, _⟩ :=
        world.single_run_task NDEBUG name sink_name f g flusher _ w i hinv
      obtain ⟨w2, hrun, hinv2⟩ := ih history w1 hinv1
      refine ⟨w2, ?_, ?_⟩
      · simp only [world.run_actions, world.step, hstep, hrun]
      · simpa [logged] using hinv2

/-- C1. Per-logger order, for one logger attached to one sink, filter and flusher
predicates, and a module that never throws: after every sequence of atomic steps (`log`
calls of the logger and executions of queued tasks) from the fresh set-up, the packs the
module of the sink has received are an initial segment of the accepted records the logger
has logged, in the same order; once the dispatcher queue, the sink queue and the trays are
empty the two sequences are equal. No step aborts. -/
theorem per_logger_order {MessageType : Type} (NDEBUG : Bool) (name sink_name : String)
    (f g flusher : Option (String → MessageType → Bool))
    (actions : List (action MessageType)) :
    ∃ w, world.run_actions NDEBUG () actions (world.single name sink_name f g flusher) =
        some w ∧
      received (w.sinks ()).sink_module_.calls <+:
        accepted_records name f g (logged actions) ∧
      (w.is_drained () = true →
        received (w.sinks ()).sink_module_.calls =
          accepted_records name f g (logged actions)) := by
  obtain ⟨w, hrun, hinv⟩ := world.single_run_actions NDEBUG name sink_name f g flusher
    actions [] _ (world.single_invariant_init name sink_name f g flusher)
  obtain ⟨pool, first, second, queue, calls, _, hdisp, hsize, _, hsink, hacc, _, _⟩ := hinv
  rw [List.nil_append] at hacc
  refine ⟨w, hrun, ?_, ?_⟩
  · rw [hsink, ← hacc, List.append_assoc]
    exact List.prefix_append _ _
  · intro hdrained
    simp only [world.is_drained, hdisp, hsink, Bool.and_eq_true, List.isEmpty_iff] at hdrained
    have hsecond : second = [] := hdrained.1.1.1.1.2
    have hqueue : queue = [] := hdrained.1.2
    rw [hsink, ← hacc, hqueue, hsecond]
    simp

theorem pending_work_eq_zero {S : Type} (tasks : List (thread_unit S))
    (h : pending_work tasks = 0) : tasks = [] := by
  cases tasks with
  | nil => rfl
  | cons t tasks =>
    cases t <;> simp [pending_work, task_weight] at h

theorem world.single_wait {MessageType : Type} (NDEBUG : Bool) (name sink_name : String)
    (f g flusher : Option (String → MessageType → Bool))
    (accepted : List (message_pack MessageType)) :
    ∀ (fuel : Nat) (w : world Unit Unit MessageType),
      world.single_invariant (world.single name sink_name f g flusher) g accepted w →
      (∀ pool, w.thread_pool_ = some pool → pending_work pool.task_queue_ ≤ fuel) →
      ∃ w1, w.wait_until_queue_empty NDEBUG fuel = some w1 ∧
        world.single_invariant (world.single name sink_name f g flusher) g accepted w1 ∧
        w1.is_task_queue_empty = true := by
  intro fuel
  induction fuel with
  | zero =>
    intro w hinv hfuel
    refine ⟨w, rfl, hinv, ?_⟩
    obtain ⟨pool, _, _, _, _, hpool, _⟩ := hinv
    have := pending_work_eq_zero _ (Nat.le_zero.mp (hfuel pool hpool))
    simp [world.is_task_queue_empty, hpool, this]
  | succ fuel ih =>
    intro w hinv hfuel
    rw [world.wait_until_queue_empty]
    cases hempty : w.is_task_queue_empty with
    | true => exact ⟨w, by simp, hinv, hempty⟩
    | false =>
      obtain ⟨w1, hstep, hinv1, hless⟩ :=
        world.single_run_task NDEBUG name sink_name f g flusher accepted w 0 hinv
      have hfuel1 : ∀ pool1, w1.thread_pool_ = some pool1 →
          pending_work pool1.task_queue_ ≤ fuel := by
        intro pool1 hpool1
        obtain ⟨pool, _, _, _, _, hpool, _⟩ := hinv
        have hpos : 0 < pool.task_queue_.length := by
          simp only [world.is_task_queue_empty, hpool] at hempty
          cases htasks : pool.task_queue_ with
          | nil => simp [htasks] at hempty
          | cons _ _ => simp
        have := hless pool pool1 hpool hpool1 hpos
        have := hfuel pool hpool
        omega
      obtain ⟨w2, hwait, hinv2, hempty2⟩ := ih w1 hinv1 hfuel1
      exact ⟨w2, by simp [hstep, hwait], hinv2, hempty2⟩

theorem mem_received {MessageType : Type} (calls : List (module_call MessageType))
    (logger : String) (message : MessageType) :
    (⟨logger, message⟩ : message_pack MessageType) ∈ received calls ↔
      module_call.log_message logger message ∈ calls := by
  induction calls with
  | nil => simp [received]
  | cons c calls ih =>
    cases c <;> simp [received, ih]

theorem mem_accepted_records {MessageType : Type} (name : String)
    (f g : Option (String → MessageType → Bool)) (history : List MessageType)
    (r : MessageType) :
    make_message_pack name r ∈ accepted_records name f g history ↔
      r ∈ history ∧ accepted_by f (make_message_pack name r) = true ∧
        accepted_by g (make_message_pack name r) = true := by
  simp only [accepted_records, List.mem_filter, List.mem_map]
  constructor
  · rintro ⟨⟨⟨r1, hr1, heq⟩, hf⟩, hg⟩
    have : r1 = r := by
      simp only [make_message_pack, message_pack_base.mk.injEq, true_and] at heq
      exact heq
    subst this
    exact ⟨hr1, hf, hg⟩
  · rintro ⟨hr, hf, hg⟩
    exact ⟨⟨⟨r, hr, rfl⟩, hf⟩, hg⟩

theorem mem_logged {MessageType : Type} (before after : List (action MessageType))
    (r : MessageType) : r ∈ logged (before ++ .log r :: after) := by
  induction before with
  | nil => simp [logged]
  | cons a before ih => cases a <;> simp [logged, ih]

/-- C2. Filter composition, for one logger attached to one sink with filter predicates `f`
(logger) and `g` (sink), absent filters included, and a module that never throws: after any
sequence of atomic steps in which the record `r` is logged, executing the queued tasks until
the task queue is empty terminates (for every fuel above a bound), and then the module of the
sink has received a write for `r` if and only if `f` and `g` both accept `r`. -/
theorem filter_composition {MessageType : Type} (NDEBUG : Bool) (name sink_name : String)
    (f g flusher : Option (String → MessageType → Bool))
    (before after : List (action MessageType)) (r : MessageType) :
    ∃ w bound,
      world.run_actions NDEBUG () (before ++ .log r :: after)
        (world.single name sink_name f g flusher) = some w ∧
      ∀ fuel, bound ≤ fuel →
        ∃ w1, w.wait_until_queue_empty NDEBUG fuel = some w1 ∧
          w1.is_task_queue_empty = true ∧
          (module_call.log_message name r ∈ (w1.sinks ()).sink_module_.calls ↔
            accepted_by f (make_message_pack name r) = true ∧
              accepted_by g (make_message_pack name r) = true) := by
  obtain ⟨w, hrun, hinv⟩ := world.single_run_actions NDEBUG name sink_name f g flusher
    (before ++ .log r :: after) [] _ (world.single_invariant_init name sink_name f g flusher)
  obtain ⟨pool, hpool⟩ : ∃ pool, w.thread_pool_ = some pool := by
    obtain ⟨pool, _, _, _, _, hpool, _⟩ := hinv
    exact ⟨pool, hpool⟩
  refine ⟨w, pending_work pool.task_queue_, hrun, ?_⟩
  intro fuel hfuel
  obtain ⟨w1, hwait, hinv1, hempty⟩ := world.single_wait NDEBUG name sink_name f g flusher _
    fuel w hinv (by
      intro pool' hpool'
      rw [hpool] at hpool'
      cases hpool'
      exact hfuel)
  refine ⟨w1, hwait, hempty, ?_⟩
  obtain ⟨pool1, first, second, queue, calls, hpool1, _, hsize, _, hsink, hacc, hj1, hj2⟩ :=
    hinv1
  have htasks : pool1.task_queue_ = [] := by
    simpa [world.is_task_queue_empty, hpool1] using hempty
  rw [htasks] at hj1 hj2
  have hfirst : first = [] := by
    by_contra h
    exact absurd (hj1 h) (by simp)
  have hqueue : queue = [] := by
    by_contra h
    exact absurd (hj2 h) (by simp)
  have hsecond : second = [] := by
    rw [hfirst] at hsize
    exact List.length_eq_zero.mp hsize.symm
  rw [hqueue, hsecond, List.nil_append] at hacc
  simp only [List.append_nil, List.filter_nil] at hacc
  have hlogged := mem_logged before after r
  rw [hsink]
  show module_call.log_message name r ∈ calls ↔ _
  rw [← mem_received, show (⟨name, r⟩ : message_pack MessageType) = make_message_pack name r
    from rfl, hacc, mem_accepted_records]
  simp [hlogged]

/-- An execution of the model of one logger attached to one sink: three messages are logged through a logger
whose filter rejects message 2, then the dispatch task and the drain task run; the module
has received messages 1 and 3, in this order, with a flush after message 3. -/
theorem single_world_example :
    (world.run_actions false () [.log 1, .log 2, .log 3, .run 0, .run 0]
        (world.single "logger" "sink" (some fun _ message => message != 2) none
          (some fun _ message => message == 3))).map
      (fun w => ((w.sinks ()).sink_module_.calls, w.is_drained (), w.is_task_queue_empty)) =
    some ([.log_message "logger" 1, .log_message "logger" 3, .flush], true, true) := by
  rfl

/-! ### dispatcher::enqueue without a thread pool -/

/-- C11, as stated, fails on a queue that is not empty: the thread pool is gone, the queue
holds one pair, and `enqueue` appends the second pair and returns without an exception
(`queue_.enqueue` returns `false`, so `notify_thread_pool` is not called). -/
theorem dispatcher_enqueue_pool_gone_nonempty :
    dispatcher.enqueue false
      ({ queue_ := { first_buffer_ := [0], second_buffer_ := [sample_pack 1] },
         logger_tray_ := [], message_tray_ := [] } : dispatcher Nat Nat)
      (none : Option (thread_pool Unit)) 0 (sample_pack 2) =
    some (({ queue_ := { first_buffer_ := [0, 0],
                         second_buffer_ := [sample_pack 1, sample_pack 2] },
             logger_tray_ := [], message_tray_ := [] }, none), none) := by
  rfl

/-- C11, amended: when the thread pool no longer exists, `dispatcher::enqueue(logger,
message)` appends the pair to the queue in every case, and it raises the runtime error
'Thread pool does not exist any longer.' exactly when the queue was empty before the call;
on a queue that already holds a pair it returns normally. -/
theorem dispatcher_enqueue_pool_gone {L S MessageType : Type} (NDEBUG : Bool)
    (d : dispatcher L MessageType) (logger : L) (message : message_pack MessageType)
    (hsize : assert NDEBUG d.queue_.same_size = true) :
    d.enqueue NDEBUG (none : Option (thread_pool S)) logger message =
      some (({ d with queue_ :=
                { first_buffer_ := d.queue_.first_buffer_ ++ [logger],
                  second_buffer_ := d.queue_.second_buffer_ ++ [message] } }, none),
        if d.queue_.first_buffer_.isEmpty then
          some (runtime_error "Thread pool does not exist any longer.")
        else none) := by
  obtain ⟨⟨first, second⟩, loggers, messages⟩ := d
  have hsize1 : assert NDEBUG
      ({ first_buffer_ := first ++ [logger], second_buffer_ := second ++ [message] } :
        blocking_pair_queue L (message_pack MessageType)).same_size = true := by
    simp only [assert, blocking_pair_queue.same_size, Bool.or_eq_true, beq_iff_eq,
      List.length_append, List.length_singleton] at hsize ⊢
    rcases hsize with h | h
    · exact Or.inl h
    · exact Or.inr (by omega)
  rcases first with _ | ⟨x, xs⟩
  · simp only [dispatcher.enqueue, blocking_pair_queue.enqueue, hsize, hsize1, if_true,
      List.isEmpty_nil, dispatcher.notify_thread_pool]
  · simp only [dispatcher.enqueue, blocking_pair_queue.enqueue, hsize, hsize1, if_true,
      List.isEmpty_cons, Bool.false_eq_true, if_false]

/-- The amended C11 on the queue-only dispatcher of the test suite, empty queue: the pair
is appended and the error is raised. -/
theorem dispatcher_enqueue_pool_gone_witness :
    dispatcher.enqueue false
      ({ queue_ := { first_buffer_ := [], second_buffer_ := [] },
         logger_tray_ := [], message_tray_ := [] } : dispatcher Nat Nat)
      (none : Option (thread_pool Unit)) 0 (sample_pack 2) =
    some (({ queue_ := { first_buffer_ := [0], second_buffer_ := [sample_pack 2] },
             logger_tray_ := [], message_tray_ := [] }, none),
      some (runtime_error "Thread pool does not exist any longer.")) :=
  dispatcher_enqueue_pool_gone false _ 0 (sample_pack 2) (by decide)

/-! ### logger::add_sink and logger::delete_sink -/

/-- The search of `std::find_if`: either no element satisfies `p` and the result is the end
of the list, or the result is the position of the first element that does. -/
theorem findIdx_first_match {α : Type} (p : α → Bool) (l : List α) :
    ((∀ x ∈ l, p x = false) ∧ l.findIdx p = l.length) ∨
    ∃ before found after, first_match p l before found after ∧
      l.findIdx p = before.length ∧ l.findIdx p ≠ l.length := by
  induction l with
  | nil => exact Or.inl ⟨by simp, rfl⟩
  | cons a rest ih =>
    by_cases ha : p a = true
    · refine Or.inr ⟨[], a, rest, ⟨rfl, ha, by simp⟩, ?_, ?_⟩
      · simp [List.findIdx_cons, ha]
      · simp [List.findIdx_cons, ha]
    · have ha' : p a = false := by simpa using ha
      rcases ih with ⟨hall, hidx⟩ | ⟨before, found, after, ⟨hl, hfound, hbefore⟩, hidx, _⟩
      · refine Or.inl ⟨?_, ?_⟩
        · intro x hx
          rcases List.mem_cons.1 hx with rfl | hx
          · exact ha'
          · exact hall x hx
        · simp [List.findIdx_cons, ha', hidx]
      · refine Or.inr ⟨a :: before, found, after, ⟨by simp [hl], hfound, ?_⟩, ?_, ?_⟩
        · intro x hx
          rcases List.mem_cons.1 hx with rfl | hx
          · exact ha'
          · exact hbefore x hx
        · simp [List.findIdx_cons, ha', hidx]
        · have hlt : rest.findIdx p < rest.length := by
            rw [hidx, hl]; simp
          simp only [List.findIdx_cons, ha', cond_false, List.length_cons]
          omega

/-- Erasing the element behind a prefix. -/
theorem eraseIdx_first_match {α : Type} (before : List α) (found : α) (after : List α) :
    (before ++ found :: after).eraseIdx before.length = before ++ after := by
  rw [List.eraseIdx_append_of_length_le (Nat.le_refl _)]
  simp

/-- The body shared by the two overloads of `delete_sink`, for the position `std::find` or
`std::find_if` returns. -/
theorem logger.delete_at_first_match {L S MessageType : Type} (p : S → Bool)
    (lg : logger L S MessageType) :
    ((∀ x ∈ lg.sinks_, p x = false) ∧
      (if (lg.sinks_.findIdx p == lg.sinks_.length) = true then
          (lg, some (runtime_error "Cannot found the sink requested in the logger."))
        else (lg.delete_sink_inner (lg.sinks_.findIdx p), none)) =
        (lg, some (runtime_error "Cannot found the sink requested in the logger."))) ∨
    ∃ before found after, first_match p lg.sinks_ before found after ∧
      (if (lg.sinks_.findIdx p == lg.sinks_.length) = true then
          (lg, some (runtime_error "Cannot found the sink requested in the logger."))
        else (lg.delete_sink_inner (lg.sinks_.findIdx p), none)) =
        ({ lg with sinks_ := before ++ after }, none) := by
  rcases findIdx_first_match p lg.sinks_ with ⟨hall, hidx⟩ |
    ⟨before, found, after, hmatch, hidx, hne⟩
  · exact Or.inl ⟨hall, by simp [hidx]⟩
  · refine Or.inr ⟨before, found, after, hmatch, ?_⟩
    have hb : (lg.sinks_.findIdx p == lg.sinks_.length) = false := by simpa using hne
    rw [if_neg (by rw [hb]; exact Bool.false_ne_true)]
    simp only [logger.delete_sink_inner, hidx]
    rw [hmatch.1, eraseIdx_first_match]

/-- C14: `logger::add_sink(s)` raises the runtime error 'This logger has connected to the
sink already.' if and only if `s`, compared by reference, is already in the sink list, and
then leaves the list unchanged; otherwise the list becomes the old list followed by `s`. -/
theorem logger_add_sink_spec {L S MessageType : Type} [DecidableEq S]
    (lg : logger L S MessageType) (s : S) :
    (s ∈ lg.sinks_ ∧
      lg.add_sink s =
        (lg, some (runtime_error "This logger has connected to the sink already."))) ∨
    (s ∉ lg.sinks_ ∧ lg.add_sink s = ({ lg with sinks_ := lg.sinks_ ++ [s] }, none)) := by
  by_cases hs : s ∈ lg.sinks_
  · refine Or.inl ⟨hs, ?_⟩
    have hlt : lg.sinks_.findIdx (fun pointer => pointer == s) < lg.sinks_.length :=
      List.findIdx_lt_length.2 ⟨s, hs, by simp⟩
    have hb : (lg.sinks_.findIdx (fun pointer => pointer == s) != lg.sinks_.length) = true := by
      simpa using Nat.ne_of_lt hlt
    simp only [logger.add_sink, logger.find_sink_location, hb, if_true]
  · refine Or.inr ⟨hs, ?_⟩
    have heq : lg.sinks_.findIdx (fun pointer => pointer == s) = lg.sinks_.length :=
      List.findIdx_eq_length.2 fun x hx => by
        simpa using fun hxs : x = s => hs (hxs ▸ hx)
    simp only [logger.add_sink, logger.find_sink_location, heq, bne_self_eq_false,
      Bool.false_eq_true, if_false]

/-- C15: `logger::delete_sink`, by name or by reference, raises the runtime error 'Cannot
found the sink requested in the logger.' if and only if no attached sink matches, leaving
the list unchanged; otherwise it removes exactly one entry, the first match, and keeps the
other entries in their order. -/
theorem logger_delete_sink_spec {L S MessageType : Type} [DecidableEq S]
    (sinks : S → sink S MessageType) (lg : logger L S MessageType) (name : String) (s : S) :
    (((∀ x ∈ lg.sinks_, ((sinks x).name_ == name) = false) ∧
        lg.delete_sink_by_name sinks name =
          (lg, some (runtime_error "Cannot found the sink requested in the logger."))) ∨
      ∃ before found after,
        first_match (fun x => (sinks x).name_ == name) lg.sinks_ before found after ∧
        lg.delete_sink_by_name sinks name = ({ lg with sinks_ := before ++ after }, none)) ∧
    ((s ∉ lg.sinks_ ∧
        lg.delete_sink s =
          (lg, some (runtime_error "Cannot found the sink requested in the logger."))) ∨
      ∃ before after,
        first_match (fun x => x == s) lg.sinks_ before s after ∧
        lg.delete_sink s = ({ lg with sinks_ := before ++ after }, none)) := by
  refine ⟨?_, ?_⟩
  · exact logger.delete_at_first_match (fun x => (sinks x).name_ == name) lg
  · rcases logger.delete_at_first_match (fun x => x == s) lg with ⟨hall, h⟩ |
      ⟨before, found, after, hmatch, h⟩
    · refine Or.inl ⟨fun hs => ?_, h⟩
      simpa using hall s hs
    · have hfound : found = s := by simpa using hmatch.2.1
      subst hfound
      exact Or.inr ⟨before, after, hmatch, h⟩

/-! ### std::unordered_map -/

/-- The mapped value `find` reaches does not depend on the position the search starts
from. -/
theorem unordered_map.find_from_value {V : Type} (key : String) (l : List (String × V))
    (n k : Nat) :
    (unordered_map.find_from key l n).map Prod.snd =
      (unordered_map.find_from key l k).map Prod.snd := by
  induction l generalizing n k with
  | nil => rfl
  | cons entry rest ih =>
    simp only [unordered_map.find_from]
    by_cases hk : (entry.1 == key) = true
    · simp only [hk, if_true, Option.map_some']
    · simp only [hk, Bool.false_eq_true, if_false]
      exact ih _ _

/-- The search fails exactly when the key is absent. -/
theorem unordered_map.find_from_eq_none {V : Type} (key : String) (l : List (String × V))
    (n : Nat) :
    unordered_map.find_from key l n = none ↔ key ∉ l.map Prod.fst := by
  induction l generalizing n with
  | nil => simp [unordered_map.find_from]
  | cons entry rest ih =>
    simp only [unordered_map.find_from, List.map_cons, List.mem_cons, not_or]
    by_cases hk : entry.1 = key
    · simp [hk]
    · have hb : (entry.1 == key) = false := by simpa using hk
      simp only [hb, Bool.false_eq_true, if_false, ih]
      exact ⟨fun h => ⟨fun heq => hk heq.symm, h⟩, fun h => h.2⟩

/-- A successful search stops at the first element with the key. -/
theorem unordered_map.find_from_eq_some {V : Type} (key : String) (l : List (String × V))
    (n p : Nat) (v : V) (h : unordered_map.find_from key l n = some (p, v)) :
    ∃ before after, l = before ++ (key, v) :: after ∧ key ∉ before.map Prod.fst ∧
      p = n + before.length := by
  induction l generalizing n with
  | nil => simp [unordered_map.find_from] at h
  | cons entry rest ih =>
    simp only [unordered_map.find_from] at h
    by_cases hk : entry.1 = key
    · have hb : (entry.1 == key) = true := by simpa using hk
      simp only [hb, if_true, Option.some.injEq, Prod.mk.injEq] at h
      refine ⟨[], rest, ?_, by simp, by simp [h.1]⟩
      obtain ⟨k, x⟩ := entry
      simp only at hk h
      simp [hk, h.2]
    · have hb : (entry.1 == key) = false := by simpa using hk
      simp only [hb, Bool.false_eq_true, if_false] at h
      obtain ⟨before, after, hl, hnot, hp⟩ := ih _ h
      refine ⟨entry :: before, after, by simp [hl], ?_, by simp [hp]; omega⟩
      simp only [List.map_cons, List.mem_cons, not_or]
      exact ⟨fun heq => hk heq.symm, hnot⟩

/-- The mapped value found in a concatenation. -/
theorem unordered_map.find_from_append {V : Type} (key : String)
    (l₁ l₂ : List (String × V)) (n : Nat) :
    (unordered_map.find_from key (l₁ ++ l₂) n).map Prod.snd =
      match (unordered_map.find_from key l₁ n).map Prod.snd with
      | some v => some v
      | none => (unordered_map.find_from key l₂ 0).map Prod.snd := by
  induction l₁ generalizing n with
  | nil => exact unordered_map.find_from_value key l₂ n 0
  | cons entry rest ih =>
    simp only [List.cons_append, unordered_map.find_from]
    by_cases hk : (entry.1 == key) = true
    · simp only [hk, if_true, Option.map_some']
    · simp only [hk, Bool.false_eq_true, if_false]
      exact ih _

/-- `try_emplace` with the key present: nothing changes. -/
theorem unordered_map.try_emplace_present {V : Type} (map : unordered_map V) (key : String)
    (value : V) (position : Nat × V) (h : map.find key = some position) :
    map.try_emplace key value = ((position, false), map) := by
  unfold unordered_map.try_emplace
  split
  · next p hp => rw [h] at hp; cases hp; rfl
  · next hp => rw [h] at hp; cases hp

/-- `try_emplace` with the key absent: the element is inserted. -/
theorem unordered_map.try_emplace_absent {V : Type} (map : unordered_map V) (key : String)
    (value : V) (h : map.find key = none) :
    (map.try_emplace key value).1 = ((map.entries.length, value), true) ∧
    (map.try_emplace key value).2.entries = map.entries ++ [(key, value)] := by
  unfold unordered_map.try_emplace
  split
  · next p hp => rw [h] at hp; cases hp
  · exact ⟨rfl, rfl⟩

/-- The mapped values after an insertion: the new key has the new value, every other key
keeps what it had. -/
theorem unordered_map.find_try_emplace {V : Type} (map : unordered_map V) (key : String)
    (value : V) (h : map.find key = none) (other : String) :
    ((map.try_emplace key value).2.find other).map Prod.snd =
      if other = key then some value else (map.find other).map Prod.snd := by
  have hentries := (unordered_map.try_emplace_absent map key value h).2
  simp only [unordered_map.find] at h ⊢
  rw [hentries, unordered_map.find_from_append]
  by_cases ho : other = key
  · subst ho
    simp [h, unordered_map.find_from]
  · have hb : (key == other) = false := by simpa using fun heq => ho heq.symm
    simp only [ho, if_false, unordered_map.find_from, hb, Bool.false_eq_true, Option.map_none']
    rcases unordered_map.find_from other map.entries 0 with _ | ⟨p, v⟩
    · rfl
    · rfl

/-- The mapped values after `erase(find(key))`: the key is gone, every other key keeps what
it had. -/
theorem unordered_map.find_erase {V : Type} (map : unordered_map V) (key : String)
    (position : Nat × V) (h : map.find key = some position) (other : String) :
    ((map.erase position).find other).map Prod.snd =
      if other = key then none else (map.find other).map Prod.snd := by
  obtain ⟨p, v⟩ := position
  obtain ⟨before, after, hl, hnot, hp⟩ := unordered_map.find_from_eq_some key _ 0 p v h
  have hunique := map.unique
  rw [hl, List.map_append, List.nodup_append] at hunique
  have hafter : key ∉ after.map Prod.fst := by
    have h2 := hunique.2.1
    simp only [List.map_cons, List.nodup_cons] at h2
    exact h2.1
  have herase : (map.erase (p, v)).entries = before ++ after := by
    simp only [unordered_map.erase, hl, hp, Nat.zero_add]
    rw [List.eraseIdx_append_of_length_le (Nat.le_refl _)]
    simp
  simp only [unordered_map.find]
  rw [herase, unordered_map.find_from_append, hl, unordered_map.find_from_append]
  by_cases ho : other = key
  · subst ho
    have h1 := (unordered_map.find_from_eq_none other before 0).2 hnot
    have h2 := (unordered_map.find_from_eq_none other after 0).2 hafter
    simp [h1, h2]
  · have hb : (key == other) = false := by simpa using fun heq => ho heq.symm
    simp only [ho, if_false, unordered_map.find_from, hb, Bool.false_eq_true]
    rw [unordered_map.find_from_value other after (0 + 1) 0]

/-! ### The registries of the manager -/

/-- The body of `find_logger`: the mapped value of the element found. -/
theorem manager.find_logger_eq {MessageType : Type} (m : manager MessageType)
    (name : String) : m.find_logger name = (m.logger_map_.find name).map Prod.snd := by
  unfold manager.find_logger
  rcases m.logger_map_.find name with _ | position
  · rfl
  · rfl

/-- The body of `find_sink`: the mapped value of the element found. -/
theorem manager.find_sink_eq {MessageType : Type} (m : manager MessageType)
    (name : String) : m.find_sink name = (m.sink_map_.find name).map Prod.snd := by
  unfold manager.find_sink
  rcases m.sink_map_.find name with _ | position
  · rfl
  · rfl

/-- The result of `delete_logger` when the name is registered and the logger has another
owner. -/
theorem manager.delete_logger_found {MessageType : Type} (m : manager MessageType)
    (name : String) (last_owner_of_sink : Nat → Bool) (position : Nat × Nat)
    (h : m.logger_map_.find name = some position) :
    m.delete_logger name false last_owner_of_sink =
      some ({ m with
          loggers :=
            Function.update m.loggers position.2 (m.loggers position.2).mark_as_destroy,
          logger_map_ := m.logger_map_.erase position }, none) := by
  simp only [manager.delete_logger, h, Bool.false_eq_true, if_false]

/-- The result of `delete_logger` when the name is registered and the registry holds the
last pointer to the logger: the program is terminated when the destructor of the logger
is, and the call returns otherwise. -/
theorem manager.delete_logger_last {MessageType : Type} (m : manager MessageType)
    (name : String) (last_owner_of_sink : Nat → Bool) (position : Nat × Nat)
    (h : m.logger_map_.find name = some position) :
    m.delete_logger name true last_owner_of_sink =
      ((m.loggers position.2).mark_as_destroy.destruct last_owner_of_sink m.sinks).map
        fun sinks =>
          ({ m with
              loggers :=
                Function.update m.loggers position.2 (m.loggers position.2).mark_as_destroy,
              logger_map_ := m.logger_map_.erase position,
              sinks := sinks }, none) := by
  simp only [manager.delete_logger, h, if_true]
  rcases (m.loggers position.2).mark_as_destroy.destruct last_owner_of_sink m.sinks
    with _ | sinks
  · rfl
  · rfl

/-- The result of `delete_logger` when the name is not registered. -/
theorem manager.delete_logger_missing {MessageType : Type} (m : manager MessageType)
    (name : String) (last_owner : Bool) (last_owner_of_sink : Nat → Bool)
    (h : m.logger_map_.find name = none) :
    m.delete_logger name last_owner last_owner_of_sink =
      some (m, some (runtime_error "No such name in the manager.")) := by
  simp only [manager.delete_logger, h]

/-- The result of `delete_sink` when the name is registered and the sink has another
owner. -/
theorem manager.delete_sink_found {MessageType : Type} (m : manager MessageType)
    (name : String) (position : Nat × Nat) (h : m.sink_map_.find name = some position) :
    m.delete_sink name false =
      some ({ m with sink_map_ := m.sink_map_.erase position }, none) := by
  simp only [manager.delete_sink, h, Bool.false_eq_true, if_false]

/-- The result of `delete_sink` when the name is registered and the registry holds the last
pointer to the sink: the program is terminated when `~sink()` is, and the call returns
otherwise, with the module as the destructor left it. -/
theorem manager.delete_sink_last {MessageType : Type} (m : manager MessageType)
    (name : String) (position : Nat × Nat) (h : m.sink_map_.find name = some position) :
    m.delete_sink name true =
      (m.sinks position.2).destruct.map fun module =>
        ({ m with
            sink_map_ := m.sink_map_.erase position,
            sinks := Function.update m.sinks position.2
              { m.sinks position.2 with sink_module_ := module } }, none) := by
  simp only [manager.delete_sink, h, if_true]
  rcases (m.sinks position.2).destruct with _ | module
  · rfl
  · rfl

/-- The result of `delete_sink` when the name is not registered. -/
theorem manager.delete_sink_missing {MessageType : Type} (m : manager MessageType)
    (name : String) (last_owner : Bool) (h : m.sink_map_.find name = none) :
    m.delete_sink name last_owner =
      some (m, some (runtime_error "No such name in the manager.")) := by
  simp only [manager.delete_sink, h]

/-- The destructor of a sink is the flush of its module: it ends the program exactly when
the flush throws. -/
theorem sink.destruct_eq {S MessageType : Type} (s : sink S MessageType) :
    s.destruct =
      match s.sink_module_.throws s.sink_module_.calls .flush with
      | none => some { s.sink_module_ with calls := s.sink_module_.calls ++ [.flush] }
      | some _ => none := by
  unfold sink.destruct sink_module.call
  rcases s.sink_module_.throws s.sink_module_.calls .flush with _ | e
  · rfl
  · rfl

/-- What `delete_logger` and `delete_sink` do. When the name is not registered, each raises
the runtime error 'No such name in the manager.' and leaves the manager unchanged. When it
is, the entry is erased, and the object is destroyed if the registry held the last pointer
to it. If a destructor that runs then ends the program (a `flush()` throws in `~sink()`),
the call neither returns nor raises. Otherwise the call returns: `find` returns null for
the name and what it returned before for every other name, the other registry is
untouched, `delete_logger` has marked the logger as destroyed, and the sinks are as they
were unless destroyed, a destroyed sink having received one `flush()`. -/
theorem manager.delete_outcome {MessageType : Type} (m : manager MessageType)
    (name : String) (last_owner : Bool) (last_owner_of_sink : Nat → Bool) :
    ((m.find_logger name = none ∧
        m.delete_logger name last_owner last_owner_of_sink =
          some (m, some (runtime_error "No such name in the manager."))) ∨
      ∃ pointer, m.find_logger name = some pointer ∧
        ((last_owner = true ∧
            (m.loggers pointer).mark_as_destroy.destruct last_owner_of_sink m.sinks = none ∧
            m.delete_logger name last_owner last_owner_of_sink = none) ∨
          ∃ m1, m.delete_logger name last_owner last_owner_of_sink = some (m1, none) ∧
            (∀ other, m1.find_logger other =
              if other = name then none else m.find_logger other) ∧
            m1.sink_map_ = m.sink_map_ ∧
            m1.loggers = Function.update m.loggers pointer
              { m.loggers pointer with mark_as_destroy_ := true } ∧
            (last_owner = false → m1.sinks = m.sinks) ∧
            (last_owner = true →
              (m.loggers pointer).mark_as_destroy.destruct last_owner_of_sink m.sinks =
                some m1.sinks))) ∧
    ((m.find_sink name = none ∧
        m.delete_sink name last_owner =
          some (m, some (runtime_error "No such name in the manager."))) ∨
      ∃ pointer, m.find_sink name = some pointer ∧
        ((last_owner = true ∧
            (m.sinks pointer).sink_module_.throws (m.sinks pointer).sink_module_.calls .flush ≠
              none ∧
            m.delete_sink name last_owner = none) ∨
          ∃ m1, m.delete_sink name last_owner = some (m1, none) ∧
            (∀ other, m1.find_sink other =
              if other = name then none else m.find_sink other) ∧
            m1.logger_map_ = m.logger_map_ ∧
            m1.loggers = m.loggers ∧
            (last_owner = false → m1.sinks = m.sinks) ∧
            (last_owner = true →
              m1.sinks = Function.update m.sinks pointer
                { m.sinks pointer with
                  sink_module_ := { (m.sinks pointer).sink_module_ with
                    calls := (m.sinks pointer).sink_module_.calls ++ [.flush] } }))) := by
  refine ⟨?_, ?_⟩
  · rcases h : m.logger_map_.find name with _ | position
    · exact Or.inl ⟨by rw [manager.find_logger_eq, h]; rfl,
        manager.delete_logger_missing m name _ _ h⟩
    · refine Or.inr ⟨position.2, by rw [manager.find_logger_eq, h]; rfl, ?_⟩
      have hfind : ∀ other,
          manager.find_logger
            ({ m with
                loggers := Function.update m.loggers position.2
                  (m.loggers position.2).mark_as_destroy,
                logger_map_ := m.logger_map_.erase position } : manager MessageType) other =
            if other = name then none else m.find_logger other := by
        intro other
        rw [manager.find_logger_eq, manager.find_logger_eq]
        exact unordered_map.find_erase m.logger_map_ name position h other
      cases last_owner with
      | false =>
        rw [manager.delete_logger_found m name _ position h]
        exact Or.inr ⟨_, rfl, hfind, rfl, rfl, fun _ => rfl, fun hl => Bool.noConfusion hl⟩
      | true =>
        rw [manager.delete_logger_last m name _ position h]
        rcases hd : (m.loggers position.2).mark_as_destroy.destruct last_owner_of_sink m.sinks
          with _ | sinks
        · exact Or.inl ⟨rfl, rfl, rfl⟩
        · refine Or.inr ⟨_, rfl, ?_, rfl, rfl, fun hl => Bool.noConfusion hl, fun _ => rfl⟩
          intro other
          rw [manager.find_logger_eq, manager.find_logger_eq]
          exact unordered_map.find_erase m.logger_map_ name position h other
  · rcases h : m.sink_map_.find name with _ | position
    · exact Or.inl ⟨by rw [manager.find_sink_eq, h]; rfl,
        manager.delete_sink_missing m name _ h⟩
    · refine Or.inr ⟨position.2, by rw [manager.find_sink_eq, h]; rfl, ?_⟩
      cases last_owner with
      | false =>
        rw [manager.delete_sink_found m name position h]
        refine Or.inr ⟨_, rfl, ?_, rfl, rfl, fun _ => rfl, fun hl => Bool.noConfusion hl⟩
        intro other
        rw [manager.find_sink_eq, manager.find_sink_eq]
        exact unordered_map.find_erase m.sink_map_ name position h other
      | true =>
        rw [manager.delete_sink_last m name position h, sink.destruct_eq]
        rcases hd : (m.sinks position.2).sink_module_.throws
          (m.sinks position.2).sink_module_.calls .flush with _ | e
        · refine Or.inr ⟨_, rfl, ?_, rfl, rfl, fun hl => Bool.noConfusion hl, fun _ => rfl⟩
          intro other
          rw [manager.find_sink_eq, manager.find_sink_eq]
          exact unordered_map.find_erase m.sink_map_ name position h other
        · exact Or.inl ⟨rfl, by simp, rfl⟩

/-- C17 (failing input). A sink is created under the name "exist sink" around a module whose
`flush()` throws and the pointer `new_sink` returned is dropped, so the registry holds the
last pointer to the sink. `delete_sink("exist sink")` then destroys the sink inside
`sink_map_.erase`, `~sink()` calls `flush()`, and the exception ends the program: the call
neither removes the entry and returns nor raises. The same happens in `delete_logger` for a
logger of which the registry holds the last pointer and which holds the last pointer to
such a sink. While a caller keeps the pointer, each of the two calls returns. -/
theorem manager_delete_last_owner_terminates :
    (sample_manager.new_sink "exist sink"
        (some ⟨throws_on_flush (runtime_error "flush failed"), []⟩)).map
      (fun r => (r.state.find_sink "exist sink", r.returned.toOption)) =
      some (some 0, some 0) ∧
    (sample_manager.new_sink "exist sink"
        (some ⟨throws_on_flush (runtime_error "flush failed"), []⟩)).bind
      (fun r => r.state.delete_sink "exist sink" true) = none ∧
    ((sample_manager.new_sink "exist sink"
        (some ⟨throws_on_flush (runtime_error "flush failed"), []⟩)).bind
      (fun r => r.state.delete_sink "exist sink" false)).map
      (fun r => (r.1.find_sink "exist sink", r.2)) = some (none, none) ∧
    sample_manager_with_orphan.find_logger "exist logger" = some 0 ∧
    (sample_manager_with_orphan.loggers 0).sinks_ = [0] ∧
    sample_manager_with_orphan.find_sink "exist sink" = none ∧
    sample_manager_with_orphan.delete_logger "exist logger" true (fun _ => true) = none ∧
    (sample_manager_with_orphan.delete_logger "exist logger" false (fun _ => true)).map
      (fun r => (r.1.find_logger "exist logger", r.2)) = some (none, none) := by
  exact ⟨rfl, rfl, rfl, rfl, rfl, rfl, rfl, rfl⟩

/-- C18, as stated, fails: on the manager of the test suite, where only "exist logger" is
registered, `delete_logger("not exist logger")` does not return normally, it throws; and so
does `delete_sink("not exist sink")`. -/
theorem manager_delete_missing_name_throws :
    (sample_manager_with_logger.find_logger "not exist logger" = none ∧
      (sample_manager_with_logger.delete_logger "not exist logger" false fun _ => false) =
        some (sample_manager_with_logger,
          some (runtime_error "No such name in the manager."))) ∧
    (sample_manager_with_logger.find_sink "not exist sink" = none ∧
      sample_manager_with_logger.delete_sink "not exist sink" false =
        some (sample_manager_with_logger,
          some (runtime_error "No such name in the manager."))) := by
  exact ⟨⟨by decide, rfl⟩, by decide, rfl⟩

/-- C18, amended: when no object with the given name is registered, `manager::delete_logger`
and `manager::delete_sink` raise the runtime error 'No such name in the manager.' and leave
the manager, both registries included, unchanged. -/
theorem manager_delete_missing_name {MessageType : Type} (m : manager MessageType)
    (name : String) (last_owner : Bool) (last_owner_of_sink : Nat → Bool) :
    (m.find_logger name = none →
      m.delete_logger name last_owner last_owner_of_sink =
        some (m, some (runtime_error "No such name in the manager."))) ∧
    (m.find_sink name = none →
      m.delete_sink name last_owner =
        some (m, some (runtime_error "No such name in the manager."))) := by
  refine ⟨fun h => ?_, fun h => ?_⟩
  · apply manager.delete_logger_missing
    rw [manager.find_logger_eq] at h
    rcases hf : m.logger_map_.find name with _ | position
    · rfl
    · rw [hf] at h; cases h
  · apply manager.delete_sink_missing
    rw [manager.find_sink_eq] at h
    rcases hf : m.sink_map_.find name with _ | position
    · rfl
    · rw [hf] at h; cases h

/-- The result of `new_logger` when the name is registered. -/
theorem manager.new_logger_present {MessageType : Type} (m : manager MessageType)
    (name : String) (position : Nat × Nat) (h : m.logger_map_.find name = some position) :
    m.new_logger name =
      (m, .error (runtime_error "Already assigned a logger with the same name.")) := by
  simp only [manager.new_logger, unordered_map.try_emplace_present _ _ _ _ h]

/-- The result of `new_logger` when the name is not registered. -/
theorem manager.new_logger_absent {MessageType : Type} (m : manager MessageType)
    (name : String) (h : m.logger_map_.find name = none) :
    m.new_logger name =
      ({ m with
          logger_map_ := (m.logger_map_.try_emplace name m.allocated_loggers).2,
          loggers := Function.update m.loggers m.allocated_loggers
            { (logger.construct m.allocated_loggers name : logger Nat Nat MessageType) with
              error_handler_ := m.error_handler_ },
          allocated_loggers := m.allocated_loggers + 1 }, .ok m.allocated_loggers) := by
  have h1 := (unordered_map.try_emplace_absent m.logger_map_ name m.allocated_loggers h).1
  rcases hm : m.logger_map_.try_emplace name m.allocated_loggers with ⟨⟨position, flag⟩, map⟩
  rw [hm] at h1
  simp only [Prod.mk.injEq] at h1
  obtain ⟨hposition, hflag⟩ := h1
  subst hflag
  subst hposition
  simp only [manager.new_logger, hm]
  rcases m.error_handler_ with _ | handler
  · rfl
  · rfl

/-- The result of `new_sink` when the name is registered. -/
theorem manager.new_sink_present {MessageType : Type} (m : manager MessageType)
    (name : String) (module : sink_module MessageType) (position : Nat × Nat)
    (h : m.sink_map_.find name = some position) :
    m.new_sink name (some module) =
      match module.throws module.calls .flush with
      | some _ => none
      | none =>
        some { state := m,
               returned := .error (runtime_error "Already assigned a sink with the same name."),
               destroyed := some { module with calls := module.calls ++ [.flush] } } := by
  simp only [manager.new_sink, sink.construct, unordered_map.try_emplace_present _ _ _ _ h,
    sink.destruct, sink_module.call]
  rcases module.throws module.calls .flush with _ | e
  · rfl
  · rfl

/-- The result of `new_sink` when the name is not registered. -/
theorem manager.new_sink_absent {MessageType : Type} (m : manager MessageType)
    (name : String) (module : sink_module MessageType) (h : m.sink_map_.find name = none) :
    m.new_sink name (some module) =
      some { state := { m with
                        sink_map_ := (m.sink_map_.try_emplace name m.allocated_sinks).2,
                        sinks := Function.update m.sinks m.allocated_sinks
                          { weak_this := m.allocated_sinks,
                            queue_ := ⟨[]⟩,
                            queue_output_tray_ := [],
                            name_ := name,
                            filter_ := none,
                            flusher_ := none,
                            sink_module_ := module },
                        allocated_sinks := m.allocated_sinks + 1 },
             returned := .ok m.allocated_sinks,
             destroyed := none } := by
  have h1 := (unordered_map.try_emplace_absent m.sink_map_ name m.allocated_sinks h).1
  rcases hm : m.sink_map_.try_emplace name m.allocated_sinks with ⟨⟨position, flag⟩, map⟩
  rw [hm] at h1
  simp only [Prod.mk.injEq] at h1
  obtain ⟨hposition, hflag⟩ := h1
  subst hflag
  subst hposition
  simp only [manager.new_sink, sink.construct, hm]

/-- C16 (failing input). The manager of the test suite is the one `new_sink("exist sink")`
leaves behind on a new manager. A second `new_sink("exist sink", module)` with a module
whose `flush()` throws finds the name taken and destroys the temporary sink it built around
the module; `~sink()` calls `flush()` and the exception ends the program: `new_sink`
neither raises the runtime error of a taken name nor returns. -/
theorem manager_new_sink_flush_throws :
    (sample_manager.new_sink "exist sink" (some ⟨never_throws, []⟩)).map
      new_sink_result.state = some sample_manager_with_sink ∧
    sample_manager_with_sink.find_sink "exist sink" = some 0 ∧
    sample_manager_with_sink.new_sink "exist sink"
      (some ⟨throws_on_flush (runtime_error "flush failed"), []⟩) = none := by
  exact ⟨rfl, rfl, rfl⟩

/-- Uniqueness of the names when the destructor of the temporary sink returns:
`new_logger(name)` raises ('Already assigned a logger with the same name.')
if and only if a logger with that name is registered, and `new_sink(name, module)` with a
non-null module whose `flush()` returns normally raises ('Already assigned a sink with the
same name.') if and only if a sink with that name is registered, whatever the other registry
contains. On failure the manager is unchanged, so both registries are and `find_logger`,
`find_sink` return what they returned; on success the object is created under the name,
`find` returns it for the name and what it returned before for every other name, and the
other registry is unchanged. -/
theorem manager_new_spec {MessageType : Type} (m : manager MessageType) (name : String)
    (module : sink_module MessageType) (hflush : module.throws module.calls .flush = none) :
    (((∃ pointer, m.find_logger name = some pointer) ∧
        m.new_logger name =
          (m, .error (runtime_error "Already assigned a logger with the same name."))) ∨
      (m.find_logger name = none ∧
        ∃ m1 pointer, m.new_logger name = (m1, .ok pointer) ∧
          (∀ other, m1.find_logger other =
            if other = name then some pointer else m.find_logger other) ∧
          (m1.loggers pointer).name_ = name ∧
          m1.sink_map_ = m.sink_map_ ∧ m1.sinks = m.sinks)) ∧
    (((∃ pointer, m.find_sink name = some pointer) ∧
        m.new_sink name (some module) =
          some { state := m,
                 returned :=
                   .error (runtime_error "Already assigned a sink with the same name."),
                 destroyed := some { module with calls := module.calls ++ [.flush] } }) ∨
      (m.find_sink name = none ∧
        ∃ m1 pointer, m.new_sink name (some module) =
            some { state := m1, returned := .ok pointer, destroyed := none } ∧
          (∀ other, m1.find_sink other =
            if other = name then some pointer else m.find_sink other) ∧
          (m1.sinks pointer).name_ = name ∧
          (m1.sinks pointer).sink_module_ = module ∧
          m1.logger_map_ = m.logger_map_ ∧ m1.loggers = m.loggers)) := by
  refine ⟨?_, ?_⟩
  · rcases h : m.logger_map_.find name with _ | position
    · refine Or.inr ⟨by rw [manager.find_logger_eq, h]; rfl, _, _,
        manager.new_logger_absent m name h, ?_, ?_, rfl, rfl⟩
      · intro other
        rw [manager.find_logger_eq, manager.find_logger_eq]
        exact unordered_map.find_try_emplace m.logger_map_ name _ h other
      · simp only [Function.update_same, logger.construct]
    · exact Or.inl ⟨⟨position.2, by rw [manager.find_logger_eq, h]; rfl⟩,
        manager.new_logger_present m name position h⟩
  · rcases h : m.sink_map_.find name with _ | position
    · refine Or.inr ⟨by rw [manager.find_sink_eq, h]; rfl, _, _,
        manager.new_sink_absent m name module h, ?_, ?_, ?_, rfl, rfl⟩
      · intro other
        rw [manager.find_sink_eq, manager.find_sink_eq]
        exact unordered_map.find_try_emplace m.sink_map_ name _ h other
      · simp only [Function.update_same]
      · simp only [Function.update_same]
    · refine Or.inl ⟨⟨position.2, by rw [manager.find_sink_eq, h]; rfl⟩, ?_⟩
      rw [manager.new_sink_present m name module position h, hflush]

/-- An instance of `manager_new_spec`: the manager of the test suite with "exist sink"
registered and a module that never throws; the second `new_sink("exist sink", ...)` raises, after one
`flush()` on the module passed in. -/
theorem manager_new_spec_witness :
    sample_manager_with_sink.new_sink "exist sink" (some ⟨never_throws, []⟩) =
      some { state := sample_manager_with_sink,
             returned := .error (runtime_error "Already assigned a sink with the same name."),
             destroyed := some ⟨never_throws, [.flush]⟩ } := by
  rcases (manager_new_spec sample_manager_with_sink "exist sink" ⟨never_throws, []⟩ rfl).2
    with h | h
  · exact h.2
  · exact absurd h.1 (by decide)

/-! ### manager::set_error_handler -/

/-- The loop of `set_error_handler` keeps the handler of a logger that already has it. -/
theorem manager.set_error_handler_loop_keeps {MessageType : Type}
    (handler : Option error_handler_type) (entries : List (String × Nat))
    (loggers : Nat → logger Nat Nat MessageType) (pointer : Nat)
    (h : (loggers pointer).error_handler_ = handler) :
    (manager.set_error_handler_loop handler entries loggers pointer).error_handler_ =
      handler := by
  induction entries generalizing loggers with
  | nil => exact h
  | cons entry rest ih =>
    simp only [manager.set_error_handler_loop]
    apply ih
    by_cases hp : pointer = entry.2
    · subst hp
      simp only [Function.update_same, logger.set_error_handler]
    · simp only [Function.update_noteq hp, h]

/-- The loop of `set_error_handler` installs the handler in every logger of the registry. -/
theorem manager.set_error_handler_loop_sets {MessageType : Type}
    (handler : Option error_handler_type) (entries : List (String × Nat))
    (loggers : Nat → logger Nat Nat MessageType) (pointer : Nat)
    (h : pointer ∈ entries.map Prod.snd) :
    (manager.set_error_handler_loop handler entries loggers pointer).error_handler_ =
      handler := by
  induction entries generalizing loggers with
  | nil => simp at h
  | cons entry rest ih =>
    simp only [manager.set_error_handler_loop]
    by_cases hp : pointer = entry.2
    · apply manager.set_error_handler_loop_keeps
      subst hp
      simp only [Function.update_same, logger.set_error_handler]
    · apply ih
      simp only [List.map_cons, List.mem_cons] at h
      rcases h with h | h
      · exact absurd h hp
      · exact h

/-- A pointer `find_logger` returns is the mapped value of an element of the registry. -/
theorem manager.find_logger_mem {MessageType : Type} (m : manager MessageType)
    (name : String) (pointer : Nat) (h : m.find_logger name = some pointer) :
    pointer ∈ m.logger_map_.entries.map Prod.snd := by
  rw [manager.find_logger_eq] at h
  rcases hf : m.logger_map_.find name with _ | ⟨p, v⟩
  · rw [hf] at h; cases h
  · rw [hf] at h
    simp only [Option.map_some', Option.some.injEq] at h
    subst h
    obtain ⟨before, after, hl, _, _⟩ := unordered_map.find_from_eq_some name _ 0 p v hf
    rw [hl]
    simp

/-- No member other than `set_error_handler` changes the handler the manager keeps. -/
theorem manager.call_error_handler {MessageType : Type} (m m1 : manager MessageType)
    (c : manager_call MessageType) (h : m.call c = some m1) :
    m1.error_handler_ = m.error_handler_ := by
  cases c with
  | new_logger name =>
    simp only [manager.call, Option.some.injEq] at h
    subst h
    rcases hf : m.logger_map_.find name with _ | position
    · rw [manager.new_logger_absent m name hf]
    · rw [manager.new_logger_present m name position hf]
  | new_sink name module =>
    simp only [manager.call] at h
    rcases module with _ | module
    · simp only [manager.new_sink, sink.construct, Option.map_some', Option.some.injEq] at h
      subst h
      rfl
    · rcases hf : m.sink_map_.find name with _ | position
      · rw [manager.new_sink_absent m name module hf] at h
        simp only [Option.map_some', Option.some.injEq] at h
        subst h
        rfl
      · rw [manager.new_sink_present m name module position hf] at h
        rcases hflush : module.throws module.calls .flush with _ | e
        · rw [hflush] at h
          simp only [Option.map_some', Option.some.injEq] at h
          subst h
          rfl
        · rw [hflush] at h
          cases h
  | delete_logger name last_owner last_owner_of_sink =>
    simp only [manager.call] at h
    rcases hf : m.logger_map_.find name with _ | position
    · rw [manager.delete_logger_missing m name _ _ hf] at h
      simp only [Option.map_some', Option.some.injEq] at h
      subst h
      rfl
    · cases last_owner with
      | false =>
        rw [manager.delete_logger_found m name _ position hf] at h
        simp only [Option.map_some', Option.some.injEq] at h
        subst h
        rfl
      | true =>
        rw [manager.delete_logger_last m name _ position hf] at h
        rcases hd : (m.loggers position.2).mark_as_destroy.destruct last_owner_of_sink m.sinks
          with _ | sinks
        · rw [hd] at h
          cases h
        · rw [hd] at h
          simp only [Option.map_some', Option.some.injEq] at h
          subst h
          rfl
  | delete_sink name last_owner =>
    simp only [manager.call] at h
    rcases hf : m.sink_map_.find name with _ | position
    · rw [manager.delete_sink_missing m name _ hf] at h
      simp only [Option.map_some', Option.some.injEq] at h
      subst h
      rfl
    · cases last_owner with
      | false =>
        rw [manager.delete_sink_found m name position hf] at h
        simp only [Option.map_some', Option.some.injEq] at h
        subst h
        rfl
      | true =>
        rw [manager.delete_sink_last m name position hf] at h
        rcases hd : (m.sinks position.2).destruct with _ | module
        · rw [hd] at h
          cases h
        · rw [hd] at h
          simp only [Option.map_some', Option.some.injEq] at h
          subst h
          rfl

/-- A sequence of such calls keeps the handler of the manager. -/
theorem manager.run_calls_error_handler {MessageType : Type}
    (calls : List (manager_call MessageType)) (m m1 : manager MessageType)
    (h : manager.run_calls calls m = some m1) : m1.error_handler_ = m.error_handler_ := by
  induction calls generalizing m with
  | nil =>
    simp only [manager.run_calls, Option.some.injEq] at h
    rw [h]
  | cons c rest ih =>
    simp only [manager.run_calls] at h
    rcases hc : m.call c with _ | m2
    · rw [hc] at h; cases h
    · rw [hc] at h
      rw [ih m2 h, manager.call_error_handler m m2 c hc]

/-- A logger `new_logger` creates has the handler the manager keeps. -/
theorem manager.new_logger_error_handler {MessageType : Type} (m : manager MessageType)
    (name : String) (pointer : Nat) (h : (m.new_logger name).2 = .ok pointer) :
    ((m.new_logger name).1.loggers pointer).error_handler_ = m.error_handler_ := by
  rcases hf : m.logger_map_.find name with _ | position
  · rw [manager.new_logger_absent m name hf] at h ⊢
    simp only [Except.ok.injEq] at h
    subst h
    simp only [Function.update_same]
  · rw [manager.new_logger_present m name position hf] at h
    cases h

/-- C19: after `manager::set_error_handler(h)` the error handler of the pool and the handler
of every logger registered at that moment equal `h`, and every logger created afterwards by
`new_logger`, after any sequence of `new_logger`, `new_sink`, `delete_logger` and
`delete_sink` calls, has the handler `h`. -/
theorem manager_set_error_handler_spec {MessageType : Type} (m : manager MessageType)
    (h : Option error_handler_type) :
    (m.set_error_handler h).thread_pool_.error_handler_ = h ∧
    (∀ name pointer, (m.set_error_handler h).find_logger name = some pointer →
      ((m.set_error_handler h).loggers pointer).error_handler_ = h) ∧
    (∀ calls m1, manager.run_calls calls (m.set_error_handler h) = some m1 →
      ∀ name pointer, (m1.new_logger name).2 = .ok pointer →
        ((m1.new_logger name).1.loggers pointer).error_handler_ = h) := by
  refine ⟨rfl, ?_, ?_⟩
  · intro name pointer hfind
    exact manager.set_error_handler_loop_sets h _ _ pointer
      (manager.find_logger_mem (m.set_error_handler h) name pointer hfind)
  · intro calls m1 hrun name pointer hnew
    rw [manager.new_logger_error_handler m1 name pointer hnew,
      manager.run_calls_error_handler calls _ m1 hrun]
    rfl

/-! ### logger::log -/

/-- The call `log_inner` on a logger marked as destroyed: it throws and changes nothing. -/
theorem world.log_inner_destroyed {L S MessageType : Type} (NDEBUG : Bool)
    (w : world L S MessageType) (pointer : L) (args : Except exception MessageType)
    (h : (w.loggers pointer).mark_as_destroy_ = true) :
    w.log_inner NDEBUG pointer args =
      some (w, some (runtime_error
        "This logger is marked as destroyed. It is illegal to log this logger anymore.")) := by
  simp only [world.log_inner, h, if_true]

/-- The body of `log` once `log_inner` has thrown. -/
theorem world.log_of_raise {L S MessageType : Type} (NDEBUG : Bool)
    (w w1 : world L S MessageType) (pointer : L) (args : Except exception MessageType)
    (e : exception) (h : w.log_inner NDEBUG pointer args = some (w1, some e)) :
    (∀ handler, (w.loggers pointer).error_handler_ = some handler →
      w.log NDEBUG pointer args =
        some ({ w1 with error_handler_calls := w1.error_handler_calls ++ [(handler, e)] },
          none)) ∧
    ((w.loggers pointer).error_handler_ = none →
      w.log NDEBUG pointer args = some (w1, some e)) := by
  refine ⟨fun handler hh => ?_, fun hh => ?_⟩
  · simp only [world.log, h, hh]
  · simp only [world.log, h, hh]

/-- What `log_inner` leaves alone: the loggers, the sinks and the record of the handler
invocations. -/
theorem world.log_inner_frame {L S MessageType : Type} (NDEBUG : Bool)
    (w w1 : world L S MessageType) (pointer : L) (args : Except exception MessageType)
    (thrown : Option exception) (h : w.log_inner NDEBUG pointer args = some (w1, thrown)) :
    w1.loggers = w.loggers ∧ w1.sinks = w.sinks ∧
      w1.error_handler_calls = w.error_handler_calls := by
  unfold world.log_inner at h
  simp only at h
  split at h
  · cases h; exact ⟨rfl, rfl, rfl⟩
  · split at h
    · cases h; exact ⟨rfl, rfl, rfl⟩
    · split at h
      · cases h; exact ⟨rfl, rfl, rfl⟩
      · split at h
        · cases h; exact ⟨rfl, rfl, rfl⟩
        · cases h; exact ⟨rfl, rfl, rfl⟩
        · split at h
          · cases h
          · cases h; exact ⟨rfl, rfl, rfl⟩

/-- The five places where `log_inner` throws: the destroyed flag, the missing dispatcher,
the construction of the message, the filter, and `dispatcher::enqueue`. -/
theorem world.log_inner_raise_cases {L S MessageType : Type} (NDEBUG : Bool)
    (w w1 : world L S MessageType) (pointer : L) (args : Except exception MessageType)
    (e : exception) (h : w.log_inner NDEBUG pointer args = some (w1, some e)) :
    ((w.loggers pointer).mark_as_destroy_ = true ∧ w1 = w ∧ e = runtime_error
        "This logger is marked as destroyed. It is illegal to log this logger anymore.") ∨
    (w.dispatcher_ = none ∧ w1 = w ∧ e = runtime_error "Dispatcher does not exist.") ∨
    (args = .error e ∧ w1 = w) ∨
    (∃ message, args = .ok message ∧ w1 = w ∧
      (w.loggers pointer).should_log
        (make_message_pack (w.loggers pointer).name_ message) = .error e) ∨
    (∃ message d d1 pool1, args = .ok message ∧ w.dispatcher_ = some d ∧
      d.enqueue NDEBUG w.thread_pool_ (w.loggers pointer).weak_this
        (make_message_pack (w.loggers pointer).name_ message) = some ((d1, pool1), some e) ∧
      w1 = { w with dispatcher_ := some d1, thread_pool_ := pool1 }) := by
  unfold world.log_inner at h
  simp only at h
  split at h
  · next hmark =>
    simp only [Option.some.injEq, Prod.mk.injEq] at h
    exact Or.inl ⟨hmark, h.1.symm, h.2.symm⟩
  · split at h
    · next hd =>
      simp only [Option.some.injEq, Prod.mk.injEq] at h
      exact Or.inr (Or.inl ⟨hd, h.1.symm, h.2.symm⟩)
    · next d hd =>
      split at h
      · next e1 =>
        simp only [Option.some.injEq, Prod.mk.injEq] at h
        exact Or.inr (Or.inr (Or.inl ⟨by rw [h.2], h.1.symm⟩))
      · next message =>
        split at h
        · next e1 hfilter =>
          simp only [Option.some.injEq, Prod.mk.injEq] at h
          exact Or.inr (Or.inr (Or.inr (Or.inl ⟨message, rfl, h.1.symm, by rw [hfilter, h.2]⟩)))
        · simp at h
        · split at h
          · cases h
          · next d1 pool1 thrown henqueue =>
            simp only [Option.some.injEq, Prod.mk.injEq] at h
            exact Or.inr (Or.inr (Or.inr (Or.inr
              ⟨message, d, d1, pool1, rfl, hd, by rw [henqueue, h.2], h.1.symm⟩)))

/-- C13: for every error raised inside `logger::log` (destroyed flag, missing dispatcher,
record construction, filter evaluation or dispatcher enqueue), if an error handler is
installed it is invoked exactly once, with that error, and `log` returns normally; if no
handler is installed the same error propagates to the caller. In both cases `log` leaves
the state `log_inner` left. -/
theorem logger_log_error_routing {L S MessageType : Type} (NDEBUG : Bool)
    (w w1 : world L S MessageType) (pointer : L) (args : Except exception MessageType)
    (e : exception) (hraise : w.log_inner NDEBUG pointer args = some (w1, some e)) :
    (∀ handler, (w.loggers pointer).error_handler_ = some handler →
      w.log NDEBUG pointer args =
        some ({ w1 with error_handler_calls := w.error_handler_calls ++ [(handler, e)] },
          none)) ∧
    ((w.loggers pointer).error_handler_ = none →
      w.log NDEBUG pointer args = some (w1, some e) ∧
        w1.error_handler_calls = w.error_handler_calls) := by
  have hframe := world.log_inner_frame NDEBUG w w1 pointer args (some e) hraise
  have hlog := world.log_of_raise NDEBUG w w1 pointer args e hraise
  refine ⟨fun handler hh => ?_, fun hh => ⟨hlog.2 hh, hframe.2.2⟩⟩
  rw [hlog.1 handler hh, hframe.2.2]

/-- Witness for C13: the format of the message is rejected by the constructor of the
message (the set-up of the handler test of logger_test.cpp), no handler is installed, and
the exception reaches the caller. -/
theorem logger_log_error_routing_witness :
    (world.single "logger" "sink" none none none : world Unit Unit Nat).log false ()
        (.error (runtime_error "bad format")) =
      some (world.single "logger" "sink" none none none,
        some (runtime_error "bad format")) :=
  ((logger_log_error_routing false (world.single "logger" "sink" none none none)
    (world.single "logger" "sink" none none none) ()
    (.error (runtime_error "bad format")) (runtime_error "bad format") rfl).2 rfl).1

/-- A task leaves the loggers alone. -/
theorem world.operate_by_thread_loggers {L S MessageType : Type} [DecidableEq L]
    [DecidableEq S] (NDEBUG : Bool) (w w1 : world L S MessageType) (task : thread_unit S)
    (thrown : Option exception) (h : w.operate_by_thread NDEBUG task = some (w1, thrown)) :
    w1.loggers = w.loggers := by
  cases task with
  | dispatcher_token =>
    simp only [world.operate_by_thread] at h
    split at h
    · cases h; rfl
    · split at h
      · cases h
      · cases h; rfl
  | sink_token myself_ =>
    simp only [world.operate_by_thread] at h
    cases h; rfl

/-- A `log` call or an iteration of a worker leaves the loggers alone. -/
theorem world.step_loggers {L S MessageType : Type} [DecidableEq L] [DecidableEq S]
    (NDEBUG : Bool) (pointer : L) (w w1 : world L S MessageType) (a : action MessageType)
    (h : w.step NDEBUG pointer a = some w1) : w1.loggers = w.loggers := by
  cases a with
  | log message =>
    simp only [world.step, world.log] at h
    rcases hinner : w.log_inner NDEBUG pointer (.ok message) with _ | ⟨w2, thrown⟩
    · rw [hinner] at h; cases h
    · have hframe := world.log_inner_frame NDEBUG w w2 pointer _ thrown hinner
      rw [hinner] at h
      rcases thrown with _ | e
      · simp only [Option.some.injEq] at h
        rw [← h]; exact hframe.1
      · rcases hh : (w.loggers pointer).error_handler_ with _ | handler
        · rw [hh] at h
          simp only [Option.some.injEq] at h
          rw [← h]; exact hframe.1
        · rw [hh] at h
          simp only [Option.some.injEq] at h
          rw [← h]; exact hframe.1
  | run i =>
    simp only [world.step, world.run_task] at h
    split at h
    · cases h; rfl
    · split at h
      · cases h; rfl
      · split at h
        · cases h
        · next w2 thrown hop =>
          cases h
          exact (world.operate_by_thread_loggers NDEBUG _ w2 _ thrown hop).trans rfl

/-- A sequence of `log` calls and iterations of a worker leaves the loggers alone. -/
theorem world.run_actions_loggers {L S MessageType : Type} [DecidableEq L] [DecidableEq S]
    (NDEBUG : Bool) (pointer : L) (actions : List (action MessageType))
    (w w1 : world L S MessageType) (h : w.run_actions NDEBUG pointer actions = some w1) :
    w1.loggers = w.loggers := by
  induction actions generalizing w with
  | nil =>
    simp only [world.run_actions, Option.some.injEq] at h
    rw [h]
  | cons a rest ih =>
    simp only [world.run_actions] at h
    rcases hs : w.step NDEBUG pointer a with _ | w2
    · rw [hs] at h; cases h
    · rw [hs] at h
      rw [ih w2 h, world.step_loggers NDEBUG pointer w w2 a hs]

/-- C12: after `manager.delete_logger(name)`, called while the caller holds a pointer to the
logger registered under `name` (the registry does not hold the last one, so the logger is
not destroyed), has set the destroyed flag of that logger, the flag stays set through every sequence of `log` calls on a
pointer to that logger obtained before and of iterations of a worker, and every `log` call
on that pointer, in any state `w` of the objects where the flag is set, is rejected with the
runtime error 'This logger is marked as destroyed. It is illegal to log this logger
anymore.': the error is thrown to the caller when no error handler is installed and handed
to the handler otherwise, and in both cases the dispatcher, its queue included, stays as it
was. -/
theorem destroyed_logger_rejected {MessageType : Type} (NDEBUG : Bool)
    (m : manager MessageType) (name : String) (pointer : Nat)
    (hfind : m.find_logger name = some pointer) :
    ∃ m1, (∀ last_owner_of_sink, m.delete_logger name false last_owner_of_sink =
        some (m1, none)) ∧
    (∀ (actions : List (action MessageType)) (w : world Nat Nat MessageType),
      m1.objects.run_actions NDEBUG pointer actions = some w →
      (w.loggers pointer).mark_as_destroy_ = true) ∧
    ∀ (w : world Nat Nat MessageType) (args : Except exception MessageType),
      (w.loggers pointer).mark_as_destroy_ = true →
      ((w.loggers pointer).error_handler_ = none →
        w.log NDEBUG pointer args = some (w, some (runtime_error
          "This logger is marked as destroyed. It is illegal to log this logger anymore."))) ∧
      (∀ handler, (w.loggers pointer).error_handler_ = some handler →
        w.log NDEBUG pointer args =
          some ({ w with error_handler_calls := w.error_handler_calls ++ [(handler,
            runtime_error
              "This logger is marked as destroyed. It is illegal to log this logger anymore.")] },
            none)) := by
  rw [manager.find_logger_eq] at hfind
  rcases hf : m.logger_map_.find name with _ | position
  · rw [hf] at hfind; cases hfind
  · rw [hf] at hfind
    simp only [Option.map_some', Option.some.injEq] at hfind
    subst hfind
    refine ⟨_, fun last_owner_of_sink =>
      manager.delete_logger_found m name last_owner_of_sink position hf, ?_, ?_⟩
    · intro actions w hrun
      rw [world.run_actions_loggers NDEBUG position.2 actions _ w hrun]
      simp only [manager.objects, Function.update_same, logger.mark_as_destroy]
    · intro w args hmark
      have hlog := world.log_of_raise NDEBUG w w position.2 args _
        (world.log_inner_destroyed NDEBUG w position.2 args hmark)
      exact ⟨hlog.2, hlog.1⟩

/-- Witness for C12: the manager of the test suite deletes "exist logger" while the caller
holds the pointer obtained before; a `log` on that pointer throws and the queue of the
dispatcher stays empty. -/
theorem destroyed_logger_rejected_witness :
    sample_manager_with_logger.find_logger "exist logger" = some 0 ∧
    ∃ m1, (∀ last_owner_of_sink,
        sample_manager_with_logger.delete_logger "exist logger" false last_owner_of_sink =
          some (m1, none)) ∧
      m1.objects.log false 0 (.ok 7) =
        some (m1.objects, some (runtime_error
          "This logger is marked as destroyed. It is illegal to log this logger anymore.")) ∧
      m1.objects.dispatcher_ = some ⟨⟨[], []⟩, [], []⟩ := by
  obtain ⟨m1, hdelete, hflag, hlog⟩ :=
    destroyed_logger_rejected false sample_manager_with_logger "exist logger" 0 rfl
  refine ⟨rfl, m1, hdelete, ((hlog m1.objects (.ok 7) (hflag [] _ rfl)).1 ?_), ?_⟩
  · have h := hdelete fun _ => false
    simp only [manager.delete_logger_found sample_manager_with_logger "exist logger" _ (0, 0) rfl,
      Option.some.injEq, Prod.mk.injEq, and_true] at h
    rw [← h]
    rfl
  · have h := hdelete fun _ => false
    simp only [manager.delete_logger_found sample_manager_with_logger "exist logger" _ (0, 0) rfl,
      Option.some.injEq, Prod.mk.injEq, and_true] at h
    rw [← h]
    rfl

/-! ### Runs of the dispatcher trays -/

/-- The runs built from a non-empty pending run are non-empty. -/
theorem runs_from_nonempty {L MessageType : Type} [DecidableEq L] :
    ∀ (loggers : List L) (messages run : List (message_pack MessageType)) (destination : L),
      run ≠ [] → ∀ g ∈ runs_from destination run loggers messages, g.2 ≠ [] := by
  intro loggers
  induction loggers with
  | nil =>
    intro messages run destination hrun g hg
    simp only [runs_from, List.mem_singleton] at hg
    subst hg
    exact hrun
  | cons logger loggers ih =>
    intro messages run destination hrun g hg
    cases messages with
    | nil =>
      simp only [runs_from, List.mem_singleton] at hg
      subst hg
      exact hrun
    | cons message messages =>
      simp only [runs_from] at hg
      by_cases hd : destination = logger
      · simp only [hd, if_true] at hg
        exact ih messages (run ++ [message]) logger (by simp) g hg
      · simp only [hd, if_false, List.mem_cons] at hg
        rcases hg with rfl | hg
        · exact hrun
        · exact ih messages [message] logger (by simp) g hg

/-- The first of the runs built from a pending run belongs to the pending logger. -/
theorem runs_from_head {L MessageType : Type} [DecidableEq L] :
    ∀ (loggers : List L) (messages run : List (message_pack MessageType)) (destination : L),
      ∃ first rest, runs_from destination run loggers messages = (destination, first) :: rest := by
  intro loggers
  induction loggers with
  | nil => intro messages run destination; exact ⟨run, [], by simp [runs_from]⟩
  | cons logger loggers ih =>
    intro messages run destination
    cases messages with
    | nil => exact ⟨run, [], rfl⟩
    | cons message messages =>
      simp only [runs_from]
      by_cases hd : destination = logger
      · simp only [hd, if_true]
        exact ih messages (run ++ [message]) logger
      · simp only [hd, if_false]
        exact ⟨run, _, rfl⟩

/-- Consecutive runs belong to different loggers. -/
theorem runs_from_chain {L MessageType : Type} [DecidableEq L] :
    ∀ (loggers : List L) (messages run : List (message_pack MessageType)) (destination : L),
      List.Chain' (fun a b : L × List (message_pack MessageType) => a.1 ≠ b.1)
        (runs_from destination run loggers messages) := by
  intro loggers
  induction loggers with
  | nil => intro messages run destination; simp [runs_from]
  | cons logger loggers ih =>
    intro messages run destination
    cases messages with
    | nil => simp [runs_from]
    | cons message messages =>
      simp only [runs_from]
      by_cases hd : destination = logger
      · simp only [hd, if_true]
        exact ih messages (run ++ [message]) logger
      · simp only [hd, if_false]
        obtain ⟨first, rest, hrest⟩ := runs_from_head loggers messages [message] logger
        have hchain := ih messages [message] logger
        rw [hrest] at hchain ⊢
        exact List.Chain'.cons hd hchain

/-- The record of a recorded delivery of runs of which none throws: the runs delivered, in
order, behind the calls recorded before; the other components are those of the plain
delivery. -/
theorem deliver_runs_recorded {L S MessageType σ : Type}
    (deliver : L → List (message_pack MessageType) → σ × Option (thread_pool S) →
      (σ × Option (thread_pool S)) × Option exception) :
    ∀ (groups : List (L × List (message_pack MessageType))) (position : Nat) (state : σ)
      (calls : List (L × List (message_pack MessageType))) (pool : Option (thread_pool S)),
      (deliver_runs deliver groups position (state, pool)).2.2 = none →
      deliver_runs (recorded deliver) groups position ((state, calls), pool) =
        ((((deliver_runs deliver groups position (state, pool)).1.1, calls ++ groups),
          (deliver_runs deliver groups position (state, pool)).1.2),
          position + runs_size groups, none) := by
  intro groups
  induction groups with
  | nil => intro position state calls pool _; simp [deliver_runs, runs_size]
  | cons g groups ih =>
    intro position state calls pool hquiet
    obtain ⟨logger, messages⟩ := g
    rcases hd : deliver logger messages (state, pool) with ⟨⟨state1, pool1⟩, thrown⟩
    simp only [deliver_runs, hd] at hquiet
    rcases thrown with _ | e
    · simp only at hquiet
      simp only [deliver_runs, recorded, hd, ih _ _ _ _ hquiet, List.append_assoc,
        List.singleton_append]
      simp only [runs_size, List.map_cons, List.sum_cons, Nat.add_assoc]
    · simp at hquiet

/-- C26: for every non-empty pair of trays of equal length whose deliveries do not throw,
that is, the deliveries of the maximal runs of the trays, made one after the other from the
state the call starts in, all return, `dispatch_message_from_tray` returns, both trays are
empty afterwards, and the calls of `dispatch_message_to_sinks` it made are, in order, one
call per group of a list `groups` where every group is a logger with a non-empty range of
messages, consecutive groups have different loggers, the loggers of the groups repeated
over their ranges are the logger tray and the ranges concatenated are the message tray: the
groups are the maximal runs of consecutive entries with the same logger, each call
receives the messages at the positions of its run, and what the calls did to the state is
what the plain deliveries of the groups do in order. -/
theorem dispatcher_run_grouping {L S MessageType σ : Type} [DecidableEq L] (NDEBUG : Bool)
    (deliver : L → List (message_pack MessageType) → σ × Option (thread_pool S) →
      (σ × Option (thread_pool S)) × Option exception)
    (d : dispatcher L MessageType) (state : σ) (pool : Option (thread_pool S))
    (hsize : d.logger_tray_.length = d.message_tray_.length)
    (hnonempty : d.logger_tray_ ≠ [])
    (hquiet : (deliver_runs deliver (runs d.logger_tray_ d.message_tray_) 0
      (state, pool)).2.2 = none) :
    ∃ groups : List (L × List (message_pack MessageType)),
      dispatcher.dispatch_message_from_tray NDEBUG (recorded deliver) d ((state, []), pool) =
        some (({ d with logger_tray_ := [], message_tray_ := [] },
          ((deliver_runs deliver groups 0 (state, pool)).1.1, groups),
          (deliver_runs deliver groups 0 (state, pool)).1.2), none) ∧
      groups = runs d.logger_tray_ d.message_tray_ ∧
      groups ≠ [] ∧
      (∀ g ∈ groups, g.2 ≠ []) ∧
      List.Chain' (fun a b : L × List (message_pack MessageType) => a.1 ≠ b.1) groups ∧
      runs_loggers groups = d.logger_tray_ ∧
      runs_messages groups = d.message_tray_ := by
  refine ⟨runs d.logger_tray_ d.message_tray_, ?_, rfl, ?_, ?_, ?_,
    runs_loggers_eq _ _ hsize, runs_messages_eq _ _ hsize⟩
  · have hrec := deliver_runs_recorded deliver (runs d.logger_tray_ d.message_tray_) 0
      state [] pool hquiet
    rw [List.nil_append] at hrec
    exact dispatcher.from_tray_returns NDEBUG (recorded deliver) d ((state, []), pool) _ _
      hsize hrec
  · rcases hl : d.logger_tray_ with _ | ⟨logger, loggers⟩
    · exact absurd hl hnonempty
    · rcases hm : d.message_tray_ with _ | ⟨message, messages⟩
      · rw [hl, hm] at hsize; simp at hsize
      · obtain ⟨first, rest, h⟩ := runs_from_head loggers messages [message] logger
        simp only [runs, h]
        exact List.cons_ne_nil _ _
  · rcases hl : d.logger_tray_ with _ | ⟨logger, loggers⟩
    · intro g hg; simp [runs] at hg
    · rcases hm : d.message_tray_ with _ | ⟨message, messages⟩
      · intro g hg; simp [runs] at hg
      · exact runs_from_nonempty loggers messages [message] logger (by simp)
  · rcases hl : d.logger_tray_ with _ | ⟨logger, loggers⟩
    · simp [runs]
    · rcases hm : d.message_tray_ with _ | ⟨message, messages⟩
      · simp [runs]
      · exact runs_from_chain loggers messages [message] logger

/-- Witness for C26: the trays hold two entries of logger 0 followed by one of logger 1, the
loggers are attached to one sink with an empty queue and the thread pool is alive, so that
no delivery throws. Two calls of `dispatch_message_to_sinks` are made, the first with the
messages 10 and 11 for logger 0, the second with the message 12 for logger 1; the queue of
the sink holds the three messages and one drain task is scheduled. -/
theorem dispatcher_run_grouping_witness :
    (deliver_runs sample_delivery
      (runs sample_dispatcher.logger_tray_ sample_dispatcher.message_tray_) 0
      (fun _ => { sample_sink with queue_output_tray_ := [] }, some ⟨[], none⟩)).2.2 = none ∧
    ∃ groups : List (Nat × List (message_pack Nat)),
      (dispatcher.dispatch_message_from_tray false (recorded sample_delivery)
          sample_dispatcher
          ((fun _ => { sample_sink with queue_output_tray_ := [] }, []),
            some ⟨[], none⟩)).map
        (fun r => (r.1.1, r.1.2.1.2, (r.1.2.1.1 ()).queue_.buffer_, r.1.2.2, r.2)) =
        some ({ sample_dispatcher with logger_tray_ := [], message_tray_ := [] }, groups,
          [sample_pack 10, sample_pack 11, sample_pack 12],
          some ⟨[.sink_token ()], none⟩, none) ∧
      groups = [(0, [sample_pack 10, sample_pack 11]), (1, [sample_pack 12])] ∧
      runs_loggers groups = [0, 0, 1] ∧
      runs_messages groups = [sample_pack 10, sample_pack 11, sample_pack 12] ∧
      List.Chain' (fun a b : Nat × List (message_pack Nat) => a.1 ≠ b.1) groups := by
  obtain ⟨groups, hcall, hgroups, _, _, hchain, hloggers, hmessages⟩ :=
    dispatcher_run_grouping false sample_delivery sample_dispatcher
      (fun _ => { sample_sink with queue_output_tray_ := [] }) (some ⟨[], none⟩) rfl
      (by decide) rfl
  refine ⟨rfl, groups, ?_, ?_, hloggers, hmessages, hchain⟩
  · rw [hcall, hgroups]
    rfl
  · rw [hgroups]
    rfl

/-! ### Balance of the dispatcher trays -/

/-- The trays `dispatch_message_from_tray` leaves behind for trays of equal length, whatever
the deliveries do and whether the thread pool exists or not: both empty when it returns,
the same number of leading entries erased from each when it throws. -/
theorem dispatcher.from_tray_balance {L S MessageType σ : Type} [DecidableEq L]
    (NDEBUG : Bool)
    (deliver : L → List (message_pack MessageType) → σ × Option (thread_pool S) →
      (σ × Option (thread_pool S)) × Option exception)
    (d : dispatcher L MessageType) (state : σ × Option (thread_pool S))
    (hsize : d.logger_tray_.length = d.message_tray_.length) :
    ∃ d1 state1 thrown,
      dispatcher.dispatch_message_from_tray NDEBUG deliver d state =
        some ((d1, state1), thrown) ∧
      d1.queue_ = d.queue_ ∧
      ((thrown = none ∧ d1.logger_tray_ = [] ∧ d1.message_tray_ = []) ∨
        (thrown ≠ none ∧ ∃ k, d1.logger_tray_ = d.logger_tray_.drop k ∧
          d1.message_tray_ = d.message_tray_.drop k)) := by
  obtain ⟨queue, loggers, messages⟩ := d
  simp only at hsize
  unfold dispatcher.dispatch_message_from_tray
  simp only [assert, hsize, beq_self_eq_true, Bool.or_true, if_true]
  cases loggers with
  | nil =>
    cases messages with
    | cons _ _ => simp at hsize
    | nil => exact ⟨_, _, _, rfl, rfl, Or.inl ⟨rfl, rfl, rfl⟩⟩
  | cons destination rest =>
    cases messages with
    | nil => simp at hsize
    | cons message later =>
      simp only [dispatcher.walk_from_tray deliver destination rest message later
        state (by simpa using hsize)]
      rcases hr : deliver_runs deliver (runs (destination :: rest) (message :: later)) 0 state
        with ⟨state1, position, thrown⟩
      rcases thrown with _ | e
      · exact ⟨_, _, _, rfl, rfl, Or.inl ⟨rfl, rfl, rfl⟩⟩
      · simp only [erase_range, List.take_zero, List.nil_append]
        rcases hn : dispatcher.notify_thread_pool state1.2 with ⟨pool1, thrown1⟩
        rcases thrown1 with _ | e1
        · exact ⟨_, _, _, rfl, rfl, Or.inr ⟨by simp, position, rfl, rfl⟩⟩
        · exact ⟨_, _, _, rfl, rfl, Or.inr ⟨by simp, position, rfl, rfl⟩⟩

/-- C29: for every pair of trays of equal length, `dispatch_message_from_tray` leaves trays
of equal length behind, whether it returns or throws: both are empty when it returns, the
same number of leading entries is erased from each when it throws. So the size test of the
paired `try_swap_bulk` in `dispatch`, which runs only after a return, never rejects: the
swap reports `false` only for an empty queue, and when the queue holds as many loggers as
messages `dispatch` as a whole ends with trays of equal length again. -/
theorem dispatcher_tray_balance {L S MessageType σ : Type} [DecidableEq L] (NDEBUG : Bool)
    (deliver : L → List (message_pack MessageType) → σ × Option (thread_pool S) →
      (σ × Option (thread_pool S)) × Option exception)
    (d : dispatcher L MessageType) (state : σ × Option (thread_pool S))
    (hsize : d.logger_tray_.length = d.message_tray_.length) :
    (∃ d1 state1 thrown,
      dispatcher.dispatch_message_from_tray NDEBUG deliver d state =
        some ((d1, state1), thrown) ∧
      d1.logger_tray_.length = d1.message_tray_.length ∧
      ((thrown = none ∧ d1.logger_tray_ = [] ∧ d1.message_tray_ = []) ∨
        (thrown ≠ none ∧ ∃ k, d1.logger_tray_ = d.logger_tray_.drop k ∧
          d1.message_tray_ = d.message_tray_.drop k)) ∧
      (thrown = none → d.queue_.same_size = true →
        ∃ queue loggers messages,
          d1.queue_.try_swap_bulk NDEBUG d1.logger_tray_ d1.message_tray_ =
            some (!d.queue_.first_buffer_.isEmpty, queue, loggers, messages))) ∧
    (d.queue_.same_size = true →
      ∃ d2 state2 thrown,
        dispatcher.dispatch NDEBUG deliver d state = some ((d2, state2), thrown) ∧
        d2.logger_tray_.length = d2.message_tray_.length) := by
  obtain ⟨d1, state1, thrown, hcall, hqueue, hcases⟩ :=
    dispatcher.from_tray_balance NDEBUG deliver d state hsize
  have hbalance : d1.logger_tray_.length = d1.message_tray_.length := by
    rcases hcases with ⟨_, hl, hm⟩ | ⟨_, k, hl, hm⟩
    · simp only [hl, hm, List.length_nil]
    · rw [hl, hm, List.length_drop, List.length_drop, hsize]
  have hswap : thrown = none → d.queue_.same_size = true →
      d1.queue_.try_swap_bulk NDEBUG d1.logger_tray_ d1.message_tray_ =
        some (!d.queue_.first_buffer_.isEmpty,
          (if d.queue_.first_buffer_.isEmpty then d.queue_ else ⟨[], []⟩),
          (if d.queue_.first_buffer_.isEmpty then [] else d.queue_.first_buffer_),
          (if d.queue_.first_buffer_.isEmpty then [] else d.queue_.second_buffer_)) := by
    intro hthrown hsame
    rcases hcases with ⟨_, hl, hm⟩ | ⟨hne, _⟩
    · rw [hl, hm, hqueue]
      have hempty : assert NDEBUG
          ({ first_buffer_ := [], second_buffer_ := [] } :
            blocking_pair_queue L (message_pack MessageType)).same_size = true := by
        simp [assert, blocking_pair_queue.same_size]
      have hlen : d.queue_.first_buffer_.length = d.queue_.second_buffer_.length := by
        simpa [blocking_pair_queue.same_size] using hsame
      rcases hb : d.queue_.first_buffer_.isEmpty with _ | _
      · simp [blocking_pair_queue.try_swap_bulk, assert, hsame, hb, hempty,
          blocking_pair_queue.same_size, hlen]
      · simp [blocking_pair_queue.try_swap_bulk, assert, hsame, hb]
    · exact absurd hthrown hne
  refine ⟨⟨d1, state1, thrown, hcall, hbalance, hcases, fun hthrown hsame =>
    ⟨_, _, _, hswap hthrown hsame⟩⟩, ?_⟩
  intro hsame
  unfold dispatcher.dispatch
  rw [hcall]
  rcases thrown with _ | e
  · simp only [hswap rfl hsame]
    rcases hb : d.queue_.first_buffer_.isEmpty with _ | _
    · simp only [Bool.not_false, Bool.false_eq_true, if_false]
      have hsize2 : d.queue_.first_buffer_.length = d.queue_.second_buffer_.length := by
        simpa [blocking_pair_queue.same_size] using hsame
      obtain ⟨d2, state2, thrown2, hcall2, _, hcases2⟩ :=
        dispatcher.from_tray_balance NDEBUG deliver
          { queue_ := ⟨[], []⟩, logger_tray_ := d.queue_.first_buffer_,
            message_tray_ := d.queue_.second_buffer_ } state1 hsize2
      refine ⟨d2, state2, thrown2, hcall2, ?_⟩
      rcases hcases2 with ⟨_, hl, hm⟩ | ⟨_, k, hl, hm⟩
      · simp only [hl, hm, List.length_nil]
      · rw [hl, hm]
        simp only [List.length_drop, hsize2]
    · simp only [Bool.not_true, if_true]
      rcases hcases with ⟨_, hl, hm⟩ | ⟨hne, _⟩
      · exact ⟨_, _, _, rfl, rfl⟩
      · exact absurd rfl hne
  · exact ⟨d1, state1, some e, rfl, hbalance⟩

/-- Witness for C29: the delivery of the first run throws and the pool is alive; the two
entries of that run are erased from each tray and one entry stays in each. -/
theorem dispatcher_tray_balance_witness :
    ∃ d1 : dispatcher Nat Nat,
      (dispatcher.dispatch_message_from_tray false sample_failing_delivery sample_dispatcher
        ((), some ⟨[], none⟩)).map (fun r => r.1.1) = some d1 ∧
      d1.logger_tray_.length = d1.message_tray_.length := by
  obtain ⟨⟨d1, state1, thrown, hcall, hbalance, _, _⟩, _⟩ :=
    dispatcher_tray_balance false sample_failing_delivery sample_dispatcher
      ((), some ⟨[], none⟩) rfl
  exact ⟨d1, by rw [hcall]; rfl, hbalance⟩

/-! ### Residue of a failing drain -/

theorem sink.loop_cons_flush_throws {S MessageType : Type} (s : sink S MessageType)
    (inst : message_pack MessageType) (rest : List (message_pack MessageType)) (pack : Nat)
    (e : exception)
    (hw : s.sink_module_.throws s.sink_module_.calls
      (.log_message inst.logger_name inst.message) = none)
    (hf : flush_demanded s.flusher_ inst = true)
    (hfw : s.sink_module_.throws
      (s.sink_module_.calls ++ [.log_message inst.logger_name inst.message]) .flush = some e) :
    sink.sink_message_from_tray_loop (inst :: rest) pack s =
      (s.after_calls [.log_message inst.logger_name inst.message, .flush], pack, some e) := by
  have hflush : s.should_flush inst = .ok true := by
    unfold flush_demanded at hf
    unfold sink.should_flush
    rcases hfl : s.flusher_ with _ | f
    · rw [hfl] at hf; simp at hf
    · rw [hfl] at hf
      simp only at hf ⊢
      rcases hr : f inst.logger_name inst.message with e1 | b
      · rw [hr] at hf; simp at hf
      · rw [hr] at hf
        simp only at hf
        rw [hf]
  simp only [sink.sink_message_from_tray_loop, sink_module.call, hw, sink.should_flush] at hflush ⊢
  simp only [hflush, hfw, sink.after_calls, List.append_assoc, List.singleton_append]

/-- The loop of `sink_message_from_tray` on a tray whose pack behind `before` fails in the
write or in the flush. -/
theorem sink.loop_fails {S MessageType : Type} (s : sink S MessageType)
    (before after : List (message_pack MessageType)) (failing : message_pack MessageType)
    (made : List (module_call MessageType)) (e : exception)
    (hquiet : quiet_tray s.sink_module_.throws s.flusher_ s.sink_module_.calls before = true)
    (hfail : failed_attempt s.sink_module_.throws s.flusher_
      (s.sink_module_.calls ++ drain_calls s.flusher_ before) failing = some (made, e)) :
    sink.sink_message_from_tray_loop (before ++ failing :: after) 0 s =
      (s.after_calls (drain_calls s.flusher_ before ++ made), before.length, some e) := by
  rw [sink.loop_append before (failing :: after) 0 s hquiet, Nat.zero_add]
  unfold failed_attempt at hfail
  rcases hw : s.sink_module_.throws (s.sink_module_.calls ++ drain_calls s.flusher_ before)
    (.log_message failing.logger_name failing.message) with _ | e1
  · rw [hw] at hfail
    simp only at hfail
    by_cases hf : flush_demanded s.flusher_ failing = true
    · simp only [hf, if_true] at hfail
      rcases hfw : s.sink_module_.throws
        (s.sink_module_.calls ++ drain_calls s.flusher_ before ++
          [.log_message failing.logger_name failing.message]) .flush with _ | e2
      · rw [hfw] at hfail; cases hfail
      · rw [hfw] at hfail
        simp only [Option.some.injEq, Prod.mk.injEq] at hfail
        obtain ⟨hmade, he⟩ := hfail
        subst hmade
        subst he
        rw [sink.loop_cons_flush_throws (s.after_calls (drain_calls s.flusher_ before)) failing
          after before.length e2 hw hf hfw, sink.after_calls_after_calls]
    · simp only [hf, Bool.false_eq_true, if_false] at hfail
      cases hfail
  · rw [hw] at hfail
    simp only [Option.some.injEq, Prod.mk.injEq] at hfail
    obtain ⟨hmade, he⟩ := hfail
    subst hmade
    subst he
    rw [sink.loop_cons_write_throws (s.after_calls (drain_calls s.flusher_ before)) failing
      after before.length e1 hw, sink.after_calls_after_calls]

/-- C27 (counterexample). The tray holds the packs 10, 11, 12, a flush is demanded after 11
and the flush throws, and the weak pointer to the thread pool has expired. The writes of 10
and 11 and the flush were attempted and the tray keeps the pack 12, but
`notify_thread_pool()` throws inside the handler: no drain task is scheduled and the error
that leaves the call is 'Thread pool does not exist any longer.', not the exception of the
module. -/
theorem sink_failure_pool_expired :
    ({ sample_sink with
        sink_module_ := ⟨throws_on_flush (runtime_error "flush failed"), []⟩ }
      ).sink_message_from_tray none =
      (({ sample_sink with
          queue_output_tray_ := [sample_pack 12],
          sink_module_ := ⟨throws_on_flush (runtime_error "flush failed"),
            [.log_message "logger" 10, .log_message "logger" 11, .flush]⟩ },
        none), some (runtime_error "Thread pool does not exist any longer.")) ∧
    runtime_error "Thread pool does not exist any longer." ≠ runtime_error "flush failed" := by
  exact ⟨rfl, by decide⟩

/-- C27 (amended): the tray is `before ++ failing :: after`, the drain of `before` runs
undisturbed and the write or the flush of `failing` throws `e`. Then
`sink_message_from_tray` has made, in order, the calls of the undisturbed drain of `before`
and the calls of the failing pack up to the one that threw (its write, and its flush when
the write returned), and it leaves the tray equal to `after` (the failing pack is consumed,
the packs behind it are kept in order); the queue of the sink and everything else are
unchanged. When the thread pool is alive, one new drain task is put on it and `e` is
rethrown. When the weak pointer to the pool has expired, nothing is scheduled and the
runtime error of `notify_thread_pool()` leaves the call in the place of `e`. -/
theorem sink_failure_residue {S MessageType : Type} (s : sink S MessageType)
    (thread_pool_ : Option (thread_pool S)) (before after : List (message_pack MessageType))
    (failing : message_pack MessageType) (made : List (module_call MessageType))
    (e : exception)
    (htray : s.queue_output_tray_ = before ++ failing :: after)
    (hquiet : quiet_tray s.sink_module_.throws s.flusher_ s.sink_module_.calls before = true)
    (hfail : failed_attempt s.sink_module_.throws s.flusher_
      (s.sink_module_.calls ++ drain_calls s.flusher_ before) failing = some (made, e)) :
    (∀ pool, thread_pool_ = some pool →
      s.sink_message_from_tray thread_pool_ =
        (({ s with
            queue_output_tray_ := after,
            sink_module_ := { s.sink_module_ with
              calls := s.sink_module_.calls ++ (drain_calls s.flusher_ before ++ made) } },
          some (pool.enqueue (.sink_token s.weak_this))), some e)) ∧
    (thread_pool_ = none →
      s.sink_message_from_tray thread_pool_ =
        (({ s with
            queue_output_tray_ := after,
            sink_module_ := { s.sink_module_ with
              calls := s.sink_module_.calls ++ (drain_calls s.flusher_ before ++ made) } },
          none), some (runtime_error "Thread pool does not exist any longer."))) ∧
    count_writes (drain_calls s.flusher_ before ++ made) = before.length + 1 ∧
    (made = [.log_message failing.logger_name failing.message] ∨
      made = [.log_message failing.logger_name failing.message, .flush]) := by
  have hmade : made = [.log_message failing.logger_name failing.message] ∨
      made = [.log_message failing.logger_name failing.message, .flush] := by
    unfold failed_attempt at hfail
    split at hfail
    · simp only [Option.some.injEq, Prod.mk.injEq] at hfail
      exact Or.inl hfail.1.symm
    · split at hfail
      · split at hfail
        · simp only [Option.some.injEq, Prod.mk.injEq] at hfail
          exact Or.inr hfail.1.symm
        · cases hfail
      · cases hfail
  refine ⟨?_, ?_, ?_, hmade⟩
  · intro pool hpool
    subst hpool
    unfold sink.sink_message_from_tray
    rw [htray, sink.loop_fails s before after failing made e hquiet hfail]
    simp only [sink.notify_thread_pool, sink.after_calls, erase_range, List.take_zero,
      List.nil_append, htray]
    rw [List.drop_append]
    rfl
  · intro hpool
    subst hpool
    unfold sink.sink_message_from_tray
    rw [htray, sink.loop_fails s before after failing made e hquiet hfail]
    simp only [sink.notify_thread_pool, sink.after_calls, erase_range, List.take_zero,
      List.nil_append, htray]
    rw [List.drop_append]
    rfl
  · rw [count_writes_append, count_writes_drain_calls]
    rcases hmade with h | h
    · rw [h]; rfl
    · rw [h]; rfl

/-- Witness for C27: the tray holds the packs 10, 11, 12, a flush is demanded after 11 and
the flush throws, and the thread pool is alive; the writes of 10 and 11 and the flush were
attempted, the tray keeps the pack 12, one drain task is scheduled and the exception is
rethrown. -/
theorem sink_failure_residue_witness :
    ({ sample_sink with
        sink_module_ := ⟨throws_on_flush (runtime_error "flush failed"), []⟩ }
      ).sink_message_from_tray (some ⟨[], none⟩) =
      (({ sample_sink with
          queue_output_tray_ := [sample_pack 12],
          sink_module_ := ⟨throws_on_flush (runtime_error "flush failed"),
            [.log_message "logger" 10, .log_message "logger" 11, .flush]⟩ },
        some ⟨[.sink_token ()], none⟩), some (runtime_error "flush failed")) :=
  (sink_failure_residue
    { sample_sink with sink_module_ := ⟨throws_on_flush (runtime_error "flush failed"), []⟩ }
    (some ⟨[], none⟩) [sample_pack 10] [sample_pack 12] (sample_pack 11)
    [.log_message "logger" 11, .flush] (runtime_error "flush failed") rfl rfl rfl).1
    ⟨[], none⟩ rfl

/-! ### No lost wake-up -/

/-- The loop of `sink_message_from_tray` changes nothing of the sink but its module. -/
theorem sink.loop_frame {S MessageType : Type} :
    ∀ (rest : List (message_pack MessageType)) (pack : Nat) (s : sink S MessageType),
      ∃ module, (sink.sink_message_from_tray_loop rest pack s).1 =
        { s with sink_module_ := module } := by
  intro rest
  induction rest with
  | nil => intro pack s; exact ⟨s.sink_module_, rfl⟩
  | cons inst rest ih =>
    intro pack s
    simp only [sink.sink_message_from_tray_loop]
    rcases hw : s.sink_module_.call (.log_message inst.logger_name inst.message) with
      ⟨module1, thrown⟩
    rcases thrown with _ | e
    · simp only
      rcases hf : sink.should_flush { s with sink_module_ := module1 } inst with e1 | b
      · exact ⟨module1, rfl⟩
      · rcases b with _ | _
        · simp only
          obtain ⟨module, h⟩ := ih (pack + 1) { s with sink_module_ := module1 }
          exact ⟨module, h⟩
        · simp only
          rcases hfl : module1.call .flush with ⟨module2, thrown2⟩
          rcases thrown2 with _ | e2
          · simp only
            obtain ⟨module, h⟩ := ih (pack + 1) { s with sink_module_ := module2 }
            exact ⟨module, h⟩
          · exact ⟨module2, rfl⟩
    · exact ⟨module1, rfl⟩

/-- The outcome of `sink_message_from_tray` with a live pool: either it returns, with an
empty tray and the pool untouched, or it throws after putting a drain task of the sink on
the pool. The queue and the identity of the sink are unchanged. -/
theorem sink.from_tray_outcome {S MessageType : Type} (s : sink S MessageType)
    (pool : thread_pool S) :
    ∃ s1 pool1 thrown, s.sink_message_from_tray (some pool) = ((s1, some pool1), thrown) ∧
      s1.weak_this = s.weak_this ∧ s1.queue_ = s.queue_ ∧
      ((thrown = none ∧ s1.queue_output_tray_ = [] ∧ pool1 = pool) ∨
        thread_unit.sink_token s.weak_this ∈ pool1.task_queue_) := by
  unfold sink.sink_message_from_tray
  obtain ⟨module, hframe⟩ := sink.loop_frame s.queue_output_tray_ 0 s
  rcases hloop : sink.sink_message_from_tray_loop s.queue_output_tray_ 0 s with
    ⟨s1, pack, thrown⟩
  rw [hloop] at hframe
  simp only at hframe
  subst hframe
  rcases thrown with _ | e
  · exact ⟨_, _, _, rfl, rfl, rfl, Or.inl ⟨rfl, rfl, rfl⟩⟩
  · refine ⟨_, _, _, rfl, rfl, rfl, Or.inr ?_⟩
    simp [thread_pool.enqueue]

/-- After a drain task has run with a live pool, a drain task of the sink is pending or the
queue and the tray of the sink are empty. -/
theorem sink.sink_message_awake {S MessageType : Type} (s : sink S MessageType)
    (pool : thread_pool S) : sink.awake (s.sink_message (some pool)).1 := by
  unfold sink.sink_message
  obtain ⟨s1, pool1, thrown, hcall, hthis, hqueue, hcases⟩ := sink.from_tray_outcome s pool
  rw [hcall]
  rcases thrown with _ | e
  · simp only
    rcases hcases with ⟨_, htray, hpool⟩ | hmem
    · rcases hq : s1.queue_.buffer_ with _ | ⟨x, xs⟩
      · simp only [blocking_queue.try_swap_bulk, hq, List.isEmpty_nil, if_true]
        exact ⟨pool1, rfl, fun h => by simp [hq, htray] at h⟩
      · simp only [blocking_queue.try_swap_bulk, hq, List.isEmpty_cons, Bool.false_eq_true,
          if_false]
        obtain ⟨s2, pool2, thrown2, hcall2, hthis2, hqueue2, hcases2⟩ :=
          sink.from_tray_outcome
            { s1 with queue_ := ⟨s1.queue_output_tray_⟩, queue_output_tray_ := x :: xs } pool1
        rw [hcall2]
        refine ⟨pool2, rfl, fun h => ?_⟩
        rcases hcases2 with ⟨_, htray2, _⟩ | hmem2
        · simp only [hqueue2, htray, htray2] at h
          simp at h
        · simpa [hthis2] using hmem2
    · rcases hq : s1.queue_.buffer_ with _ | ⟨x, xs⟩
      · simp only [blocking_queue.try_swap_bulk, hq, List.isEmpty_nil, if_true]
        exact ⟨pool1, rfl, fun _ => by simpa [hthis] using hmem⟩
      · simp only [blocking_queue.try_swap_bulk, hq, List.isEmpty_cons, Bool.false_eq_true,
          if_false]
        obtain ⟨s2, pool2, thrown2, hcall2, hthis2, hqueue2, hcases2⟩ :=
          sink.from_tray_outcome
            { s1 with queue_ := ⟨s1.queue_output_tray_⟩, queue_output_tray_ := x :: xs } pool1
        rw [hcall2]
        refine ⟨pool2, rfl, fun _ => ?_⟩
        rcases hcases2 with ⟨_, _, hpool2⟩ | hmem2
        · rw [hpool2]
          simpa [hthis2, hthis] using hmem
        · simpa [hthis2] using hmem2
  · simp only
    refine ⟨pool1, rfl, fun _ => ?_⟩
    rcases hcases with ⟨h, _, _⟩ | hmem
    · cases h
    · simpa [hthis] using hmem

/-- Appending to the queue of the sink keeps a drain task pending. -/
theorem sink.enqueued_awake {S MessageType : Type} (s : sink S MessageType)
    (pool : thread_pool S) (accepted : List (message_pack MessageType))
    (h : sink.awake (s, some pool)) : sink.awake (s.enqueued pool accepted).1 := by
  obtain ⟨pool0, hpool, hinv⟩ := h
  simp only [Option.some.injEq] at hpool
  subst hpool
  simp only at hinv
  unfold sink.enqueued
  refine ⟨_, rfl, fun hne => ?_⟩
  simp only at hne ⊢
  rcases hq : s.queue_.buffer_ with _ | ⟨x, xs⟩
  · rcases ha : accepted with _ | ⟨y, ys⟩
    · rw [hq, ha] at hne
      simp only [List.append_nil, ne_eq, not_true_eq_false, false_or] at hne
      simpa [hq, ha] using hinv (Or.inr hne)
    · simp [thread_pool.enqueue]
  · simpa [hq] using hinv (Or.inl (by rw [hq]; exact List.cons_ne_nil _ _))

/-- The loop of `log` keeps a drain task pending, whatever the filter does. -/
theorem sink.log_walk_awake {S MessageType : Type}
    (container : List (message_pack MessageType)) :
    ∀ (rest : List (message_pack MessageType)) (head tail : Nat) (s : sink S MessageType)
      (pool : thread_pool S),
      sink.awake (s, some pool) →
      sink.awake (sink.log_walk container rest head tail s (some pool)).1 := by
  intro rest
  induction rest with
  | nil =>
    intro head tail s pool h
    simp only [sink.log_walk, sink.log_message_eq]
    exact sink.enqueued_awake s pool _ h
  | cons pack rest ih =>
    intro head tail s pool h
    simp only [sink.log_walk]
    rcases hf : s.should_log pack with e | b
    · exact h
    · rcases b with _ | _
      · simp only [sink.log_message_eq]
        have h1 := sink.enqueued_awake s pool (range_of container head tail) h
        simp only [sink.enqueued] at h1 ⊢
        exact ih _ _ _ _ h1
      · exact ih _ _ _ _ h

/-- The call `log` keeps a drain task pending. -/
theorem sink.log_awake {S MessageType : Type} (s : sink S MessageType) (pool : thread_pool S)
    (range : List (message_pack MessageType)) (h : sink.awake (s, some pool)) :
    sink.awake (s.log (some pool) range).1 := by
  unfold sink.log
  by_cases hr : range.isEmpty = true
  · simp only [hr, if_true]
    exact h
  · simp only [hr, Bool.false_eq_true, if_false]
    exact sink.log_walk_awake range range 0 0 s pool h

/-- Every step keeps a drain task pending. -/
theorem sink.step_awake {S MessageType : Type} [DecidableEq S]
    (state : sink S MessageType × Option (thread_pool S)) (a : sink_action MessageType)
    (h : sink.awake state) : sink.awake (sink.step state a) := by
  obtain ⟨s, pool_⟩ := state
  have h0 := h
  obtain ⟨pool, hpool, _⟩ := h0
  simp only at hpool
  subst hpool
  cases a with
  | log range => exact sink.log_awake s pool range h
  | drain i =>
    simp only [sink.step]
    by_cases ht : pool.task_queue_.get? i = some (.sink_token s.weak_this)
    · simp only [ht, if_true]
      exact sink.sink_message_awake s _
    · simp only [ht, if_false]
      exact h

/-- Every sequence of steps keeps a drain task pending. -/
theorem sink.run_steps_awake {S MessageType : Type} [DecidableEq S]
    (actions : List (sink_action MessageType)) :
    ∀ (state : sink S MessageType × Option (thread_pool S)),
      sink.awake state → sink.awake (sink.run_steps actions state) := by
  induction actions with
  | nil => intro state h; exact h
  | cons a rest ih =>
    intro state h
    exact ih _ (sink.step_awake state a h)

/-- C28: no lost wake-up. A sink starts with an empty queue and an empty tray and a live
worker pool; the steps are `log` calls with arbitrary ranges and executions of pending drain
tasks of the sink, with arbitrary behaviour of the filter, the flusher and the module
(failures included). In every state reached the pool is still alive, and if the queue or
the tray of the sink holds a pack then a drain task of the sink is pending; equivalently, if
no drain task of the sink is pending then the queue and the tray are both empty. A step
executes a drain task as a whole, so between steps a task is pending or finished. -/
theorem sink_no_lost_wakeup {S MessageType : Type} [DecidableEq S] (s : sink S MessageType)
    (pool : thread_pool S) (actions : List (sink_action MessageType))
    (hqueue : s.queue_.buffer_ = []) (htray : s.queue_output_tray_ = []) :
    ∃ pool1, (sink.run_steps actions (s, some pool)).2 = some pool1 ∧
      (((sink.run_steps actions (s, some pool)).1.queue_.buffer_ ≠ [] ∨
          (sink.run_steps actions (s, some pool)).1.queue_output_tray_ ≠ []) →
        thread_unit.sink_token (sink.run_steps actions (s, some pool)).1.weak_this ∈
          pool1.task_queue_) ∧
      (thread_unit.sink_token (sink.run_steps actions (s, some pool)).1.weak_this ∉
          pool1.task_queue_ →
        (sink.run_steps actions (s, some pool)).1.queue_.buffer_ = [] ∧
          (sink.run_steps actions (s, some pool)).1.queue_output_tray_ = []) := by
  have hstart : sink.awake (s, some pool) :=
    ⟨pool, rfl, fun h => by simp [hqueue, htray] at h⟩
  obtain ⟨pool1, hpool, hinv⟩ := sink.run_steps_awake actions _ hstart
  refine ⟨pool1, hpool, hinv, fun hnot => ?_⟩
  by_contra hne
  apply hnot
  apply hinv
  by_cases hq : (sink.run_steps actions (s, some pool)).1.queue_.buffer_ = []
  · right
    intro ht
    exact hne ⟨hq, ht⟩
  · left
    exact hq

/-- Witness for C28: a sink whose module throws on the second write logs three packs and a
worker runs the drain task; the write of the second pack throws, the third pack stays in
the tray and a new drain task is pending. -/
theorem sink_no_lost_wakeup_witness :
    (sink.run_steps [.log [sample_pack 10, sample_pack 11, sample_pack 12], .drain 0]
        ({ sample_sink with
            queue_output_tray_ := [],
            sink_module_ := ⟨throws_on_write 2 (runtime_error "write failed"), []⟩ },
          some ⟨[], none⟩)).1.queue_output_tray_ = [sample_pack 12] ∧
    ∃ pool1,
      (sink.run_steps [.log [sample_pack 10, sample_pack 11, sample_pack 12], .drain 0]
        ({ sample_sink with
            queue_output_tray_ := [],
            sink_module_ := ⟨throws_on_write 2 (runtime_error "write failed"), []⟩ },
          some ⟨[], none⟩)).2 = some pool1 ∧
      thread_unit.sink_token () ∈ pool1.task_queue_ := by
  obtain ⟨pool1, hpool, hinv, _⟩ := sink_no_lost_wakeup
    { sample_sink with
      queue_output_tray_ := [],
      sink_module_ := ⟨throws_on_write 2 (runtime_error "write failed"), []⟩ }
    ⟨[], none⟩ [.log [sample_pack 10, sample_pack 11, sample_pack 12], .drain 0] rfl rfl
  exact ⟨by decide, pool1, hpool, hinv (Or.inr (by decide))⟩

/-! ### A rejected new_sink -/

/-- C30: when `manager::new_sink(name, module)` fails because a sink named `name` is already
registered (it throws 'Already assigned a sink with the same name.'), the manager is
unchanged, so the registered sink and its module are untouched, but the module passed in has
been wrapped in a temporary sink and that sink has been destroyed: the module has received
exactly one call more than it had, a `flush()`, before the error reaches the caller. -/
theorem rejected_new_sink_flushes_module {MessageType : Type} (m : manager MessageType)
    (name : String) (module : sink_module MessageType) (pointer : Nat)
    (r : new_sink_result MessageType)
    (hfind : m.find_sink name = some pointer)
    (hcall : m.new_sink name (some module) = some r) :
    r.returned = .error (runtime_error "Already assigned a sink with the same name.") ∧
    r.state = m ∧
    r.state.find_sink name = some pointer ∧
    (r.state.sinks pointer).sink_module_ = (m.sinks pointer).sink_module_ ∧
    r.destroyed = some { module with calls := module.calls ++ [.flush] } := by
  rw [manager.find_sink_eq] at hfind
  rcases hf : m.sink_map_.find name with _ | position
  · rw [hf] at hfind; cases hfind
  · rw [hf] at hfind
    rw [manager.new_sink_present m name module position hf] at hcall
    rcases hflush : module.throws module.calls .flush with _ | e
    · rw [hflush] at hcall
      simp only [Option.some.injEq] at hcall
      subst hcall
      refine ⟨rfl, rfl, ?_, rfl, rfl⟩
      rw [manager.find_sink_eq, hf]
      exact hfind
    · rw [hflush] at hcall
      cases hcall

/-- Witness for C30: the manager of the test suite with "exist sink" registered; the module
passed to the rejected call held the record of two writes and ends with one `flush()` after
them. -/
theorem rejected_new_sink_flushes_module_witness :
    (sample_manager_with_sink.new_sink "exist sink"
        (some ⟨never_throws, [.log_message "logger" 1, .log_message "logger" 2]⟩)).map
      (fun r => r.destroyed.map fun module => module.calls) =
      some (some [.log_message "logger" 1, .log_message "logger" 2, .flush]) := by
  have h := rejected_new_sink_flushes_module sample_manager_with_sink "exist sink"
    ⟨never_throws, [.log_message "logger" 1, .log_message "logger" 2]⟩ 0 _ rfl rfl
  exact congrArg (fun d => some (Option.map (fun module : sink_module Nat => module.calls) d))
    h.2.2.2.2

/-! ### extract_file_extension -/

/-- A scan that stops at the first element failing the test takes exactly the elements in
front of it. -/
theorem takeWhile_append_stop {α : Type} (p : α → Bool) (l r : List α)
    (hl : ∀ x ∈ l, p x = true) (hr : ∀ y ∈ r.head?, p y = false) :
    (l ++ r).takeWhile p = l := by
  induction l with
  | nil =>
    cases r with
    | nil => rfl
    | cons y ys =>
      have hy : p y = false := hr y (by simp)
      simp [List.takeWhile, hy]
  | cons x xs ih =>
    have hx : p x = true := hl x (by simp)
    rw [List.cons_append, List.takeWhile_cons, hx]
    simp only [if_true, List.cons.injEq, true_and]
    exact ih fun z hz => hl z (by simp [hz])

/-- A scan that skips the elements passing the test stops at the first one that fails. -/
theorem dropWhile_append_stop {α : Type} (p : α → Bool) (l r : List α)
    (hl : ∀ x ∈ l, p x = true) (hr : ∀ y ∈ r.head?, p y = false) :
    (l ++ r).dropWhile p = r := by
  induction l with
  | nil =>
    cases r with
    | nil => rfl
    | cons y ys =>
      have hy : p y = false := hr y (by simp)
      simp [List.dropWhile, hy]
  | cons x xs ih =>
    have hx : p x = true := hl x (by simp)
    rw [List.cons_append, List.dropWhile_cons, hx]
    simp only [if_true]
    exact ih fun z hz => hl z (by simp [hz])

/-- The last occurrence of an element of a list. -/
theorem last_occurrence {α : Type} (a : α) (f : List α) (h : a ∈ f) :
    ∃ s t, f = s ++ a :: t ∧ a ∉ t := by
  obtain ⟨s, t, hst, hs⟩ := List.eq_append_cons_of_mem (List.mem_reverse.2 h)
  refine ⟨t.reverse, s.reverse, ?_, by simpa using hs⟩
  have := congrArg List.reverse hst
  simpa using this

/-- Every pathname is a directory part, empty or ending in a separator, followed by a last
component without separator, and `filename()` is that component. -/
theorem path.filename_split (p : path) :
    ∃ dir, p = dir ++ path.filename p ∧ '/' ∉ path.filename p ∧
      (dir = [] ∨ dir.getLast? = some '/') := by
  refine ⟨(p.reverse.dropWhile fun c => c != '/').reverse, ?_, ?_, ?_⟩
  · unfold path.filename
    rw [← List.reverse_append, List.takeWhile_append_dropWhile, List.reverse_reverse]
  · unfold path.filename
    intro hmem
    have h := List.mem_takeWhile_imp (List.mem_reverse.1 hmem)
    simp at h
  · rcases hd : (p.reverse.dropWhile fun c => c != '/') with _ | ⟨y, ys⟩
    · exact Or.inl rfl
    · right
      have hy : (fun c => c != '/') y = false := by
        have := List.head_dropWhile_not (fun c => c != '/') p.reverse
          (by rw [hd]; exact List.cons_ne_nil _ _)
        simpa [hd] using this
      have hy' : y = '/' := by simpa using hy
      simp [hy']

/-- The last component of `dir ++ leaf`. -/
theorem path.filename_append (dir leaf : path) (hleaf : '/' ∉ leaf)
    (hdir : dir = [] ∨ dir.getLast? = some '/') : path.filename (dir ++ leaf) = leaf := by
  unfold path.filename
  rw [List.reverse_append, takeWhile_append_stop _ leaf.reverse dir.reverse, List.reverse_reverse]
  · intro x hx
    have hx' : x ∈ leaf := List.mem_reverse.1 hx
    simpa using fun h : x = '/' => hleaf (h ▸ hx')
  · intro y hy
    rcases hdir with h | h
    · rw [h] at hy; simp at hy
    · rw [List.head?_reverse, h] at hy
      simp only [Option.mem_def, Option.some.injEq] at hy
      simp [← hy]

/-- The test of `stem()` in the words of the claim: the filename is `.` or `..`, has no
period, or has its only period in front. -/
theorem path.stem_test (f : path) :
    (f = ['.'] ∨ f = ['.', '.'] ∨ '.' ∉ f.tail) ↔
      (f = ['.'] ∨ f = ['.', '.'] ∨ '.' ∉ f ∨ ∃ rest, f = '.' :: rest ∧ '.' ∉ rest) := by
  constructor
  · rintro (h | h | h)
    · exact Or.inl h
    · exact Or.inr (Or.inl h)
    · right; right
      cases f with
      | nil => left; simp
      | cons c rest =>
        by_cases hc : c = '.'
        · right; exact ⟨rest, by rw [hc], h⟩
        · left
          simp only [List.mem_cons, not_or]
          exact ⟨fun heq => hc heq.symm, h⟩
  · rintro (h | h | h | ⟨rest, h, hrest⟩)
    · exact Or.inl h
    · exact Or.inr (Or.inl h)
    · right; right
      intro hmem
      exact h (List.mem_of_mem_tail hmem)
    · right; right
      rw [h]
      exact hrest

/-- The stem and the extension of a filename with a last period that counts. -/
theorem path.stem_of_last_period (p : path) (s t : path)
    (hf : path.filename p = s ++ '.' :: t) (ht : '.' ∉ t)
    (htest : ¬(path.filename p = ['.'] ∨ path.filename p = ['.', '.'] ∨
      '.' ∉ (path.filename p).tail)) :
    path.stem p = s ∧ path.extension p = '.' :: t := by
  have hstem : path.stem p = s := by
    unfold path.stem
    simp only [htest, if_false]
    rw [hf, List.reverse_append, List.reverse_cons, List.append_assoc,
      dropWhile_append_stop _ t.reverse (['.'] ++ s.reverse)]
    · simp
    · intro x hx
      have hx' : x ∈ t := List.mem_reverse.1 hx
      simpa using fun h : x = '.' => ht (h ▸ hx')
    · intro y hy
      simp only [List.singleton_append, List.head?_cons, Option.mem_def,
        Option.some.injEq] at hy
      simp [← hy]
  refine ⟨hstem, ?_⟩
  unfold path.extension
  rw [hstem, hf, List.drop_left]

/-- The result of `extract_file_extension` for a last component without extension. -/
theorem extract_without_extension (p : path)
    (htest : path.filename p = ['.'] ∨ path.filename p = ['.', '.'] ∨
      '.' ∉ (path.filename p).tail) :
    extract_file_extension p = (p, []) := by
  have hstem : path.stem p = path.filename p := by
    unfold path.stem
    simp only [htest, if_true]
  have hext : path.extension p = [] := by
    unfold path.extension
    rw [hstem, List.drop_length]
  simp [extract_file_extension, path.replace_extension, path.has_extension, hext]

/-- The result of `extract_file_extension` for a last component with extension. -/
theorem extract_with_extension (dir s t : path)
    (hf : path.filename (dir ++ (s ++ '.' :: t)) = s ++ '.' :: t) (ht : '.' ∉ t)
    (htest : ¬(path.filename (dir ++ (s ++ '.' :: t)) = ['.'] ∨
      path.filename (dir ++ (s ++ '.' :: t)) = ['.', '.'] ∨
      '.' ∉ (path.filename (dir ++ (s ++ '.' :: t))).tail)) :
    extract_file_extension (dir ++ (s ++ '.' :: t)) = (dir ++ s, '.' :: t) := by
  obtain ⟨_, hext⟩ := path.stem_of_last_period _ s t hf ht htest
  have htake : (dir ++ (s ++ '.' :: t)).take
      ((dir ++ (s ++ '.' :: t)).length - ('.' :: t).length) = dir ++ s := by
    have hlen : (dir ++ (s ++ '.' :: t)).length - ('.' :: t).length = (dir ++ s).length := by
      simp only [List.length_append, List.length_cons]
      omega
    rw [hlen, ← List.append_assoc, List.take_left]
  simp only [extract_file_extension, path.replace_extension, path.has_extension, hext, htake]
  simp

/-- The two cases of `extract_file_extension` for a path written as `dir ++ leaf`. -/
theorem extract_file_extension_cases (p dir leaf : path) (hp : p = dir ++ leaf)
    (hleaf : '/' ∉ leaf) (hdir : dir = [] ∨ dir.getLast? = some '/') :
    ((leaf = ['.'] ∨ leaf = ['.', '.'] ∨ '.' ∉ leaf ∨
        ∃ rest, leaf = '.' :: rest ∧ '.' ∉ rest) →
      extract_file_extension p = (p, [])) ∧
    (¬(leaf = ['.'] ∨ leaf = ['.', '.'] ∨ '.' ∉ leaf ∨
        ∃ rest, leaf = '.' :: rest ∧ '.' ∉ rest) →
      ∃ stem suffix, leaf = stem ++ '.' :: suffix ∧ '.' ∉ suffix ∧
        extract_file_extension p = (dir ++ stem, '.' :: suffix)) := by
  have hfile : path.filename p = leaf := by
    rw [hp]; exact path.filename_append dir leaf hleaf hdir
  refine ⟨fun h => ?_, fun h => ?_⟩
  · apply extract_without_extension
    rw [hfile]
    exact (path.stem_test leaf).2 h
  · have hmem : '.' ∈ leaf := by
      by_contra hnot
      exact h (Or.inr (Or.inr (Or.inl hnot)))
    obtain ⟨s, t, hst, ht⟩ := last_occurrence '.' leaf hmem
    refine ⟨s, t, hst, ht, ?_⟩
    subst hst
    subst hp
    apply extract_with_extension dir s t hfile ht
    rw [hfile]
    exact fun h' => h ((path.stem_test _).1 h')

/-- The two parts `extract_file_extension` returns make up the path. -/
theorem extract_file_extension_append (p : path) :
    (extract_file_extension p).1 ++ (extract_file_extension p).2 = p := by
  obtain ⟨dir, hp, hleaf, hdir⟩ := path.filename_split p
  obtain ⟨hno, hyes⟩ := extract_file_extension_cases p dir (path.filename p) hp hleaf hdir
  by_cases h : path.filename p = ['.'] ∨ path.filename p = ['.', '.'] ∨
      '.' ∉ path.filename p ∨ ∃ rest, path.filename p = '.' :: rest ∧ '.' ∉ rest
  · rw [hno h]
    simp
  · obtain ⟨stem, suffix, hst, _, hresult⟩ := hyes h
    rw [hresult]
    simp only [List.append_assoc]
    rw [← hst, ← hp]

/-- C25: `extract_file_extension(path)` returns `(front, ext)` with `front` followed by
`ext` equal to the path. Write the path as `dir ++ leaf`, where `leaf`, the last component,
has no separator and `dir` is empty or ends in a separator (every path has this form). When
`leaf` is `.` or `..`, has no period, or has its only period as first character, `ext` is
empty and `front` is the path; otherwise `leaf` is `stem ++ '.' :: suffix` with no period
in `suffix`, `ext` is `'.' :: suffix`, the part of `leaf` from its last period on, and
`front` is `dir ++ stem`. Periods in `dir` play no part. -/
theorem extract_file_extension_spec (p : path) :
    (extract_file_extension p).1 ++ (extract_file_extension p).2 = p ∧
    (∃ dir leaf, p = dir ++ leaf ∧ '/' ∉ leaf ∧ (dir = [] ∨ dir.getLast? = some '/')) ∧
    ∀ dir leaf, p = dir ++ leaf → '/' ∉ leaf → (dir = [] ∨ dir.getLast? = some '/') →
      ((leaf = ['.'] ∨ leaf = ['.', '.'] ∨ '.' ∉ leaf ∨
          ∃ rest, leaf = '.' :: rest ∧ '.' ∉ rest) →
        extract_file_extension p = (p, [])) ∧
      (¬(leaf = ['.'] ∨ leaf = ['.', '.'] ∨ '.' ∉ leaf ∨
          ∃ rest, leaf = '.' :: rest ∧ '.' ∉ rest) →
        ∃ stem suffix, leaf = stem ++ '.' :: suffix ∧ '.' ∉ suffix ∧
          extract_file_extension p = (dir ++ stem, '.' :: suffix)) := by
  obtain ⟨dir, hp, hleaf, hdir⟩ := path.filename_split p
  exact ⟨extract_file_extension_append p, ⟨dir, path.filename p, hp, hleaf, hdir⟩,
    fun dir leaf hp hleaf hdir => extract_file_extension_cases p dir leaf hp hleaf hdir⟩

/-! ### std::to_string -/

/-- The digits `Nat.toDigitsCore` writes go in front of the digits it is given. -/
theorem to_string_core_append (fuel : Nat) :
    ∀ (n : Nat) (ds : List Char),
      Nat.toDigitsCore 10 fuel n ds = Nat.toDigitsCore 10 fuel n [] ++ ds := by
  induction fuel with
  | zero => intro n ds; rfl
  | succ fuel ih =>
    intro n ds
    simp only [Nat.toDigitsCore]
    by_cases h : n / 10 = 0
    · simp only [h, if_true, List.singleton_append]
    · simp only [h, if_false]
      rw [ih (n / 10) (Nat.digitChar (n % 10) :: ds), ih (n / 10) [Nat.digitChar (n % 10)]]
      simp

/-- The value of a decimal digit character. -/
theorem digit_char_value (k : Nat) (h : k < 10) : (Nat.digitChar k).toNat - 48 = k := by
  interval_cases k <;> rfl

/-- Reading the digits `std::to_string` writes gives the number back. -/
theorem to_string_core_value (fuel : Nat) :
    ∀ n : Nat, n < fuel →
      (Nat.toDigitsCore 10 fuel n []).foldl (fun acc c => 10 * acc + (c.toNat - 48)) 0 = n := by
  induction fuel with
  | zero => intro n h; omega
  | succ fuel ih =>
    intro n hn
    simp only [Nat.toDigitsCore]
    by_cases h : n / 10 = 0
    · simp only [h, if_true, List.foldl_cons, List.foldl_nil, Nat.mul_zero, Nat.zero_add]
      rw [digit_char_value _ (Nat.mod_lt _ (by decide))]
      omega
    · simp only [h, if_false]
      rw [to_string_core_append fuel (n / 10) [Nat.digitChar (n % 10)], List.foldl_append,
        ih (n / 10) (by omega)]
      simp only [List.foldl_cons, List.foldl_nil]
      rw [digit_char_value _ (Nat.mod_lt _ (by decide))]
      omega

/-- Different numbers have different decimal representations. -/
theorem to_string_injective : Function.Injective to_string := by
  intro a b h
  unfold to_string Nat.toDigits at h
  have ha := to_string_core_value (a + 1) a (Nat.lt_succ_self a)
  have hb := to_string_core_value (b + 1) b (Nat.lt_succ_self b)
  rw [h] at ha
  rw [← ha, hb]

/-! ### The names of the archive files -/

/-- The names `parse_filename` gives for different indices differ, the name of the active file
(index 0) included. -/
theorem rotation_file_module.parse_filename_injective (name : path) (info : file_info)
    (i j : Nat)
    (h : rotation_file_module.parse_filename (rotation_file_module.get_file_info name info) i =
      rotation_file_module.parse_filename (rotation_file_module.get_file_info name info) j) :
    i = j := by
  have happend := extract_file_extension_append name
  have hne : ∀ k : Nat, 0 < k →
      rotation_file_module.parse_filename (rotation_file_module.get_file_info name info) k ≠
        name := by
    intro k hk heq
    simp only [rotation_file_module.parse_filename, hk, if_true, path.concat,
      rotation_file_module.get_file_info] at heq
    have hlen := congrArg List.length heq
    have hsum := congrArg List.length happend
    simp only [List.length_append, List.length_cons, List.length_nil] at hlen hsum
    omega
  rcases Nat.eq_zero_or_pos i with hi | hi
  · rcases Nat.eq_zero_or_pos j with hj | hj
    · rw [hi, hj]
    · exfalso
      apply hne j hj
      rw [← h, hi]
      simp [rotation_file_module.parse_filename, rotation_file_module.get_file_info]
  · rcases Nat.eq_zero_or_pos j with hj | hj
    · exfalso
      apply hne i hi
      rw [h, hj]
      simp [rotation_file_module.parse_filename, rotation_file_module.get_file_info]
    · simp only [rotation_file_module.parse_filename, hi, hj, if_true, path.concat] at h
      have h1 := List.append_cancel_right h
      have h2 := List.append_cancel_left h1
      exact to_string_injective h2

/-! ### rotate_file -/

/-- The loop of `rotate_file` for `k` moves, on archive names that differ pairwise: no move
fails, a file outside the names `0 .. k` is left alone, the name `i` receives the file
of the name `i - 1` when there is one, else keeps nothing but, at `i = k`, its old file, and
the name `0` is left without a file. -/
theorem rotation_file_module.rotate_file_loop_spec (file : file_info)
    (hinj : ∀ i j : Nat, rotation_file_module.parse_filename file i =
      rotation_file_module.parse_filename file j → i = j) :
    ∀ (k : Nat) (fs : file_system),
      (rotation_file_module.rotate_file_loop file k fs).2 = none ∧
      (∀ p, (∀ i, i ≤ k → p ≠ rotation_file_module.parse_filename file i) →
        (rotation_file_module.rotate_file_loop file k fs).1 p = fs p) ∧
      (∀ i, 1 ≤ i → i ≤ k →
        (rotation_file_module.rotate_file_loop file k fs).1
            (rotation_file_module.parse_filename file i) =
          if (fs (rotation_file_module.parse_filename file (i - 1))).isSome then
            fs (rotation_file_module.parse_filename file (i - 1))
          else if i = k then fs (rotation_file_module.parse_filename file k) else none) ∧
      (1 ≤ k → fs (rotation_file_module.parse_filename file 0) ≠ none →
        (rotation_file_module.rotate_file_loop file k fs).1
          (rotation_file_module.parse_filename file 0) = none) := by
  intro k
  induction k with
  | zero =>
    intro fs
    refine ⟨rfl, fun p _ => rfl, fun i h1 h2 => ?_, fun h => ?_⟩
    · omega
    · omega
  | succ k ih =>
    intro fs
    have hne : ∀ i j : Nat, i ≠ j → rotation_file_module.parse_filename file i ≠
        rotation_file_module.parse_filename file j := fun i j hij h => hij (hinj i j h)
    rcases hsrc : fs (rotation_file_module.parse_filename file k) with _ | content
    · have hloop : rotation_file_module.rotate_file_loop file (k + 1) fs =
          rotation_file_module.rotate_file_loop file k fs := by
        simp [rotation_file_module.rotate_file_loop, file_system.exists_, hsrc]
      obtain ⟨ih1, ih2, ih3, ih4⟩ := ih fs
      rw [hloop]
      refine ⟨ih1, fun p hp => ih2 p fun i hi => hp i (by omega), fun i h1 h2 => ?_,
        fun _ h0 => ?_⟩
      · rcases Nat.lt_or_ge i (k + 1) with hlt | hge
        · rw [ih3 i h1 (by omega)]
          by_cases hik : i = k
          · subst hik
            simp [hsrc]
          · simp [hik, show i ≠ k + 1 by omega]
        · have hi : i = k + 1 := by omega
          subst hi
          rw [ih2 _ fun i hi => hne _ _ (by omega)]
          simp [hsrc]
      · rcases Nat.eq_zero_or_pos k with hk | hk
        · subst hk
          exact absurd hsrc h0
        · exact ih4 hk h0
    · have hloop : rotation_file_module.rotate_file_loop file (k + 1) fs =
          rotation_file_module.rotate_file_loop file k
            (fun p => if p = rotation_file_module.parse_filename file (k + 1) then some content
              else if p = rotation_file_module.parse_filename file k then none else fs p) := by
        simp [rotation_file_module.rotate_file_loop, file_system.exists_, hsrc,
          file_system.rename]
      obtain ⟨ih1, ih2, ih3, ih4⟩ := ih
        (fun p => if p = rotation_file_module.parse_filename file (k + 1) then some content
          else if p = rotation_file_module.parse_filename file k then none else fs p)
      rw [hloop]
      refine ⟨ih1, fun p hp => ?_, fun i h1 h2 => ?_, fun _ h0 => ?_⟩
      · rw [ih2 p fun i hi => hp i (by omega)]
        simp [hp (k + 1) (by omega), hp k (by omega)]
      · rcases Nat.lt_or_ge i (k + 1) with hlt | hge
        · rw [ih3 i h1 (by omega)]
          have ha : rotation_file_module.parse_filename file (i - 1) ≠
              rotation_file_module.parse_filename file (k + 1) := hne _ _ (by omega)
          have hb : rotation_file_module.parse_filename file (i - 1) ≠
              rotation_file_module.parse_filename file k := hne _ _ (by omega)
          have hc : rotation_file_module.parse_filename file k ≠
              rotation_file_module.parse_filename file (k + 1) := hne _ _ (by omega)
          simp only [ha, hb, hc, if_false, if_true]
          by_cases hik : i = k
          · subst hik
            simp
          · simp [hik, show i ≠ k + 1 by omega]
        · have hi : i = k + 1 := by omega
          subst hi
          rw [ih2 _ fun i hi => hne _ _ (by omega)]
          simp [hsrc]
      · rcases Nat.eq_zero_or_pos k with hk | hk
        · subst hk
          have hc : rotation_file_module.parse_filename file 0 ≠
              rotation_file_module.parse_filename file (0 + 1) := hne _ _ (by omega)
          simp [rotation_file_module.rotate_file_loop, hc]
        · apply ih4 hk
          have hc : rotation_file_module.parse_filename file 0 ≠
              rotation_file_module.parse_filename file (k + 1) := hne _ _ (by omega)
          have hd : rotation_file_module.parse_filename file 0 ≠
              rotation_file_module.parse_filename file k := hne _ _ (by omega)
          simp only [hc, hd, if_false]
          exact h0

/-! ### rotate and log_message on an attached module -/

/-- The active file of an attached module exists and has `current_size_` characters. -/
theorem rotation_file_module.attached_exists {MessageType : Type} (fs : file_system)
    (m : rotation_file_module MessageType) (h : m.attached fs) :
    ∃ content, fs m.file_info_.name = some content ∧ content.length = m.current_size_ := by
  obtain ⟨_, hsize, _⟩ := h
  rcases hfile : fs m.file_info_.name with _ | content
  · simp [file_system.file_size, hfile] at hsize
  · refine ⟨content, rfl, ?_⟩
    simpa [file_system.file_size, hfile] using hsize

/-- The archive names of an attached module differ pairwise. -/
theorem rotation_file_module.attached_injective {MessageType : Type} (fs : file_system)
    (m : rotation_file_module MessageType) (h : m.attached fs) (i j : Nat)
    (hij : rotation_file_module.parse_filename m.file_info_ i =
      rotation_file_module.parse_filename m.file_info_ j) : i = j := by
  obtain ⟨_, _, hinfo⟩ := h
  rw [hinfo] at hij
  exact rotation_file_module.parse_filename_injective _ _ i j hij

/-- On an attached module `rotate` closes the file, runs the loop of `rotate_file` and
opens the file again; no exception leaves it. -/
theorem rotation_file_module.rotate_eq {MessageType : Type} (NDEBUG : Bool)
    (fs : file_system) (m : rotation_file_module MessageType) (h : m.attached fs) :
    m.rotate NDEBUG fs =
      some (rotation_file_module.open_file
        (rotation_file_module.rotate_file_loop m.file_info_
          (m.rotate_info_.file_count - 1).toNat fs).1 m.close_file, none) := by
  obtain ⟨content, hfile, _⟩ := rotation_file_module.attached_exists fs m h
  have hnone := (rotation_file_module.rotate_file_loop_spec m.file_info_
    (rotation_file_module.attached_injective fs m h)
    (m.rotate_info_.file_count - 1).toNat fs).1
  have hrotate : rotation_file_module.rotate_file NDEBUG fs m.close_file =
      some (rotation_file_module.rotate_file_loop m.file_info_
        (m.rotate_info_.file_count - 1).toNat fs) := by
    simp only [rotation_file_module.rotate_file, rotation_file_module.close_file, assert,
      file_system.exists_, hfile, Option.isSome_some, Bool.or_true, if_true]
  have hassert : assert NDEBUG (file_system.exists_ fs m.close_file.file_info_.name) = true := by
    simp only [rotation_file_module.close_file, assert, file_system.exists_, hfile,
      Option.isSome_some, Bool.or_true]
  simp only [rotation_file_module.rotate, hassert, if_true, hrotate]
  rcases hloop : rotation_file_module.rotate_file_loop m.file_info_
    (m.rotate_info_.file_count - 1).toNat fs with ⟨fs1, thrown⟩
  rw [hloop] at hnone
  simp only at hnone
  subst hnone
  rfl

/-- After `rotate` the module is attached again, with the same names, limits and
formatter. -/
theorem rotation_file_module.rotate_attached {MessageType : Type} (NDEBUG : Bool)
    (fs : file_system) (m : rotation_file_module MessageType) (h : m.attached fs) :
    ∃ fs1 size, m.rotate NDEBUG fs = some ((fs1, { m with current_size_ := size }), none) ∧
      rotation_file_module.attached fs1 { m with current_size_ := size } := by
  obtain ⟨hopen, hsize, hinfo⟩ := h
  rw [rotation_file_module.rotate_eq NDEBUG fs m ⟨hopen, hsize, hinfo⟩]
  generalize (rotation_file_module.rotate_file_loop m.file_info_
    (m.rotate_info_.file_count - 1).toNat fs).1 = fs1
  rcases hfile : fs1 m.file_info_.name with _ | content
  · refine ⟨Function.update fs1 m.file_info_.name (some []), 0, ?_, ?_⟩
    · simp [rotation_file_module.open_file, rotation_file_module.close_file,
        file_system.open_append, hfile, rotation_file_module.get_file_size,
        file_system.file_size, ← hopen]
    · exact ⟨hopen, by simp [file_system.file_size], hinfo⟩
  · refine ⟨fs1, content.length, ?_, ?_⟩
    · simp [rotation_file_module.open_file, rotation_file_module.close_file,
        file_system.open_append, hfile, rotation_file_module.get_file_size,
        file_system.file_size, ← hopen]
    · exact ⟨hopen, by simp [file_system.file_size, hfile], hinfo⟩

/-- With at least two files, `rotate` on an attached module leaves an empty active file. -/
theorem rotation_file_module.rotate_fresh {MessageType : Type} (NDEBUG : Bool)
    (fs : file_system) (m : rotation_file_module MessageType) (h : m.attached fs)
    (hcount : 2 ≤ m.rotate_info_.file_count) :
    m.rotate NDEBUG fs =
      some ((Function.update (rotation_file_module.rotate_file_loop m.file_info_
          (m.rotate_info_.file_count - 1).toNat fs).1 m.file_info_.name (some []),
        { m with current_size_ := 0 }), none) := by
  obtain ⟨content, hfile, _⟩ := rotation_file_module.attached_exists fs m h
  have hgone := (rotation_file_module.rotate_file_loop_spec m.file_info_
    (rotation_file_module.attached_injective fs m h)
    (m.rotate_info_.file_count - 1).toNat fs).2.2.2 (by omega)
    (by simp [rotation_file_module.parse_filename, hfile])
  simp only [rotation_file_module.parse_filename, lt_self_iff_false, gt_iff_lt,
    if_false] at hgone
  have hopen := h.1
  rw [rotation_file_module.rotate_eq NDEBUG fs m h]
  generalize (rotation_file_module.rotate_file_loop m.file_info_
    (m.rotate_info_.file_count - 1).toNat fs).1 = fs1 at hgone ⊢
  simp [rotation_file_module.open_file, rotation_file_module.close_file,
    file_system.open_append, hgone, rotation_file_module.get_file_size,
    file_system.file_size, ← hopen]

/-- The archive names of an attached module at positive indices differ from the name of
the active file. -/
theorem rotation_file_module.archive_ne_active {MessageType : Type} (fs : file_system)
    (m : rotation_file_module MessageType) (h : m.attached fs) (i : Nat) (hi : 1 ≤ i) :
    rotation_file_module.parse_filename m.file_info_ i ≠ m.file_info_.name := by
  intro heq
  have h0 : rotation_file_module.parse_filename m.file_info_ 0 = m.file_info_.name := by
    simp [rotation_file_module.parse_filename]
  rw [← h0] at heq
  have := rotation_file_module.attached_injective fs m h i 0 heq
  omega

/-- What `rotate` does to the files of an attached module with at least two files. -/
theorem rotation_file_module.rotate_outcome {MessageType : Type} (NDEBUG : Bool)
    (fs : file_system) (m : rotation_file_module MessageType) (h : m.attached fs)
    (hcount : 2 ≤ m.rotate_info_.file_count) :
    ∃ fs1, m.rotate NDEBUG fs = some ((fs1, { m with current_size_ := 0 }), none) ∧
      rotation_file_module.attached fs1 { m with current_size_ := 0 } ∧
      fs1 m.file_info_.name = some [] ∧
      (∀ i : Nat, 1 ≤ i → (i : Int) < m.rotate_info_.file_count →
        fs1 (rotation_file_module.parse_filename m.file_info_ i) =
          if (fs (rotation_file_module.parse_filename m.file_info_ (i - 1))).isSome then
            fs (rotation_file_module.parse_filename m.file_info_ (i - 1))
          else if (i : Int) = m.rotate_info_.file_count - 1 then
            fs (rotation_file_module.parse_filename m.file_info_ i)
          else none) ∧
      (∀ p, (∀ i : Nat, (i : Int) < m.rotate_info_.file_count →
          p ≠ rotation_file_module.parse_filename m.file_info_ i) → fs1 p = fs p) := by
  obtain ⟨_, hmoved, hrest, _⟩ := rotation_file_module.rotate_file_loop_spec m.file_info_
    (rotation_file_module.attached_injective fs m h)
    (m.rotate_info_.file_count - 1).toNat fs
  have h0 : rotation_file_module.parse_filename m.file_info_ 0 = m.file_info_.name := by
    simp [rotation_file_module.parse_filename]
  refine ⟨_, rotation_file_module.rotate_fresh NDEBUG fs m h hcount,
    ⟨h.1, by simp [file_system.file_size], h.2.2⟩, by simp, fun i h1 h2 => ?_, fun p hp => ?_⟩
  · rw [Function.update_noteq (rotation_file_module.archive_ne_active fs m h i h1)]
    rw [hrest i h1 (by omega)]
    have hiff : (i = (m.rotate_info_.file_count - 1).toNat) ↔
        ((i : Int) = m.rotate_info_.file_count - 1) := by omega
    by_cases hlast : (i : Int) = m.rotate_info_.file_count - 1
    · have hk : (m.rotate_info_.file_count - 1).toNat = i := by omega
      rw [hk]
      simp [hlast]
    · simp only [hiff, hlast, if_false]
  · have hp0 := hp 0 (by omega)
    rw [h0] at hp0
    rw [Function.update_noteq hp0]
    exact hmoved p fun i hi => hp i (by omega)

/-- A write to the active file of an attached module, with the size counted. -/
theorem rotation_file_module.write_attached {MessageType : Type} (fs : file_system)
    (m : rotation_file_module MessageType) (h : m.attached fs) (buffer : List Char) :
    rotation_file_module.attached (fs.write m.file_info_.name buffer)
      { m with current_size_ := m.current_size_ + buffer.length } := by
  obtain ⟨content, hfile, hlength⟩ := rotation_file_module.attached_exists fs m h
  refine ⟨h.1, ?_, h.2.2⟩
  simp [file_system.write, file_system.file_size, hfile, hlength]

/-- The call `log_message` on an attached module: `rotate` when the size reaches the
limit, then the write. -/
theorem rotation_file_module.log_message_outcome {MessageType : Type} (NDEBUG : Bool)
    (fs : file_system) (m : rotation_file_module MessageType) (logger : String)
    (message : MessageType) (h : m.attached fs) :
    ∃ fs0 size,
      (if m.rotate_info_.file_size ≤ m.current_size_ + (m.formatter_ logger message).length
        then m.rotate NDEBUG fs else some ((fs, m), none)) =
        some ((fs0, { m with current_size_ := size }), none) ∧
      rotation_file_module.attached fs0 { m with current_size_ := size } ∧
      m.log_message NDEBUG fs logger message =
        some ((fs0.write m.file_info_.name (m.formatter_ logger message),
          { m with current_size_ := size + (m.formatter_ logger message).length }), none) := by
  by_cases hlimit :
      m.rotate_info_.file_size ≤ m.current_size_ + (m.formatter_ logger message).length
  · obtain ⟨fs1, size, hrotate, hattached⟩ := rotation_file_module.rotate_attached NDEBUG fs m h
    refine ⟨fs1, size, by simp only [hlimit, if_true, hrotate], hattached, ?_⟩
    have hopen := h.1
    simp only [rotation_file_module.log_message, rotation_file_module.should_rotate, ge_iff_le,
      hlimit, decide_True, if_true, hrotate, hopen]
  · refine ⟨fs, m.current_size_, by simp only [hlimit, if_false], h, ?_⟩
    have hopen := h.1
    simp only [rotation_file_module.log_message, rotation_file_module.should_rotate, ge_iff_le,
      hlimit, decide_False, Bool.false_eq_true, if_false, hopen]

/-! ### Rotation at the size limit and the move of the archives -/

/-- C21: the call `log_message` on a module between calls, whose open file has
`current_size_` characters, runs `rotate` first exactly when `current_size_` plus the size
of the formatted message reaches `rotate_info_.file_size`, and is otherwise at once in the
state it was called in; in both cases the formatted message is then added to the end of
the active file as it is at that moment, and `current_size_` grows by the size of the
message. -/
theorem rotation_size_boundary {MessageType : Type} (NDEBUG : Bool) (fs : file_system)
    (m : rotation_file_module MessageType) (logger : String) (message : MessageType)
    (hattached : m.attached fs) :
    ∃ fs0 size content,
      (if m.rotate_info_.file_size ≤ m.current_size_ + (m.formatter_ logger message).length
        then m.rotate NDEBUG fs else some ((fs, m), none)) =
        some ((fs0, { m with current_size_ := size }), none) ∧
      fs0 m.file_info_.name = some content ∧ content.length = size ∧
      m.log_message NDEBUG fs logger message =
        some ((Function.update fs0 m.file_info_.name
            (some (content ++ m.formatter_ logger message)),
          { m with current_size_ := size + (m.formatter_ logger message).length }), none) := by
  obtain ⟨fs0, size, hbefore, hattached0, hlog⟩ :=
    rotation_file_module.log_message_outcome NDEBUG fs m logger message hattached
  obtain ⟨content, hfile, hlength⟩ := rotation_file_module.attached_exists fs0 _ hattached0
  refine ⟨fs0, size, content, hbefore, hfile, hlength, ?_⟩
  rw [hlog]
  simp only [file_system.write]
  rw [hfile]

/-- Witness for C21: the limit is 16 characters, the active file `X.ext` holds 15 and the
message is one character. -/
theorem rotation_size_boundary_witness :
    (sample_rotation_module 3 15).attached (sample_rotation_files "0123456789abcde".toList) ∧
    ∃ fs0 size content,
      (if (sample_rotation_module 3 15).rotate_info_.file_size ≤
          (sample_rotation_module 3 15).current_size_ +
            ((sample_rotation_module 3 15).formatter_ "logger" ['f']).length
        then (sample_rotation_module 3 15).rotate false
          (sample_rotation_files "0123456789abcde".toList)
        else some ((sample_rotation_files "0123456789abcde".toList,
          sample_rotation_module 3 15), none)) =
        some ((fs0, { sample_rotation_module 3 15 with current_size_ := size }), none) ∧
      fs0 (sample_rotation_module 3 15).file_info_.name = some content ∧
      content.length = size ∧
      (sample_rotation_module 3 15).log_message false
          (sample_rotation_files "0123456789abcde".toList) "logger" ['f'] =
        some ((Function.update fs0 (sample_rotation_module 3 15).file_info_.name
            (some (content ++ (sample_rotation_module 3 15).formatter_ "logger" ['f'])),
          { sample_rotation_module 3 15 with
            current_size_ :=
              size + ((sample_rotation_module 3 15).formatter_ "logger" ['f']).length }),
          none) :=
  ⟨⟨rfl, rfl, rfl⟩,
    rotation_size_boundary false (sample_rotation_files "0123456789abcde".toList)
      (sample_rotation_module 3 15) "logger" ['f'] ⟨rfl, rfl, rfl⟩⟩

/-- The move of the archives where there is one: one call of `rotate` on a module between
calls with `file_count` at least 2 throws nothing and leaves an empty active file with `current_size_` zero. Writing
`X i` for `parse_filename file_info_ i`, with `X 0` the active file: for every `i` from 1 to
`file_count - 1`, the file `X i` afterwards is the file `X (i - 1)` of before when there
was one, and when there was none `X i` is left without a file, except the last,
`X (file_count - 1)`, which keeps its own; so the content of the active file is in `X 1`
and the old content of the last archive is kept nowhere once its source exists. Every
other file is as before, in particular `X file_count` is not created. -/
theorem rotation_shifts_archives {MessageType : Type} (NDEBUG : Bool) (fs : file_system)
    (m : rotation_file_module MessageType) (hattached : m.attached fs)
    (hcount : 2 ≤ m.rotate_info_.file_count) :
    ∃ fs1, m.rotate NDEBUG fs = some ((fs1, { m with current_size_ := 0 }), none) ∧
      fs1 m.file_info_.name = some [] ∧
      (∀ i : Nat, 1 ≤ i → (i : Int) < m.rotate_info_.file_count →
        fs1 (rotation_file_module.parse_filename m.file_info_ i) =
          if (fs (rotation_file_module.parse_filename m.file_info_ (i - 1))).isSome then
            fs (rotation_file_module.parse_filename m.file_info_ (i - 1))
          else if (i : Int) = m.rotate_info_.file_count - 1 then
            fs (rotation_file_module.parse_filename m.file_info_ i)
          else none) ∧
      fs1 (rotation_file_module.parse_filename m.file_info_ 1) = fs m.file_info_.name ∧
      (∀ p, (∀ i : Nat, (i : Int) < m.rotate_info_.file_count →
          p ≠ rotation_file_module.parse_filename m.file_info_ i) → fs1 p = fs p) ∧
      fs1 (rotation_file_module.parse_filename m.file_info_ m.rotate_info_.file_count.toNat) =
        fs (rotation_file_module.parse_filename m.file_info_
          m.rotate_info_.file_count.toNat) := by
  obtain ⟨fs1, hrotate, _, hactive, hmoved, hrest⟩ :=
    rotation_file_module.rotate_outcome NDEBUG fs m hattached hcount
  obtain ⟨content, hfile, _⟩ := rotation_file_module.attached_exists fs m hattached
  refine ⟨fs1, hrotate, hactive, hmoved, ?_, hrest, ?_⟩
  · rw [hmoved 1 (by omega) (by omega)]
    simp [rotation_file_module.parse_filename, hfile]
  · apply hrest
    intro i hi heq
    have := rotation_file_module.attached_injective fs m hattached _ _ heq
    omega

/-- An instance of `rotation_shifts_archives`: `file_count` is 3 and the active file `X.ext`
and the archives `X-1.ext` and `X-2.ext` all exist. -/
theorem rotation_shifts_archives_witness :
    (sample_rotation_module 3 6).attached sample_full_archive_files ∧
    2 ≤ (sample_rotation_module 3 6).rotate_info_.file_count ∧
    ∃ fs1, (sample_rotation_module 3 6).rotate false sample_full_archive_files =
        some ((fs1, { sample_rotation_module 3 6 with current_size_ := 0 }), none) ∧
      fs1 (sample_rotation_module 3 6).file_info_.name = some [] ∧
      (∀ i : Nat, 1 ≤ i → (i : Int) < (sample_rotation_module 3 6).rotate_info_.file_count →
        fs1 (rotation_file_module.parse_filename (sample_rotation_module 3 6).file_info_ i) =
          if (sample_full_archive_files (rotation_file_module.parse_filename
              (sample_rotation_module 3 6).file_info_ (i - 1))).isSome then
            sample_full_archive_files (rotation_file_module.parse_filename
              (sample_rotation_module 3 6).file_info_ (i - 1))
          else if (i : Int) = (sample_rotation_module 3 6).rotate_info_.file_count - 1 then
            sample_full_archive_files (rotation_file_module.parse_filename
              (sample_rotation_module 3 6).file_info_ i)
          else none) ∧
      fs1 (rotation_file_module.parse_filename (sample_rotation_module 3 6).file_info_ 1) =
        sample_full_archive_files (sample_rotation_module 3 6).file_info_.name ∧
      (∀ p, (∀ i : Nat, (i : Int) < (sample_rotation_module 3 6).rotate_info_.file_count →
          p ≠ rotation_file_module.parse_filename (sample_rotation_module 3 6).file_info_ i) →
        fs1 p = sample_full_archive_files p) ∧
      fs1 (rotation_file_module.parse_filename (sample_rotation_module 3 6).file_info_
          (sample_rotation_module 3 6).rotate_info_.file_count.toNat) =
        sample_full_archive_files (rotation_file_module.parse_filename
          (sample_rotation_module 3 6).file_info_
          (sample_rotation_module 3 6).rotate_info_.file_count.toNat) :=
  ⟨⟨rfl, rfl, rfl⟩, by decide,
    rotation_shifts_archives false sample_full_archive_files (sample_rotation_module 3 6)
      ⟨rfl, rfl, rfl⟩ (by decide)⟩

/-- C22 (counterexample). The module for `X.ext` with a limit of 16 characters and
`file_count` 3 receives records of 8 characters. The first is written without a rotation
and each further one rotates first, so four records make three rotations and five make
four. After three rotations `X.ext`, `X-1.ext` and `X-2.ext` hold the last three records
and there is no `X-3.ext`; the fourth rotation drops the content of `X-2.ext` and again
creates no `X-3.ext`. Three and four calls of `rotate` alone give no `X-3.ext` either. -/
theorem rotation_chain_has_no_third_archive :
    (rotation_file_module.log_messages false "logger"
        ["record 1".toList, "record 2".toList, "record 3".toList, "record 4".toList]
        (sample_rotation_files [], sample_rotation_module 3 0)).map
      (fun r => (r.1.1 "X.ext".toList, r.1.1 "X-1.ext".toList, r.1.1 "X-2.ext".toList,
        r.1.1 "X-3.ext".toList)) =
      some (some "record 4".toList, some "record 3".toList, some "record 2".toList, none) ∧
    (rotation_file_module.log_messages false "logger"
        ["record 1".toList, "record 2".toList, "record 3".toList, "record 4".toList,
          "record 5".toList]
        (sample_rotation_files [], sample_rotation_module 3 0)).map
      (fun r => (r.1.1 "X.ext".toList, r.1.1 "X-1.ext".toList, r.1.1 "X-2.ext".toList,
        r.1.1 "X-3.ext".toList)) =
      some (some "record 5".toList, some "record 4".toList, some "record 3".toList, none) ∧
    (rotation_file_module.rotations false 3
        (sample_rotation_files [], sample_rotation_module 3 0)).map
      (fun r => r.1.1 "X-3.ext".toList) = some none ∧
    (rotation_file_module.rotations false 4
        (sample_rotation_files [], sample_rotation_module 3 0)).map
      (fun r => r.1.1 "X-3.ext".toList) = some none :=
  ⟨rfl, rfl, rfl, rfl⟩

/-- C22 (amended): on a module between calls with `file_count` 3, any number `n` of calls
of `rotate` throws nothing and leaves the file of the name with index 3 as it was at the
start, so no third archive is created; the call after them throws nothing either and, once
`n` is at least 2, the active file and the archives 1 and 2 all exist and that next
call puts the content of archive 1 in the place of archive 2, the content of the active
file in archive 1 and leaves an empty active file. -/
theorem rotation_chain_archives {MessageType : Type} (NDEBUG : Bool) (fs : file_system)
    (m : rotation_file_module MessageType) (hattached : m.attached fs)
    (hcount : m.rotate_info_.file_count = 3) (n : Nat) :
    ∃ fsn mn fs1 m1,
      rotation_file_module.rotations NDEBUG n (fs, m) = some ((fsn, mn), none) ∧
      rotation_file_module.rotations NDEBUG (n + 1) (fs, m) = some ((fs1, m1), none) ∧
      fsn (rotation_file_module.parse_filename m.file_info_ 3) =
        fs (rotation_file_module.parse_filename m.file_info_ 3) ∧
      fs1 (rotation_file_module.parse_filename m.file_info_ 3) =
        fs (rotation_file_module.parse_filename m.file_info_ 3) ∧
      (2 ≤ n →
        (fsn m.file_info_.name).isSome ∧
        (fsn (rotation_file_module.parse_filename m.file_info_ 1)).isSome ∧
        (fsn (rotation_file_module.parse_filename m.file_info_ 2)).isSome ∧
        fs1 (rotation_file_module.parse_filename m.file_info_ 2) =
          fsn (rotation_file_module.parse_filename m.file_info_ 1) ∧
        fs1 (rotation_file_module.parse_filename m.file_info_ 1) = fsn m.file_info_.name ∧
        fs1 m.file_info_.name = some []) := by
  have h0 : rotation_file_module.parse_filename m.file_info_ 0 = m.file_info_.name := by
    simp [rotation_file_module.parse_filename]
  have hstep : ∀ (fsa : file_system) (size : Nat),
      rotation_file_module.attached fsa { m with current_size_ := size } →
      ∃ fsb, rotation_file_module.rotate NDEBUG fsa { m with current_size_ := size } =
          some ((fsb, { m with current_size_ := 0 }), none) ∧
        rotation_file_module.attached fsb { m with current_size_ := 0 } ∧
        fsb m.file_info_.name = some [] ∧
        fsb (rotation_file_module.parse_filename m.file_info_ 1) = fsa m.file_info_.name ∧
        ((fsa (rotation_file_module.parse_filename m.file_info_ 1)).isSome →
          fsb (rotation_file_module.parse_filename m.file_info_ 2) =
            fsa (rotation_file_module.parse_filename m.file_info_ 1)) ∧
        fsb (rotation_file_module.parse_filename m.file_info_ 3) =
          fsa (rotation_file_module.parse_filename m.file_info_ 3) := by
    intro fsa size ha
    obtain ⟨fsb, hrotate, hb, hactive, hmoved, hrest⟩ :=
      rotation_file_module.rotate_outcome NDEBUG fsa { m with current_size_ := size } ha
        (by simp only [hcount]; decide)
    obtain ⟨content, hfile, _⟩ := rotation_file_module.attached_exists fsa _ ha
    refine ⟨fsb, hrotate, hb, hactive, ?_, fun hone => ?_, ?_⟩
    · have h1 := hmoved 1 (by omega) (by simp only [hcount]; decide)
      simp only [Nat.sub_self] at h1
      rw [h1]
      simp only [h0]
      simp [hfile]
    · have h2 := hmoved 2 (by omega) (by simp only [hcount]; decide)
      rw [h2]
      simp [hone]
    · apply hrest
      intro i hi heq
      have := rotation_file_module.attached_injective fsa _ ha _ _ heq
      simp only [hcount] at hi
      omega
  have hall : ∀ n : Nat, ∃ fsn size,
      rotation_file_module.rotations NDEBUG n (fs, m) =
        some ((fsn, { m with current_size_ := size }), none) ∧
      rotation_file_module.attached fsn { m with current_size_ := size } ∧
      fsn (rotation_file_module.parse_filename m.file_info_ 3) =
        fs (rotation_file_module.parse_filename m.file_info_ 3) ∧
      (1 ≤ n → (fsn (rotation_file_module.parse_filename m.file_info_ 1)).isSome) ∧
      (2 ≤ n → (fsn (rotation_file_module.parse_filename m.file_info_ 2)).isSome) := by
    intro n
    induction n with
    | zero =>
      exact ⟨fs, m.current_size_, rfl, hattached, rfl, fun h => by omega, fun h => by omega⟩
    | succ n ih =>
      obtain ⟨fsn, size, hrun, ha, hthird, hone, htwo⟩ := ih
      obtain ⟨fsb, hrotate, hb, _, hfirst, hsecond, hkeep⟩ := hstep fsn size ha
      obtain ⟨content, hfile, _⟩ := rotation_file_module.attached_exists fsn _ ha
      refine ⟨fsb, 0, ?_, hb, hkeep.trans hthird, fun _ => ?_, fun h2 => ?_⟩
      · simp only [rotation_file_module.rotations, hrun]
        exact hrotate
      · rw [hfirst]
        simp [hfile]
      · rw [hsecond (hone (by omega))]
        exact hone (by omega)
  obtain ⟨fsn, size, hrun, ha, hthird, hone, htwo⟩ := hall n
  obtain ⟨fsb, hrotate, hb, hactive, hfirst, hsecond, hkeep⟩ := hstep fsn size ha
  obtain ⟨content, hfile, _⟩ := rotation_file_module.attached_exists fsn _ ha
  refine ⟨fsn, { m with current_size_ := size }, fsb, { m with current_size_ := 0 }, hrun, ?_,
    hthird, hkeep.trans hthird, fun h2 => ?_⟩
  · simp only [rotation_file_module.rotations, hrun]
    exact hrotate
  · exact ⟨by simp [hfile], hone (by omega), htwo h2, hsecond (hone (by omega)), hfirst,
      hactive⟩

/-- Witness for C22: the module for `X.ext` with `file_count` 3 over an empty active file,
rotated two times and then a third time. -/
theorem rotation_chain_archives_witness :
    (sample_rotation_module 3 0).attached (sample_rotation_files []) ∧
    (sample_rotation_module 3 0).rotate_info_.file_count = 3 ∧
    ∃ fsn mn fs1 m1,
      rotation_file_module.rotations false 2
          (sample_rotation_files [], sample_rotation_module 3 0) = some ((fsn, mn), none) ∧
      rotation_file_module.rotations false (2 + 1)
          (sample_rotation_files [], sample_rotation_module 3 0) = some ((fs1, m1), none) ∧
      fsn (rotation_file_module.parse_filename (sample_rotation_module 3 0).file_info_ 3) =
        sample_rotation_files []
          (rotation_file_module.parse_filename (sample_rotation_module 3 0).file_info_ 3) ∧
      fs1 (rotation_file_module.parse_filename (sample_rotation_module 3 0).file_info_ 3) =
        sample_rotation_files []
          (rotation_file_module.parse_filename (sample_rotation_module 3 0).file_info_ 3) ∧
      (2 ≤ 2 →
        (fsn (sample_rotation_module 3 0).file_info_.name).isSome ∧
        (fsn (rotation_file_module.parse_filename
          (sample_rotation_module 3 0).file_info_ 1)).isSome ∧
        (fsn (rotation_file_module.parse_filename
          (sample_rotation_module 3 0).file_info_ 2)).isSome ∧
        fs1 (rotation_file_module.parse_filename (sample_rotation_module 3 0).file_info_ 2) =
          fsn (rotation_file_module.parse_filename
            (sample_rotation_module 3 0).file_info_ 1) ∧
        fs1 (rotation_file_module.parse_filename (sample_rotation_module 3 0).file_info_ 1) =
          fsn (sample_rotation_module 3 0).file_info_.name ∧
        fs1 (sample_rotation_module 3 0).file_info_.name = some []) :=
  ⟨⟨rfl, rfl, rfl⟩, rfl,
    rotation_chain_archives false (sample_rotation_files []) (sample_rotation_module 3 0)
      ⟨rfl, rfl, rfl⟩ rfl 2⟩

/-! ### The size of the active file -/

/-- The constructor with a positive size and a positive count throws nothing and leaves a
module in the state the other members expect between calls. -/
theorem rotation_file_module.construct_attached {MessageType : Type} (NDEBUG : Bool)
    (fs : file_system) (name : path) (info : rotate_info) (mode : construct_mode)
    (formatter : String → MessageType → List Char)
    (hsize : 0 < info.file_size) (hcount : 0 < info.file_count) :
    ∃ fs1 m1, rotation_file_module.construct NDEBUG fs name info mode formatter =
        some (fs1, .ok m1) ∧
      rotation_file_module.attached fs1 m1 ∧ m1.rotate_info_ = info ∧
      m1.file_info_.name = name ∧ m1.formatter_ = formatter := by
  have h1 : ¬ info.file_size ≤ 0 := by omega
  have h2 : ¬ info.file_count ≤ 0 := by omega
  simp only [rotation_file_module.construct, h1, h2, if_false]
  rcases hfile : fs name with _ | content
  · refine ⟨Function.update fs name (some []),
      { file_ := some name,
        file_info_ := rotation_file_module.get_file_info name ⟨[], [], [], []⟩,
        rotate_info_ := info,
        current_size_ := 0,
        formatter_ := formatter }, ?_, ⟨rfl, ?_, rfl⟩, rfl, rfl, rfl⟩
    · simp [rotation_file_module.get_file_info, file_system.exists_, hfile,
        rotation_file_module.open_file, file_system.open_append,
        rotation_file_module.get_file_size, file_system.file_size]
    · simp [rotation_file_module.get_file_info, rotation_file_module.get_file_size,
        file_system.file_size]
  · have hattached : rotation_file_module.attached fs
        ({ file_ := some name,
           file_info_ := rotation_file_module.get_file_info name ⟨[], [], [], []⟩,
           rotate_info_ := info,
           current_size_ := content.length,
           formatter_ := formatter } : rotation_file_module MessageType) :=
      ⟨rfl, by simp [rotation_file_module.get_file_info, file_system.file_size, hfile], rfl⟩
    have hopen : rotation_file_module.open_file fs
        ({ file_ := none,
           file_info_ := rotation_file_module.get_file_info name ⟨[], [], [], []⟩,
           rotate_info_ := info,
           current_size_ := 0,
           formatter_ := formatter } : rotation_file_module MessageType) =
        (fs, { file_ := some name,
               file_info_ := rotation_file_module.get_file_info name ⟨[], [], [], []⟩,
               rotate_info_ := info,
               current_size_ := content.length,
               formatter_ := formatter }) := by
      simp [rotation_file_module.open_file, rotation_file_module.get_file_info,
        file_system.open_append, hfile, rotation_file_module.get_file_size,
        file_system.file_size]
    have hexists : file_system.exists_ fs
        (rotation_file_module.get_file_info name ⟨[], [], [], []⟩).name = true := by
      simp [rotation_file_module.get_file_info, file_system.exists_, hfile]
    simp only [hexists, Bool.not_true, Bool.false_eq_true, if_false, hopen]
    split
    · obtain ⟨fs2, size, hrotate, hattached2⟩ :=
        rotation_file_module.rotate_attached NDEBUG fs _ hattached
      rw [hrotate]
      exact ⟨fs2, _, rfl, hattached2, rfl, rfl, rfl⟩
    · exact ⟨fs, _, rfl, hattached, rfl, rfl, rfl⟩

/-- With at least two files, a call of `log_message` whose formatted message is shorter
than the limit throws nothing and leaves the active file shorter than the limit, with
its size in `current_size_`. -/
theorem rotation_file_module.log_message_bounded {MessageType : Type} (NDEBUG : Bool)
    (fs : file_system) (m : rotation_file_module MessageType) (logger : String)
    (message : MessageType) (h : m.attached fs) (hcount : 2 ≤ m.rotate_info_.file_count)
    (hshort : (m.formatter_ logger message).length < m.rotate_info_.file_size) :
    ∃ fs1 size, m.log_message NDEBUG fs logger message =
        some ((fs1, { m with current_size_ := size }), none) ∧
      rotation_file_module.attached fs1 { m with current_size_ := size } ∧
      size < m.rotate_info_.file_size := by
  have hopen := h.1
  by_cases hlimit :
      m.rotate_info_.file_size ≤ m.current_size_ + (m.formatter_ logger message).length
  · obtain ⟨fs1, hrotate, hattached, _⟩ :=
      rotation_file_module.rotate_outcome NDEBUG fs m h hcount
    refine ⟨fs1.write m.file_info_.name (m.formatter_ logger message),
      0 + (m.formatter_ logger message).length, ?_,
      rotation_file_module.write_attached fs1 _ hattached _, by omega⟩
    simp only [rotation_file_module.log_message, rotation_file_module.should_rotate, ge_iff_le,
      hlimit, decide_True, if_true, hrotate, hopen]
  · refine ⟨fs.write m.file_info_.name (m.formatter_ logger message),
      m.current_size_ + (m.formatter_ logger message).length, ?_,
      rotation_file_module.write_attached fs m h _, by omega⟩
    simp only [rotation_file_module.log_message, rotation_file_module.should_rotate, ge_iff_le,
      hlimit, decide_False, Bool.false_eq_true, if_false, hopen]

/-- With at least two files, after every sequence of calls of `log_message` whose
formatted messages are shorter than the limit, none of which throws, the active file is
shorter than the limit and `current_size_` is its size. -/
theorem rotation_file_module.log_messages_bounded {MessageType : Type} (NDEBUG : Bool)
    (logger : String) (m : rotation_file_module MessageType)
    (hcount : 2 ≤ m.rotate_info_.file_count) (messages : List MessageType)
    (hshort : ∀ message ∈ messages,
      (m.formatter_ logger message).length < m.rotate_info_.file_size) :
    ∀ (fs : file_system) (size : Nat),
      rotation_file_module.attached fs { m with current_size_ := size } →
      size < m.rotate_info_.file_size →
      ∃ fs1 size1, rotation_file_module.log_messages NDEBUG logger messages
          (fs, { m with current_size_ := size }) =
          some ((fs1, { m with current_size_ := size1 }), none) ∧
        rotation_file_module.attached fs1 { m with current_size_ := size1 } ∧
        size1 < m.rotate_info_.file_size ∧
        ∃ content, fs1 m.file_info_.name = some content ∧ content.length = size1 ∧
          content.length ≤ m.rotate_info_.file_size - 1 := by
  induction messages with
  | nil =>
    intro fs size h hlt
    obtain ⟨content, hfile, hlength⟩ := rotation_file_module.attached_exists fs _ h
    exact ⟨fs, size, rfl, h, hlt, content, hfile, hlength, by simp only at hlength; omega⟩
  | cons message rest ih =>
    intro fs size h hlt
    obtain ⟨fs1, size1, hlog, h1, hlt1⟩ := rotation_file_module.log_message_bounded NDEBUG fs
      { m with current_size_ := size } logger message h hcount
      (hshort message (List.mem_cons_self _ _))
    obtain ⟨fs2, size2, hrun, hrest⟩ :=
      ih (fun message hmem => hshort message (List.mem_cons_of_mem _ hmem)) fs1 size1 h1 hlt1
    refine ⟨fs2, size2, ?_, hrest⟩
    simp only [rotation_file_module.log_messages, hlog]
    exact hrun

/-- C24 (failing input). The constructor accepts a limit of 16 characters with `file_count`
1 and gives the module for `X.ext` over an empty active file. Its loop of `rotate_file`
then has no turn and `open_file` opens the same file at its end: after two records of 8
characters the active file holds 16 characters, after three 24, above the 15 the
claim allows, and `current_size_` follows. -/
theorem rotation_single_file_grows :
    rotation_file_module.construct false (fun _ => none) "X.ext".toList ⟨16, 1⟩
        .append_previous (fun _ (message : List Char) => message) =
      some (sample_rotation_files [], .ok (sample_rotation_module 1 0)) ∧
    (rotation_file_module.log_messages false "logger" ["01234567".toList, "89abcdef".toList]
        (sample_rotation_files [], sample_rotation_module 1 0)).map
      (fun r => (r.1.1 "X.ext".toList, r.1.1 "X-1.ext".toList, r.1.2.current_size_,
        r.1.2.rotate_info_.file_size)) =
      some (some "0123456789abcdef".toList, none, 16, 16) ∧
    (rotation_file_module.log_messages false "logger"
        ["01234567".toList, "89abcdef".toList, "ghijklmn".toList]
        (sample_rotation_files [], sample_rotation_module 1 0)).map
      (fun r => (r.1.1 "X.ext".toList, r.1.1 "X-1.ext".toList, r.1.2.current_size_,
        r.1.2.rotate_info_.file_size)) =
      some (some "0123456789abcdefghijklmn".toList, none, 24, 16) :=
  ⟨rfl, rfl, rfl⟩

/-! ### Executions of the model on the set-ups of the test suite -/

/-- The call `sink::log` on a range whose rejected elements sit first, last and next to each
other: exactly the accepted elements 1, 2, 3 are appended to the queue, in order, and one
drain task is scheduled. -/
theorem sink_log_example :
    ({ sample_sink with filter_ := some (predicate fun _ message => message != 0) }).log
        (some ⟨[], none⟩)
        [sample_pack 0, sample_pack 1, sample_pack 0, sample_pack 0, sample_pack 2,
          sample_pack 3, sample_pack 0] =
      (({ sample_sink with
          filter_ := some (predicate fun _ message => message != 0),
          queue_ := ⟨[sample_pack 1, sample_pack 2, sample_pack 3]⟩ },
        some ⟨[.sink_token ()], none⟩), none) := by
  rfl

/-- The helper `queue_only_sink` of sink_test.cpp: a sink without thread pool logs a range;
the range is enqueued first, then `notify_thread_pool()` throws. -/
theorem queue_only_sink_example :
    (sample_sink.log none [sample_pack 1, sample_pack 2]).2 =
      some (runtime_error "Thread pool does not exist any longer.") ∧
    (sample_sink.log none [sample_pack 1, sample_pack 2]).1.1.queue_.buffer_ =
      [sample_pack 1, sample_pack 2] := by
  exact ⟨rfl, rfl⟩

/-- The cases of file_helper_test.cpp for `extract_file_extension`. -/
theorem extract_file_extension_examples :
    extract_file_extension "single_file.extension".toList =
      ("single_file".toList, ".extension".toList) ∧
    extract_file_extension "directory/file.extension".toList =
      ("directory/file".toList, ".extension".toList) ∧
    extract_file_extension "one_dot_file.".toList = ("one_dot_file".toList, ['.']) ∧
    extract_file_extension "current_directory/.".toList = ("current_directory/.".toList, []) ∧
    extract_file_extension "parent_directory/..".toList = ("parent_directory/..".toList, []) ∧
    extract_file_extension "directory/.hidden_file".toList =
      ("directory/.hidden_file".toList, []) ∧
    extract_file_extension "directory/.hidden_file.extension".toList =
      ("directory/.hidden_file".toList, ".extension".toList) ∧
    extract_file_extension "only.last.extension.are.extracted".toList =
      ("only.last.extension.are".toList, ".extracted".toList) ∧
    extract_file_extension "directory/no.extension.are.extracted/directory".toList =
      ("directory/no.extension.are.extracted/directory".toList, []) := by
  decide

/-- The limit is 16 characters. One character for an active file of 15 rotates first: the
15 characters are in `X-1.ext` and the active file holds the new one. One character for an
active file of 14 does not: the active file holds 15 and there is no archive. -/
theorem rotation_boundary_example :
    ((sample_rotation_module 3 15).log_message false
        (sample_rotation_files "0123456789abcde".toList) "logger" ['f']).map
      (fun r => (r.1.1 "X.ext".toList, r.1.1 "X-1.ext".toList, r.1.2.current_size_)) =
      some (some ['f'], some "0123456789abcde".toList, 1) ∧
    ((sample_rotation_module 3 14).log_message false
        (sample_rotation_files "0123456789abcd".toList) "logger" ['e']).map
      (fun r => (r.1.1 "X.ext".toList, r.1.1 "X-1.ext".toList, r.1.2.current_size_)) =
      some (some "0123456789abcde".toList, none, 15) := by
  exact ⟨rfl, rfl⟩

/-- Case `exist full archive file` of rotation_file_module_test.cpp, with `file_count` 3: a
message that reaches the limit moves the active file to `X-1.ext` and `X-1.ext` to
`X-2.ext`, whose old content is lost, and no `X-3.ext` exists afterwards. -/
theorem rotation_full_archive_example :
    ((sample_rotation_module 3 6).log_message false sample_full_archive_files "logger"
        "0123456789".toList).map
      (fun r => (r.1.1 "X.ext".toList, r.1.1 "X-1.ext".toList, r.1.1 "X-2.ext".toList,
        r.1.1 "X-3.ext".toList, r.1.2.current_size_)) =
      some (some "0123456789".toList, some "active".toList, some "first".toList, none, 10) := by
  rfl

end logency
